import Mathlib

/-!
# Typesense document validator: shallow embedding of `src/validator.cpp`

The development embeds `validator_t::validate_index_in_memory`,
`validator_t::coerce_element` and the six coercers
(`coerce_string`, `coerce_int32_t`, `coerce_int64_t`, `coerce_bool`,
`coerce_geopoint`, `coerce_float`) as pure functions on an explicit JSON
document state, and proves properties of them.

Modelling conventions:

* a JSON value is the inductive `Json`; the number payloads are exact
  (`Int` for `number_integer`, `Nat` for `number_unsigned`, and for
  `number_float` the finite double `mant * 2 ^ exp` as a `Double`);
* a document is the member list of a JSON object, `Doc`;
* a by-reference `nlohmann::json& document` is state passing: every function
  returns the document it leaves behind;
* a `nlohmann::json::iterator` into an array is the position `Nat` in it;
* a result is an `Outcome`: `ok v` for `Option<uint32_t>(v)`, `error c m` for
  `Option<>(c, m)`, `thrown w` when a C++ exception leaves the function and
  `undefined` where the C++ behaviour is not defined.
-/

namespace Typesense

set_option linter.unusedVariables false
set_option linter.unusedTactic false

/-! ## JSON values (nlohmann::json) -/

/-- A finite binary floating value, `mant * 2 ^ exp`, kept exactly.  JSON text
cannot denote an infinity or a NaN, so none is modelled. -/
structure Double where
  mant : Int
  exp : Int
  deriving DecidableEq, Repr

/-- The value kinds of `nlohmann::json`. -/
inductive Json where
  | null : Json
  | boolean (b : Bool) : Json
  | number_integer (n : Int) : Json
  | number_unsigned (n : Nat) : Json
  | number_float (x : Double) : Json
  | string (s : String) : Json
  | array (a : List Json) : Json
  | object (o : List (String × Json)) : Json

namespace Json

/-- The member `j.is_null()`. -/
def is_null : Json → Bool
  | null => true
  | _ => false

/-- The member `j.is_boolean()`. -/
def is_boolean : Json → Bool
  | boolean _ => true
  | _ => false

/-- The member `j.is_number_integer()`: true for signed and for unsigned integers. -/
def is_number_integer : Json → Bool
  | number_integer _ => true
  | number_unsigned _ => true
  | _ => false

/-- The member `j.is_number_float()`. -/
def is_number_float : Json → Bool
  | number_float _ => true
  | _ => false

/-- The member `j.is_number()`: integer or float. -/
def is_number (j : Json) : Bool :=
  j.is_number_integer || j.is_number_float

/-- The member `j.is_string()`. -/
def is_string : Json → Bool
  | string _ => true
  | _ => false

/-- The member `j.is_array()`. -/
def is_array : Json → Bool
  | array _ => true
  | _ => false

/-- The member `j.size()`: number of elements of an array or object, 0 for null, 1 for
every other value. -/
def size : Json → Nat
  | null => 0
  | array a => a.length
  | object o => o.length
  | _ => 1

/-- The elements of an array value (empty for a value that is no array). -/
def elems : Json → List Json
  | array a => a
  | _ => []

end Json

/-! ## Machine conversions -/

/-- INT32_MAX. -/
def INT32_MAX : Int := 2147483647

/-- INT32_MIN. -/
def INT32_MIN : Int := -2147483648

/-- INT64_MAX. -/
def INT64_MAX : Int := 9223372036854775807

/-- INT64_MIN. -/
def INT64_MIN : Int := -9223372036854775808

/-- Result of a conversion that can throw or be undefined. -/
inductive Conv (α : Type) where
  | val (a : α) : Conv α
  | throws (what : String) : Conv α
  | undef : Conv α
  deriving DecidableEq

/-- The conversion `static_cast<int64_t>(u)` for an unsigned 64-bit `u`: two's complement
reinterpretation. -/
def uint64_to_int64 (n : Nat) : Int :=
  if (n % 2 ^ 64 : Nat) < 2 ^ 63 then ((n % 2 ^ 64 : Nat) : Int)
  else ((n % 2 ^ 64 : Nat) : Int) - 2 ^ 64

/-- Truncation toward zero of `mant * 2 ^ exp`. -/
def trunc (x : Double) : Int :=
  if 0 ≤ x.exp then x.mant * 2 ^ x.exp.toNat
  else Int.tdiv x.mant (2 ^ (-x.exp).toNat)

/-- The conversion `static_cast<int32_t>(x)` for a floating value: truncation toward zero,
undefined when the truncated value is not representable. -/
def static_cast_int32 (x : Double) : Conv Int :=
  if INT32_MIN ≤ trunc x ∧ trunc x ≤ INT32_MAX then Conv.val (trunc x) else Conv.undef

/-- The conversion `static_cast<int64_t>(x)` for a floating value: truncation toward zero,
undefined when the truncated value is not representable. -/
def static_cast_int64 (x : Double) : Conv Int :=
  if INT64_MIN ≤ trunc x ∧ trunc x ≤ INT64_MAX then Conv.val (trunc x) else Conv.undef

/-- Round `a / 2 ^ s` to the nearest natural number, ties to even. -/
def round_half_even (a s : Nat) : Nat :=
  let q := a / 2 ^ s
  let r := a % 2 ^ s
  if 2 * r < 2 ^ s then q
  else if 2 ^ s < 2 * r then q + 1
  else if q % 2 = 0 then q else q + 1

/-- Number of binary digits of `n`, by halving; `fuel` bounds the halvings. -/
def bit_length_fuel : Nat → Nat → Nat
  | 0, _ => 0
  | fuel + 1, n => if n = 0 then 0 else bit_length_fuel fuel (n / 2) + 1

/-- Number of binary digits of `n` (0 for 0). -/
def bit_length (n : Nat) : Nat := bit_length_fuel n n

/-- The conversion `static_cast<float>(x)` of a double `x`: rounding to 24 significant bits,
ties to even.  The exponent range of binary32 is not modelled. -/
def to_float (x : Double) : Double :=
  let a : Nat := x.mant.natAbs
  let bits : Nat := bit_length a
  if bits ≤ 24 then x
  else
    let s : Nat := bits - 24
    let q : Int := (round_half_even a s : Int)
    if x.mant < 0 then ⟨-q, x.exp + s⟩ else ⟨q, x.exp + s⟩

/-- The floating value of an integer (exact; the 53-bit precision of a double
is not modelled). -/
def of_int (n : Int) : Double := ⟨n, 0⟩

/-- The conversion `j.get<float>()`: the three number kinds convert; every other kind throws
`type_error` 302. -/
def get_float : Json → Conv Double
  | Json.number_integer n => Conv.val (to_float (of_int n))
  | Json.number_unsigned n => Conv.val (to_float (of_int (n : Int)))
  | Json.number_float x => Conv.val (to_float x)
  | _ => Conv.throws "type_error.302"

/-- The conversion `j.get<std::string>()` of a string value (the validator reads it only
behind `is_string()`; other kinds throw in C++ and read as empty here). -/
def get_string : Json → String
  | Json.string s => s
  | _ => ""

/-- The conversion `j == true`. -/
def eq_true : Json → Bool
  | Json.boolean true => true
  | _ => false

/-- The conversion `j.get<int64_t>()`: only the three number kinds convert; every other
kind throws `type_error` 302. -/
def get_int64 : Json → Conv Int
  | Json.number_integer n => Conv.val n
  | Json.number_unsigned n => Conv.val (uint64_to_int64 n)
  | Json.number_float x => static_cast_int64 x
  | _ => Conv.throws "type_error.302"

/-! ## Documents: the members of a JSON object -/

/-- The members of the JSON object that is the document. -/
abbrev Doc := List (String × Json)

namespace Doc

/-- The value stored under a key, if any. -/
def find (document : Doc) (key : String) : Option Json :=
  match document with
  | [] => none
  | (k, v) :: rest => if k = key then some v else find rest key

/-- The member `document.contains(key)`. -/
def contains (document : Doc) (key : String) : Bool :=
  (find document key).isSome

/-- The member `document.count(key)`: 0 or 1. -/
def count (document : Doc) (key : String) : Nat :=
  if contains document key then 1 else 0

/-- The member `document.erase(key)`. -/
def erase (document : Doc) (key : String) : Doc :=
  document.filter (fun kv => decide (kv.1 ≠ key))

/-- The side effect of the non-const `document[key]`: an absent key is
inserted with value null. -/
def touch (document : Doc) (key : String) : Doc :=
  if contains document key then document else document ++ [(key, Json.null)]

/-- The value that the non-const `document[key]` refers to. -/
def index (document : Doc) (key : String) : Json :=
  (find document key).getD Json.null

/-- Assignment through the reference `document[key]`. -/
def assign (document : Doc) (key : String) (v : Json) : Doc :=
  (touch document key).map (fun kv => if kv.1 = key then (kv.1, v) else kv)

end Doc

/-! ## Schema fields, policies, operations, results -/

/-- Modelled from the spec: the field type names of `field_types` (the header
that declares them is not among the sources); the spec lists STRING, INT32,
INT64, FLOAT, BOOL, GEOPOINT, their array forms, and OBJECT / nested. -/
inductive field_types where
  | STRING | INT32 | INT64 | FLOAT | BOOL | GEOPOINT
  | STRING_ARRAY | INT32_ARRAY | INT64_ARRAY | FLOAT_ARRAY | BOOL_ARRAY
  | GEOPOINT_ARRAY | OBJECT | OBJECT_ARRAY
  deriving DecidableEq, Repr

/-- Modelled from the spec: the schema entry `field` (declared in a header
that is not among the sources) with the members the validator reads. -/
structure field where
  name : String
  type : field_types
  optional : Bool
  nested : Bool
  num_dim : Nat
  deriving DecidableEq, Repr

namespace field

/-- Modelled from the spec: `field::is_array()`, true for the array forms. -/
def is_array (f : field) : Bool :=
  match f.type with
  | field_types.STRING_ARRAY | field_types.INT32_ARRAY | field_types.INT64_ARRAY
  | field_types.FLOAT_ARRAY | field_types.BOOL_ARRAY | field_types.GEOPOINT_ARRAY
  | field_types.OBJECT_ARRAY => true
  | _ => false

/-- Modelled from the spec: `field::is_object()`, true for the nested OBJECT
containers. -/
def is_object (f : field) : Bool :=
  match f.type with
  | field_types.OBJECT | field_types.OBJECT_ARRAY => true
  | _ => false

end field

/-- The dirty-values policy. -/
inductive DIRTY_VALUES where
  | REJECT | DROP | COERCE_OR_REJECT | COERCE_OR_DROP
  deriving DecidableEq, Repr

/-- The kind of write a document arrives with. -/
inductive index_operation_t where
  | CREATE | UPSERT | UPDATE | EMPLACE | DELETE
  deriving DecidableEq, Repr

/-- What a call leaves behind: `ok v` is `Option<uint32_t>(v)`, `error c m` is
`Option<>(c, m)`, `thrown w` a C++ exception leaving the function, `undefined`
a step whose C++ behaviour is not defined. -/
inductive Outcome where
  | ok (value : Nat) : Outcome
  | error (code : Nat) (msg : String) : Outcome
  | thrown (what : String) : Outcome
  | undefined : Outcome
  deriving DecidableEq, Repr

namespace Outcome

/-- The test `Option::ok()` on a returned result. -/
def is_ok : Outcome → Bool
  | ok _ => true
  | _ => false

end Outcome

/-- The helpers the validator calls that are not among the sources: the
`StringUtils` predicates and conversions, and the C library parsers.  They are
parameters of the embedding.  `stof` returns `none` where `std::stof` throws. -/
structure StringUtils where
  is_int32_t : String → Bool
  is_int64_t : String → Bool
  is_float : String → Bool
  float_to_str : Double → String
  tolowercase : String → String
  atol : String → Int
  atoll : String → Int
  atof : String → Double
  stof : String → Option Double

/-! ## The reference `item` of a coercer

In array mode (`is_array`) the iterator `array_iter` is a position in the array
`document[field_name]`: the only caller passes an iterator of `doc_ele`, which
is a reference to that array. -/

/-- The document after `auto& item = is_array ? array_iter.value() :
document[field_name]` (the subscript inserts an absent key). -/
def item_bind (document : Doc) (field_name : String) (is_array : Bool) : Doc :=
  if is_array then document else Doc.touch document field_name

/-- The value `item` refers to. -/
def item_value (document : Doc) (field_name : String) (array_iter : Nat)
    (is_array : Bool) : Json :=
  if is_array then (Doc.index document field_name).elems.getD array_iter Json.null
  else Doc.index document field_name

/-- The document after `item = v`. -/
def item_assign (document : Doc) (field_name : String) (array_iter : Nat)
    (is_array : Bool) (v : Json) : Doc :=
  if is_array then
    Doc.assign document field_name
      (Json.array ((Doc.index document field_name).elems.set array_iter v))
  else Doc.assign document field_name v

/-- The document after `array_iter = document[field_name].erase(array_iter)`;
the returned iterator is the successor of the erased element, which is the same
position. -/
def array_erase (document : Doc) (field_name : String) (array_iter : Nat) : Doc :=
  Doc.assign document field_name
    (Json.array ((Doc.index document field_name).elems.eraseIdx array_iter))

/-- The erasure shared by the coercers:
`if(!is_array) document.erase(field_name); else { array_iter =
document[field_name].erase(array_iter); array_ele_erased = true; }`. -/
def erase_item (document : Doc) (field_name : String) (array_iter : Nat)
    (is_array : Bool) (array_ele_erased : Bool) : Doc × Bool :=
  if !is_array then (Doc.erase document field_name, array_ele_erased)
  else (array_erase document field_name array_iter, true)

/-! ## The coercers

Each coercer returns its result, the document it leaves and the flag
`array_ele_erased`. -/

/-- Embedding of `validator_t::coerce_string`. -/
def coerce_string (su : StringUtils) (dirty_values : DIRTY_VALUES)
    (fallback_field_type : String) (a_field : field) (document : Doc)
    (field_name : String) (array_iter : Nat) (is_array : Bool)
    (array_ele_erased : Bool) : Outcome × Doc × Bool :=
  let suffix : String := if is_array then "an array of" else "a"
  let document := item_bind document field_name is_array
  let item := item_value document field_name array_iter is_array
  if dirty_values = DIRTY_VALUES.REJECT then
    (Outcome.error 400 ("Field `" ++ field_name ++ "` must be " ++ suffix ++ " string."),
      document, array_ele_erased)
  else if dirty_values = DIRTY_VALUES.DROP then
    if !a_field.optional then
      (Outcome.error 400 ("Field `" ++ field_name ++ "` must be " ++ suffix ++ " string."),
        document, array_ele_erased)
    else
      (Outcome.ok 200, erase_item document field_name array_iter is_array array_ele_erased)
  -- we will try to coerce the value to a string
  else if item.is_number_integer then
    match get_int64 item with
    | Conv.val n =>
      (Outcome.ok 200,
        item_assign document field_name array_iter is_array (Json.string (toString n)),
        array_ele_erased)
    | Conv.throws w => (Outcome.thrown w, document, array_ele_erased)
    | Conv.undef => (Outcome.undefined, document, array_ele_erased)
  else if item.is_number_float then
    match get_float item with
    | Conv.val x =>
      (Outcome.ok 200,
        item_assign document field_name array_iter is_array (Json.string (su.float_to_str x)),
        array_ele_erased)
    | Conv.throws w => (Outcome.thrown w, document, array_ele_erased)
    | Conv.undef => (Outcome.undefined, document, array_ele_erased)
  else if item.is_boolean then
    (Outcome.ok 200,
      item_assign document field_name array_iter is_array
        (Json.string (if eq_true item then "true" else "false")),
      array_ele_erased)
  else if dirty_values = DIRTY_VALUES.COERCE_OR_DROP then
    if !a_field.optional then
      if a_field.nested && item.is_array then
        (Outcome.error 400 ("Field `" ++ field_name ++ "` has an incorrect type. Hint: field inside an array of objects must be an array type as well."),
          document, array_ele_erased)
      else
        (Outcome.error 400 ("Field `" ++ field_name ++ "` must be " ++ suffix ++ " string."),
          document, array_ele_erased)
    else
      (Outcome.ok 200, erase_item document field_name array_iter is_array array_ele_erased)
  else
    -- COERCE_OR_REJECT / non-optional + DROP
    if a_field.nested && item.is_array then
      (Outcome.error 400 ("Field `" ++ field_name ++ "` has an incorrect type. Hint: field inside an array of objects must be an array type as well."),
        document, array_ele_erased)
    else
      (Outcome.error 400 ("Field `" ++ field_name ++ "` must be " ++ suffix ++ " string."),
        document, array_ele_erased)

/-- Lines 259-267 of `coerce_int32_t`: the comparison of the stored value with
INT32_MAX and the final `return Option<uint32_t>(200)`. -/
def coerce_int32_t_range (dirty_values : DIRTY_VALUES) (a_field : field) (document : Doc)
    (field_name : String) (array_ele_erased : Bool) : Outcome × Doc × Bool :=
  if Doc.contains document field_name then
    match get_int64 (Doc.index document field_name) with
    | Conv.val v =>
      if v > INT32_MAX then
        if a_field.optional && (decide (dirty_values = DIRTY_VALUES.DROP) ||
            decide (dirty_values = DIRTY_VALUES.COERCE_OR_REJECT)) then
          (Outcome.ok 200, Doc.erase document field_name, array_ele_erased)
        else
          (Outcome.error 400 ("Field `" ++ field_name ++ "` exceeds maximum value of int32."),
            document, array_ele_erased)
      else (Outcome.ok 200, document, array_ele_erased)
    | Conv.throws w => (Outcome.thrown w, document, array_ele_erased)
    | Conv.undef => (Outcome.undefined, document, array_ele_erased)
  else (Outcome.ok 200, document, array_ele_erased)

/-- Embedding of `validator_t::coerce_int32_t`. -/
def coerce_int32_t (su : StringUtils) (dirty_values : DIRTY_VALUES) (a_field : field)
    (document : Doc) (field_name : String) (array_iter : Nat) (is_array : Bool)
    (array_ele_erased : Bool) : Outcome × Doc × Bool :=
  let suffix : String := if is_array then "an array of" else "an"
  let document := item_bind document field_name is_array
  let item := item_value document field_name array_iter is_array
  if dirty_values = DIRTY_VALUES.REJECT then
    (Outcome.error 400 ("Field `" ++ field_name ++ "` must be " ++ suffix ++ " int32."),
      document, array_ele_erased)
  else if dirty_values = DIRTY_VALUES.DROP then
    if !a_field.optional then
      (Outcome.error 400 ("Field `" ++ field_name ++ "` must be " ++ suffix ++ " int32."),
        document, array_ele_erased)
    else
      (Outcome.ok 200, erase_item document field_name array_iter is_array array_ele_erased)
  -- try to value coerce into an integer
  else if item.is_number_float then
    match get_float item with
    | Conv.val x =>
      match static_cast_int32 x with
      | Conv.val n =>
        coerce_int32_t_range dirty_values a_field
          (item_assign document field_name array_iter is_array (Json.number_integer n))
          field_name array_ele_erased
      | Conv.throws w => (Outcome.thrown w, document, array_ele_erased)
      | Conv.undef => (Outcome.undefined, document, array_ele_erased)
    | Conv.throws w => (Outcome.thrown w, document, array_ele_erased)
    | Conv.undef => (Outcome.undefined, document, array_ele_erased)
  else if item.is_boolean then
    coerce_int32_t_range dirty_values a_field
      (item_assign document field_name array_iter is_array
        (Json.number_integer (if eq_true item then 1 else 0)))
      field_name array_ele_erased
  else if item.is_string && su.is_int32_t (get_string item) then
    coerce_int32_t_range dirty_values a_field
      (item_assign document field_name array_iter is_array
        (Json.number_integer (su.atol (get_string item))))
      field_name array_ele_erased
  else if dirty_values = DIRTY_VALUES.COERCE_OR_DROP then
    if !a_field.optional then
      (Outcome.error 400 ("Field `" ++ field_name ++ "` must be " ++ suffix ++ " int32."),
        document, array_ele_erased)
    else
      coerce_int32_t_range dirty_values a_field
        (erase_item document field_name array_iter is_array array_ele_erased).1
        field_name
        (erase_item document field_name array_iter is_array array_ele_erased).2
  else
    -- COERCE_OR_REJECT / non-optional + DROP
    (Outcome.error 400 ("Field `" ++ field_name ++ "` must be " ++ suffix ++ " int32."),
      document, array_ele_erased)

/-- Embedding of `validator_t::coerce_int64_t`. -/
def coerce_int64_t (su : StringUtils) (dirty_values : DIRTY_VALUES) (a_field : field)
    (document : Doc) (field_name : String) (array_iter : Nat) (is_array : Bool)
    (array_ele_erased : Bool) : Outcome × Doc × Bool :=
  let suffix : String := if is_array then "an array of" else "an"
  let document := item_bind document field_name is_array
  let item := item_value document field_name array_iter is_array
  if dirty_values = DIRTY_VALUES.REJECT then
    (Outcome.error 400 ("Field `" ++ field_name ++ "` must be " ++ suffix ++ " int64."),
      document, array_ele_erased)
  else if dirty_values = DIRTY_VALUES.DROP then
    if !a_field.optional then
      (Outcome.error 400 ("Field `" ++ field_name ++ "` must be " ++ suffix ++ " int64."),
        document, array_ele_erased)
    else
      (Outcome.ok 200, erase_item document field_name array_iter is_array array_ele_erased)
  -- try to value coerce into an integer
  else if item.is_number_float then
    match get_float item with
    | Conv.val x =>
      match static_cast_int64 x with
      | Conv.val n =>
        (Outcome.ok 200,
          item_assign document field_name array_iter is_array (Json.number_integer n),
          array_ele_erased)
      | Conv.throws w => (Outcome.thrown w, document, array_ele_erased)
      | Conv.undef => (Outcome.undefined, document, array_ele_erased)
    | Conv.throws w => (Outcome.thrown w, document, array_ele_erased)
    | Conv.undef => (Outcome.undefined, document, array_ele_erased)
  else if item.is_boolean then
    (Outcome.ok 200,
      item_assign document field_name array_iter is_array
        (Json.number_integer (if eq_true item then 1 else 0)),
      array_ele_erased)
  else if item.is_string && su.is_int64_t (get_string item) then
    (Outcome.ok 200,
      item_assign document field_name array_iter is_array
        (Json.number_integer (su.atoll (get_string item))),
      array_ele_erased)
  else if dirty_values = DIRTY_VALUES.COERCE_OR_DROP then
    if !a_field.optional then
      (Outcome.error 400 ("Field `" ++ field_name ++ "` must be " ++ suffix ++ " int64."),
        document, array_ele_erased)
    else
      (Outcome.ok 200, erase_item document field_name array_iter is_array array_ele_erased)
  else
    -- COERCE_OR_REJECT / non-optional + DROP
    (Outcome.error 400 ("Field `" ++ field_name ++ "` must be " ++ suffix ++ " int64."),
      document, array_ele_erased)

/-- Embedding of `validator_t::coerce_bool`. -/
def coerce_bool (su : StringUtils) (dirty_values : DIRTY_VALUES) (a_field : field)
    (document : Doc) (field_name : String) (array_iter : Nat) (is_array : Bool)
    (array_ele_erased : Bool) : Outcome × Doc × Bool :=
  let suffix : String := if is_array then "a array of" else "a"
  let document := item_bind document field_name is_array
  let item := item_value document field_name array_iter is_array
  if dirty_values = DIRTY_VALUES.REJECT then
    (Outcome.error 400 ("Field `" ++ field_name ++ "` must be " ++ suffix ++ " bool."),
      document, array_ele_erased)
  else if dirty_values = DIRTY_VALUES.DROP then
    if !a_field.optional then
      (Outcome.error 400 ("Field `" ++ field_name ++ "` must be " ++ suffix ++ " bool."),
        document, array_ele_erased)
    else
      (Outcome.ok 200, erase_item document field_name array_iter is_array array_ele_erased)
  -- try to value coerce into a bool
  else if item.is_number_integer &&
      (decide (get_int64 item = Conv.val 1) || decide (get_int64 item = Conv.val 0)) then
    (Outcome.ok 200,
      item_assign document field_name array_iter is_array
        (Json.boolean (decide (get_int64 item = Conv.val 1))),
      array_ele_erased)
  else if item.is_string then
    let str_val := su.tolowercase (get_string item)
    if str_val = "true" then
      (Outcome.ok 200,
        item_assign document field_name array_iter is_array (Json.boolean true),
        array_ele_erased)
    else if str_val = "false" then
      (Outcome.ok 200,
        item_assign document field_name array_iter is_array (Json.boolean false),
        array_ele_erased)
    else
      (Outcome.error 400 ("Field `" ++ field_name ++ "` must be " ++ suffix ++ " bool."),
        document, array_ele_erased)
  else if dirty_values = DIRTY_VALUES.COERCE_OR_DROP then
    if !a_field.optional then
      (Outcome.error 400 ("Field `" ++ field_name ++ "` must be " ++ suffix ++ " bool."),
        document, array_ele_erased)
    else
      (Outcome.ok 200, erase_item document field_name array_iter is_array array_ele_erased)
  else
    -- COERCE_OR_REJECT / non-optional + DROP
    (Outcome.error 400 ("Field `" ++ field_name ++ "` must be " ++ suffix ++ " bool."),
      document, array_ele_erased)

/-- Embedding of `validator_t::coerce_float`. -/
def coerce_float (su : StringUtils) (dirty_values : DIRTY_VALUES) (a_field : field)
    (document : Doc) (field_name : String) (array_iter : Nat) (is_array : Bool)
    (array_ele_erased : Bool) : Outcome × Doc × Bool :=
  let suffix : String := if is_array then "a array of" else "a"
  let document := item_bind document field_name is_array
  let item := item_value document field_name array_iter is_array
  if dirty_values = DIRTY_VALUES.REJECT then
    (Outcome.error 400 ("Field `" ++ field_name ++ "` must be " ++ suffix ++ " float."),
      document, array_ele_erased)
  else if dirty_values = DIRTY_VALUES.DROP then
    if !a_field.optional then
      (Outcome.error 400 ("Field `" ++ field_name ++ "` must be " ++ suffix ++ " float."),
        document, array_ele_erased)
    else
      (Outcome.ok 200, erase_item document field_name array_iter is_array array_ele_erased)
  -- try to value coerce into a float
  else if item.is_string && su.is_float (get_string item) then
    (Outcome.ok 200,
      item_assign document field_name array_iter is_array
        (Json.number_float (su.atof (get_string item))),
      array_ele_erased)
  else if item.is_boolean then
    (Outcome.ok 200,
      item_assign document field_name array_iter is_array
        (Json.number_float (if eq_true item then of_int 1 else of_int 0)),
      array_ele_erased)
  else if dirty_values = DIRTY_VALUES.COERCE_OR_DROP then
    if !a_field.optional then
      (Outcome.error 400 ("Field `" ++ field_name ++ "` must be " ++ suffix ++ " float."),
        document, array_ele_erased)
    else
      (Outcome.ok 200, erase_item document field_name array_iter is_array array_ele_erased)
  else
    -- COERCE_OR_REJECT / non-optional + DROP
    (Outcome.error 400 ("Field `" ++ field_name ++ "` must be " ++ suffix ++ " float."),
      document, array_ele_erased)

/-- The array that the non-const subscript `item[idx]` leaves in `item`: null
becomes an array, an array shorter than `idx + 1` is filled up with nulls;
`none` for every other kind (`type_error` 305). -/
def subscript_fill (item : Json) (idx : Nat) : Option (List Json) :=
  match item with
  | Json.null => some (List.replicate (idx + 1) Json.null)
  | Json.array a => some (a ++ List.replicate (idx + 1 - a.length) Json.null)
  | _ => none

/-- Lines 420-424 and 426-430 of `coerce_geopoint` on the elements `a` of
`item`: `if(!item[i].is_number() && item[i].is_string()) {
if(StringUtils::is_float(item[i])) item[i] = std::stof(...); }`; `none` when
`std::stof` throws. -/
def coerce_geopoint_elem (su : StringUtils) (a : List Json) (i : Nat) : Option (List Json) :=
  let e := a.getD i Json.null
  if !e.is_number && e.is_string then
    if su.is_float (get_string e) then
      match su.stof (get_string e) with
      | some x => some (a.set i (Json.number_float x))
      | none => none
    else some a
  else some a

/-- Embedding of `validator_t::coerce_geopoint`. -/
def coerce_geopoint (su : StringUtils) (dirty_values : DIRTY_VALUES) (a_field : field)
    (document : Doc) (field_name : String) (array_iter : Nat) (is_array : Bool)
    (array_ele_erased : Bool) : Outcome × Doc × Bool :=
  let suffix : String := if is_array then "an array of" else "a"
  let document := item_bind document field_name is_array
  let item := item_value document field_name array_iter is_array
  if dirty_values = DIRTY_VALUES.REJECT then
    (Outcome.error 400 ("Field `" ++ field_name ++ "` must be " ++ suffix ++ " geopoint."),
      document, array_ele_erased)
  else if dirty_values = DIRTY_VALUES.DROP then
    if !a_field.optional then
      (Outcome.error 400 ("Field `" ++ field_name ++ "` must be " ++ suffix ++ " geopoint."),
        document, array_ele_erased)
    else
      (Outcome.ok 200, erase_item document field_name array_iter is_array array_ele_erased)
  -- try to value coerce into a geopoint
  else
    match subscript_fill item 0 with
    | none => (Outcome.thrown "type_error.305", document, array_ele_erased)
    | some a0 =>
      match coerce_geopoint_elem su a0 0 with
      | none =>
        (Outcome.thrown "std::stof",
          item_assign document field_name array_iter is_array (Json.array a0),
          array_ele_erased)
      | some a1 =>
        let a2 := a1 ++ List.replicate (2 - a1.length) Json.null
        match coerce_geopoint_elem su a2 1 with
        | none =>
          (Outcome.thrown "std::stof",
            item_assign document field_name array_iter is_array (Json.array a2),
            array_ele_erased)
        | some a3 =>
          let document := item_assign document field_name array_iter is_array (Json.array a3)
          if !(a3.getD 0 Json.null).is_number || !(a3.getD 1 Json.null).is_number then
            if dirty_values = DIRTY_VALUES.COERCE_OR_DROP then
              if !a_field.optional then
                (Outcome.error 400
                  ("Field `" ++ field_name ++ "` must be " ++ suffix ++ " geopoint."),
                  document, array_ele_erased)
              else
                (Outcome.ok 200,
                  erase_item document field_name array_iter is_array array_ele_erased)
            else
              -- COERCE_OR_REJECT / non-optional + DROP
              (Outcome.error 400
                ("Field `" ++ field_name ++ "` must be " ++ suffix ++ " geopoint."),
                document, array_ele_erased)
          else (Outcome.ok 200, document, array_ele_erased)

/-! ## coerce_element -/

/-- The pattern `if(!coerce_op.ok()) { return coerce_op; }` followed by the
final `return Option<uint32_t>(200)` of `coerce_element`. -/
def return_or_200 (coerce_op : Outcome × Doc × Bool) : Outcome × Doc :=
  if !coerce_op.1.is_ok then (coerce_op.1, coerce_op.2.1)
  else (Outcome.ok 200, coerce_op.2.1)

/-- The body of the element loop of `coerce_element` (lines 81-122) for the
element at position `it`: the result of the coercer called (`ok` when none is),
the document and `array_ele_erased`. -/
def coerce_element_item (su : StringUtils) (a_field : field) (document : Doc)
    (fallback_field_type : String) (dirty_values : DIRTY_VALUES) (it : Nat) :
    Outcome × Doc × Bool :=
  let field_name := a_field.name
  let item := (Doc.index document field_name).elems.getD it Json.null
  if a_field.type = field_types.STRING_ARRAY && !item.is_string then
    coerce_string su dirty_values fallback_field_type a_field document field_name it true false
  else if a_field.type = field_types.INT32_ARRAY && !item.is_number_integer then
    coerce_int32_t su dirty_values a_field document field_name it true false
  else if a_field.type = field_types.INT64_ARRAY && !item.is_number_integer then
    coerce_int64_t su dirty_values a_field document field_name it true false
  else if a_field.type = field_types.FLOAT_ARRAY && !item.is_number then
    -- we check for `is_number` to allow whole numbers to be passed into float fields
    coerce_float su dirty_values a_field document field_name it true false
  else if a_field.type = field_types.BOOL_ARRAY && !item.is_boolean then
    coerce_bool su dirty_values a_field document field_name it true false
  else if a_field.type = field_types.GEOPOINT_ARRAY then
    if !item.is_array || item.size ≠ 2 then
      (Outcome.error 400
        ("Field `" ++ field_name ++ "` must contain 2 element arrays: [ [lat, lng],... ]."),
        document, false)
    else if !((item.elems.getD 0 Json.null).is_number &&
        (item.elems.getD 1 Json.null).is_number) then
      -- one or more elements is not an number, try to coerce
      coerce_geopoint su dirty_values a_field document field_name it true false
    else (Outcome.ok 200, document, false)
  else (Outcome.ok 200, document, false)

/-- The element loop `for(; it != doc_ele.end(); )` of `coerce_element`
(lines 80-128), `doc_ele` being `document[field_name]`.  `fuel` bounds the
number of iterations; `none` when it does not suffice.  `some (ok 200, d)` is
the loop running to its end with document `d`; every other result is an early
`return coerce_op`.  A position never passes the end, so `it != end` is
`it < size`. -/
def coerce_element_loop (su : StringUtils) (a_field : field) (fallback_field_type : String)
    (dirty_values : DIRTY_VALUES) : Nat → Nat → Doc → Option (Outcome × Doc)
  | fuel, it, document =>
    if it < (Doc.index document a_field.name).size then
      match fuel with
      | 0 => none
      | fuel + 1 =>
        let coerce_op :=
          coerce_element_item su a_field document fallback_field_type dirty_values it
        if !coerce_op.1.is_ok then some (coerce_op.1, coerce_op.2.1)
        else
          -- if it is erased, the iterator will be reassigned
          coerce_element_loop su a_field fallback_field_type dirty_values fuel
            (if coerce_op.2.2 then it else it + 1) coerce_op.2.1
    else some (Outcome.ok 200, document)

/-- Embedding of `validator_t::coerce_element`.  The parameter `doc_ele` of the source is a
reference to `document[field_name]` (that is what the caller passes); it is
read from the document here. -/
def coerce_element (su : StringUtils) (a_field : field) (document : Doc)
    (fallback_field_type : String) (dirty_values : DIRTY_VALUES) : Outcome × Doc :=
  let field_name := a_field.name
  let doc_ele := Doc.index document field_name
  if a_field.type = field_types.STRING && !doc_ele.is_string then
    return_or_200
      (coerce_string su dirty_values fallback_field_type a_field document field_name 0 false false)
  else if a_field.type = field_types.INT32 then
    if !doc_ele.is_number_integer then
      return_or_200 (coerce_int32_t su dirty_values a_field document field_name 0 false false)
    else (Outcome.ok 200, document)
  else if a_field.type = field_types.INT64 && !doc_ele.is_number_integer then
    return_or_200 (coerce_int64_t su dirty_values a_field document field_name 0 false false)
  else if a_field.type = field_types.FLOAT && !doc_ele.is_number then
    -- using `is_number` allows integer to be passed to a float field
    return_or_200 (coerce_float su dirty_values a_field document field_name 0 false false)
  else if a_field.type = field_types.BOOL && !doc_ele.is_boolean then
    return_or_200 (coerce_bool su dirty_values a_field document field_name 0 false false)
  else if a_field.type = field_types.GEOPOINT then
    if !doc_ele.is_array || doc_ele.size ≠ 2 then
      (Outcome.error 400 ("Field `" ++ field_name ++ "` must be a 2 element array: [lat, lng]."),
        document)
    else if !((doc_ele.elems.getD 0 Json.null).is_number &&
        (doc_ele.elems.getD 1 Json.null).is_number) then
      -- one or more elements is not an number, try to coerce
      return_or_200 (coerce_geopoint su dirty_values a_field document field_name 0 false false)
    else (Outcome.ok 200, document)
  else if a_field.is_array then
    if !doc_ele.is_array then
      if a_field.optional && (decide (dirty_values = DIRTY_VALUES.DROP) ||
          decide (dirty_values = DIRTY_VALUES.COERCE_OR_DROP)) then
        (Outcome.ok 200, Doc.erase document field_name)
      else
        (Outcome.error 400 ("Field `" ++ field_name ++ "` must be an array."), document)
    -- `it = doc_ele.begin()`; `it->is_number()` on an empty array reads through
    -- `begin() == end()`
    else if a_field.nested && decide (a_field.type = field_types.GEOPOINT_ARRAY) &&
        decide (doc_ele.size = 0) then
      (Outcome.undefined, document)
    -- Handle a geopoint[] type inside an array of object
    else if a_field.nested && decide (a_field.type = field_types.GEOPOINT_ARRAY) &&
        (doc_ele.elems.getD 0 Json.null).is_number && decide (doc_ele.size = 2) then
      if !((doc_ele.elems.getD 0 Json.null).is_number &&
          (doc_ele.elems.getD 1 Json.null).is_number) then
        return_or_200 (coerce_geopoint su dirty_values a_field document field_name 0 true false)
      else (Outcome.ok 200, document)
    else
      match coerce_element_loop su a_field fallback_field_type dirty_values
          doc_ele.size 0 document with
      | some r => r
      | none => (Outcome.undefined, document)
  else (Outcome.ok 200, document)

/-! ## validate_index_in_memory -/

/-- The loop `for(const auto& a_field: search_schema)` of
`validate_index_in_memory` (lines 522-553) and the final
`return Option<>(200)`, over the schema fields in iteration order. -/
def validate_fields (su : StringUtils) (op : index_operation_t)
    (fallback_field_type : String) (dirty_values : DIRTY_VALUES) :
    List field → Doc → Outcome × Doc
  | [], document => (Outcome.ok 200, document)
  | a_field :: rest, document =>
    let field_name := a_field.name
    if decide (field_name = "id") || a_field.is_object then
      validate_fields su op fallback_field_type dirty_values rest document
    else if (a_field.optional || decide (op = index_operation_t.UPDATE) ||
        decide (op = index_operation_t.EMPLACE)) &&
        decide (Doc.count document field_name = 0) then
      validate_fields su op fallback_field_type dirty_values rest document
    else if Doc.count document field_name = 0 then
      (Outcome.error 400 ("Field `" ++ field_name ++
        "` has been declared in the schema, but is not found in the document."), document)
    else if a_field.optional && (Doc.index document field_name).is_null then
      -- we will ignore `null` on an option field
      if op ≠ index_operation_t.UPDATE ∧ op ≠ index_operation_t.EMPLACE then
        -- for updates, the erasure is done later since we need to keep the key for overwrite
        validate_fields su op fallback_field_type dirty_values rest
          (Doc.erase document field_name)
      else validate_fields su op fallback_field_type dirty_values rest document
    else
      let coerce_op := coerce_element su a_field document fallback_field_type dirty_values
      if !coerce_op.1.is_ok then coerce_op
      else validate_fields su op fallback_field_type dirty_values rest coerce_op.2

/-- Embedding of `validator_t::validate_index_in_memory`; `search_schema` lists the schema
fields in the iteration order of the map. -/
def validate_index_in_memory (su : StringUtils) (document : Doc) (seq_id : Nat)
    (default_sorting_field : String) (search_schema : List field)
    (op : index_operation_t) (fallback_field_type : String)
    (dirty_values : DIRTY_VALUES) : Outcome × Doc :=
  let missing_default_sort_field : Bool :=
    decide (default_sorting_field ≠ "") && decide (Doc.count document default_sorting_field = 0)
  if (decide (op ≠ index_operation_t.UPDATE) && decide (op ≠ index_operation_t.EMPLACE)) &&
      missing_default_sort_field then
    (Outcome.error 400 ("Field `" ++ default_sorting_field ++
      "` has been declared as a default sorting field, but is not found in the document."),
      document)
  else validate_fields su op fallback_field_type dirty_values search_schema document

/-! ## Declared shapes

The shape a value of each field type has when the document passes the gate:
string -> JSON string; int32, int64 -> JSON integer; float -> JSON number;
bool -> JSON boolean; geopoint -> 2-element array of numbers; `T[]` -> JSON
array whose every element has the shape of `T`. -/

/-- A 2-element array of numbers. -/
def is_geopoint_value : Json → Bool
  | Json.array [lat, lng] => lat.is_number && lng.is_number
  | _ => false

/-- The shape of a value of a scalar field type. -/
def scalar_shape : field_types → Json → Bool
  | field_types.STRING, v => v.is_string
  | field_types.INT32, v => v.is_number_integer
  | field_types.INT64, v => v.is_number_integer
  | field_types.FLOAT, v => v.is_number
  | field_types.BOOL, v => v.is_boolean
  | field_types.GEOPOINT, v => is_geopoint_value v
  | _, _ => false

/-- The element type of an array field type. -/
def element_type : field_types → Option field_types
  | field_types.STRING_ARRAY => some field_types.STRING
  | field_types.INT32_ARRAY => some field_types.INT32
  | field_types.INT64_ARRAY => some field_types.INT64
  | field_types.FLOAT_ARRAY => some field_types.FLOAT
  | field_types.BOOL_ARRAY => some field_types.BOOL
  | field_types.GEOPOINT_ARRAY => some field_types.GEOPOINT
  | _ => none

/-- The declared shape of a value of a field type. -/
def has_declared_shape (t : field_types) (v : Json) : Bool :=
  match element_type t with
  | some e => v.is_array && v.elems.all (scalar_shape e)
  | none => scalar_shape t v

/-! ## A concrete instance of the helpers

The `StringUtils` functions and the C library parsers are not among the
sources.  The theorems hold for every instance; the instance below evaluates
the validator on concrete documents. -/

/-- Round `a / b` to the nearest natural number, ties to even (`b` positive). -/
def round_div_half_even (a b : Nat) : Nat :=
  let q := a / b
  let r := a % b
  if 2 * r < b then q
  else if b < 2 * r then q + 1
  else if q % 2 = 0 then q else q + 1

/-- Round the positive ratio `a / b` to `bits` significant binary digits, ties
to even: the pair `(m, e)` with value `m * 2 ^ e`. -/
def round_ratio (bits a b : Nat) : Nat × Int :=
  let l : Int := (bit_length a : Int) - (bit_length b : Int)
  -- the exponent of the leading binary digit of a / b is l or l - 1
  let lead : Int := if b * 2 ^ l.toNat ≤ a * 2 ^ (-l).toNat then l else l - 1
  let e : Int := lead - ((bits : Int) - 1)
  let m := round_div_half_even (a * 2 ^ (-e).toNat) (b * 2 ^ e.toNat)
  if m = 2 ^ bits then (2 ^ (bits - 1), e + 1) else (m, e)

/-- The value of a string of decimal digits. -/
def digits_value (cs : List Char) : Nat :=
  cs.foldl (fun acc c => 10 * acc + (c.toNat - '0'.toNat)) 0

/-- An optional minus sign followed by one or more decimal digits. -/
def is_integer_chars : List Char → Bool
  | [] => false
  | '-' :: cs => !cs.isEmpty && cs.all Char.isDigit
  | cs => cs.all Char.isDigit

/-- The integer denoted by an optional minus sign and decimal digits. -/
def integer_value : List Char → Int
  | '-' :: cs => -(digits_value cs : Int)
  | cs => (digits_value cs : Int)

/-- The characters after an optional sign. -/
def drop_sign : List Char → List Char
  | '-' :: cs => cs
  | '+' :: cs => cs
  | cs => cs

/-- A sign is optional, then digits with at most one decimal point, and at
least one character after the sign. -/
def is_float_chars (cs : List Char) : Bool :=
  let body := drop_sign cs
  !body.isEmpty && body.all (fun c => c.isDigit || c == '.') && decide (body.count '.' ≤ 1)

/-- The decimal number `n / 10 ^ k` denoted by digits with an optional point. -/
def decimal_parts (body : List Char) : Nat × Nat :=
  (digits_value (body.filter Char.isDigit),
    ((body.dropWhile (fun c => c != '.')).drop 1).length)

/-- The decimal string nearest to `a / b` with `p` significant digits, as the
digits `n` and the power of ten `s` (value `n * 10 ^ s`); `q` is the decimal
exponent of the leading digit of `a / b`. -/
def decimal_round (a b : Nat) (q : Int) (p : Nat) : Nat × Int :=
  let s : Int := q - ((p : Int) - 1)
  let n := round_div_half_even (a * 10 ^ (-s).toNat) (b * 10 ^ s.toNat)
  if n = 10 ^ p then (10 ^ (p - 1), s + 1) else (n, s)

/-- The decimal exponent of the leading digit of the positive ratio `a / b`,
searched downward from `hi`. -/
def decimal_exponent (a b : Nat) : Nat → Int → Int
  | 0, hi => hi
  | fuel + 1, hi =>
    if b * 10 ^ hi.toNat ≤ a * 10 ^ (-hi).toNat then hi
    else decimal_exponent a b fuel (hi - 1)

/-- The digits `n` written with the decimal point `s` places from the right
end (`n * 10 ^ s`), in plain notation. -/
def decimal_string (n : Nat) (s : Int) : String :=
  let ds := (Nat.toDigits 10 n)
  if 0 ≤ s then String.mk (ds ++ List.replicate s.toNat '0')
  else if (-s).toNat < ds.length then
    String.mk (ds.take (ds.length - (-s).toNat) ++ '.' :: ds.drop (ds.length - (-s).toNat))
  else String.mk ('0' :: '.' :: List.replicate ((-s).toNat - ds.length) '0' ++ ds)

/-- The shortest decimal with at most `p + fuel` significant digits that
rounds back to the binary32 value `(m, e)` of `a / b`. -/
def shortest_decimal (a b : Nat) (m : Nat) (e : Int) (q : Int) : Nat → Nat → Nat × Int
  | 0, p => decimal_round a b q p
  | fuel + 1, p =>
    let d := decimal_round a b q p
    let back := round_ratio 24 (d.1 * 10 ^ d.2.toNat) (10 ^ (-d.2).toNat)
    if back.1 * 2 ^ (back.2 - min back.2 e).toNat = m * 2 ^ (e - min back.2 e).toNat then d
    else shortest_decimal a b m e q fuel (p + 1)

namespace StringUtils

/-- Modelled from the spec: the helpers `StringUtils::is_int32_t`,
`is_int64_t`, `is_float`, `float_to_str`, `tolowercase` (not among the
sources) and the parsers `std::atol`, `std::atoll`, `std::atof`, `std::stof`:
a numeric string is an optional sign and decimal digits (with at most one
point for a float) and parses to the number it denotes, rounded to the nearest
double (`atof`) or float (`stof`, which throws outside the normal float
range); a float prints as its shortest round-trip decimal string; letters
lowercase as in ASCII. -/
def model : StringUtils where
  is_int32_t := fun s => is_integer_chars s.data
  is_int64_t := fun s => is_integer_chars s.data
  is_float := fun s => is_float_chars s.data
  float_to_str := fun x =>
    if x.mant = 0 then "0"
    else
      let a := x.mant.natAbs * 2 ^ x.exp.toNat
      let b := 2 ^ (-x.exp).toNat
      let q := decimal_exponent a b 400 (Nat.toDigits 10 (a / b)).length
      let d := shortest_decimal a b x.mant.natAbs x.exp q 8 1
      (if x.mant < 0 then "-" else "") ++ decimal_string d.1 d.2
  tolowercase := fun s => String.mk (s.data.map Char.toLower)
  atol := fun s => integer_value s.data
  atoll := fun s => integer_value s.data
  atof := fun s =>
    let parts := decimal_parts (drop_sign s.data)
    if parts.1 = 0 then ⟨0, 0⟩
    else
      let r := round_ratio 53 parts.1 (10 ^ parts.2)
      if s.data.head? = some '-' then ⟨-(r.1 : Int), r.2⟩ else ⟨(r.1 : Int), r.2⟩
  stof := fun s =>
    let parts := decimal_parts (drop_sign s.data)
    if parts.1 = 0 then some ⟨0, 0⟩
    else
      let r := round_ratio 24 parts.1 (10 ^ parts.2)
      -- outside [FLT_MIN, FLT_MAX] the conversion reports a range error
      if 127 < r.2 + 23 ∨ r.2 + 23 < -126 then none
      else if s.data.head? = some '-' then some ⟨-(r.1 : Int), r.2⟩ else some ⟨(r.1 : Int), r.2⟩

end StringUtils

/-! ## Element-wise coercion to a string, in the words of the specification -/

/-- What the coercion rules for a string make of one value: a string is kept,
an integer becomes its decimal string, a float its printed form, a boolean
"true" or "false"; `none` for a value that cannot be coerced (null, array,
object). -/
def string_of_element (su : StringUtils) : Json → Option Json
  | Json.string s => some (Json.string s)
  | Json.number_integer n => some (Json.string (toString n))
  | Json.number_unsigned n => some (Json.string (toString n))
  | Json.number_float x => some (Json.string (su.float_to_str (to_float x)))
  | Json.boolean b => some (Json.string (if b then "true" else "false"))
  | _ => none

/-! ## The documented form of a result -/

/-- The message begins with "Field `name`". -/
def begins_with_field (name msg : String) : Bool :=
  ("Field `" ++ name ++ "`").data.isPrefixOf msg.data

/-- The documented form of a returned result: a success carries 200, a failure
carries 400 and a message that begins with the backtick-quoted `name`.  An
exception or undefined behaviour returns no result. -/
def Outcome.documented (name : String) : Outcome → Bool
  | Outcome.ok v => decide (v = 200)
  | Outcome.error code msg => decide (code = 400) && begins_with_field name msg
  | _ => true

/-! ## The array-length validation of a vector field -/

/-- Modelled from the spec: the array-length validation of a vector field,
which the spec places outside the coercion engine and which is not among the
sources: a field declared with `num_dim = N` whose value is an array of a
length other than N is rejected with "Field `X` must have N dimensions.";
`num_dim = 0` stands for a field declared without `num_dim`. -/
def validate_num_dim (a_field : field) (document : Doc) : Outcome :=
  if a_field.num_dim = 0 then Outcome.ok 200
  else
    match Doc.find document a_field.name with
    | some (Json.array a) =>
      if a.length ≠ a_field.num_dim then
        Outcome.error 400
          ("Field `" ++ a_field.name ++ "` must have " ++ toString a_field.num_dim ++
            " dimensions.")
      else Outcome.ok 200
    | _ => Outcome.ok 200

/-- Modelled from the spec: validation of a document at ingest, the coercion
engine (`validate_index_in_memory`) followed by the array-length validation
of the schema fields in order; the second step is not among the sources. -/
def validate_document (su : StringUtils) (document : Doc) (seq_id : Nat)
    (default_sorting_field : String) (search_schema : List field)
    (op : index_operation_t) (fallback_field_type : String)
    (dirty_values : DIRTY_VALUES) : Outcome × Doc :=
  let r := validate_index_in_memory su document seq_id default_sorting_field search_schema op
    fallback_field_type dirty_values
  if !r.1.is_ok then r
  else
    match (search_schema.map (fun f => validate_num_dim f r.2)).find?
        (fun o => !o.is_ok) with
    | some e => (e, r.2)
    | none => r

/-! ## Hybrid rank fusion -/

/-- Modelled from the spec: a hit of a hybrid query with its 1-based rank in
the text list and in the vector list (`none` for a document absent from that
list).  The ranker is not among the sources. -/
structure hybrid_hit where
  id : String
  r_text : Option Nat
  r_vec : Option Nat

/-- Modelled from the spec: the reciprocal-rank term of one list, `1/r`, and 0
for a document absent from the list. -/
def reciprocal_rank : Option Nat → ℚ
  | some r => 1 / (r : ℚ)
  | none => 0

/-- Modelled from the spec: the fused score
`(1/r_text) * W_text + (1/r_vec) * W_vec` with the fixed weights
`W_text = 0.7` and `W_vec = 0.3`. -/
def rank_fusion_score (h : hybrid_hit) : ℚ :=
  reciprocal_rank h.r_text * (7 / 10) + reciprocal_rank h.r_vec * (3 / 10)

/-- Modelled from the spec: the final ordering of reciprocal-rank fusion,
descending fused score; the hits are given in text order and ties keep it. -/
def rank_fusion (hits : List hybrid_hit) : List hybrid_hit :=
  hits.insertionSort (fun a b => rank_fusion_score b ≤ rank_fusion_score a)

/-! ## The vector index: capacity and tombstones -/

/-- Modelled from the spec: the state of the vector index of one field (the
index is not among the sources).  `capacity` is the current maximum number of
element slots (`getMaxElements` in the tests), `live` holds the records
`(seq_id, vector)` of the live slots, `tombstone_count` is the number of slots
removed and not yet reused (`getDeletedCount`). -/
structure VectorIndex where
  capacity : Nat
  live : List (Nat × List ℚ)
  tombstone_count : Nat

namespace VectorIndex

/-- Modelled from the spec: a new index, with the default capacity 1024. -/
def fresh : VectorIndex := ⟨1024, [], 0⟩

/-- The number of live vectors. -/
def live_count (x : VectorIndex) : Nat := x.live.length

/-- The number of stored slots, live and tombstoned (`getCurrentElementCount`
in the tests). -/
def element_count (x : VectorIndex) : Nat := x.live.length + x.tombstone_count

/-- The sequence id is live: its vector can be retrieved. -/
def is_live (x : VectorIndex) (seq_id : Nat) : Bool :=
  decide (seq_id ∈ x.live.map Prod.fst)

/-- Modelled from the spec: `insert(seq_id, vector)`.  A live id has its vector
replaced; otherwise a tombstoned slot is reused first; otherwise, when the
insert would exceed the capacity, the capacity is grown (doubled, or to the
needed size if larger) before the vector is stored. -/
def insert (x : VectorIndex) (seq_id : Nat) (vector : List ℚ) : VectorIndex :=
  if x.is_live seq_id then
    { x with live := x.live.map (fun r => if r.1 = seq_id then (seq_id, vector) else r) }
  else if 0 < x.tombstone_count then
    { x with live := (seq_id, vector) :: x.live, tombstone_count := x.tombstone_count - 1 }
  else if x.capacity < x.live.length + 1 then
    { capacity := max (2 * x.capacity) (x.live.length + 1),
      live := (seq_id, vector) :: x.live,
      tombstone_count := x.tombstone_count }
  else { x with live := (seq_id, vector) :: x.live }

/-- Modelled from the spec: `remove(seq_id)` marks the slot of a live id
tombstoned, without shrinking the capacity; an id that is not live is left
alone. -/
def remove (x : VectorIndex) (seq_id : Nat) : VectorIndex :=
  if x.is_live seq_id then
    { x with live := x.live.filter (fun r => decide (r.1 ≠ seq_id)),
             tombstone_count := x.tombstone_count + 1 }
  else x

/-- Insertion of a list of records, in order. -/
def insert_all (x : VectorIndex) (records : List (Nat × List ℚ)) : VectorIndex :=
  records.foldl (fun y r => y.insert r.1 r.2) x

/-- Removal of a list of sequence ids, in order. -/
def remove_all (x : VectorIndex) (seq_ids : List Nat) : VectorIndex :=
  seq_ids.foldl remove x

end VectorIndex

/-- A change of the vector index. -/
inductive index_change where
  | insert (seq_id : Nat) (vector : List ℚ)
  | remove (seq_id : Nat)

/-- The index after one change. -/
def VectorIndex.apply (x : VectorIndex) : index_change → VectorIndex
  | index_change.insert seq_id vector => x.insert seq_id vector
  | index_change.remove seq_id => x.remove seq_id

/-- The index after a sequence of changes to a new index. -/
def VectorIndex.run (changes : List index_change) : VectorIndex :=
  changes.foldl VectorIndex.apply VectorIndex.fresh

/-! ## Vector search -/

/-- The inner product of two vectors. -/
def dot (a b : List ℚ) : ℚ := (List.zipWith (fun x y => x * y) a b).sum

/-- Modelled from the spec: the squared Euclidean (L2) distance, the metric the
spec names for the index. -/
def l2_squared (a b : List ℚ) : ℚ := (List.zipWith (fun x y => (x - y) ^ 2) a b).sum

/-- Modelled from the spec: the similarity that ranks the hits of the index,
which is not among the sources.  The distances that the tests
`BasicVectorQuerying` and `DistanceThresholdTest` expect are cosine distances
`1 - cos`, with `cos = dot q v / sqrt (dot q q * dot v v)`.  That number is
irrational in general; the model keeps `cos * |cos|`, a rational number that
grows with `cos`, so that a smaller distance is a larger value. -/
def signed_cos_squared (q v : List ℚ) : ℚ :=
  if 0 ≤ dot q v then (dot q v) ^ 2 / (dot q q * dot v v)
  else -((dot q v) ^ 2 / (dot q q * dot v v))

/-- The cosine distance `1 - cos` of `v` from `q` is at most `t`, that is,
`1 - t ≤ cos`, compared through `x * |x|`. -/
def cosine_distance_le (q v : List ℚ) (t : ℚ) : Bool :=
  decide ((if 0 ≤ 1 - t then (1 - t) ^ 2 else -((1 - t) ^ 2)) ≤ signed_cos_squared q v)

/-- Modelled from the spec: `search(query_vector, k, distance_threshold?)` over
the records `(seq_id, vector)` of an index: the `k` nearest records in
ascending distance; when a threshold is supplied, every candidate whose
distance exceeds it is excluded, even if it is in the top `k`. -/
def vector_search (records : List (Nat × List ℚ)) (query_vector : List ℚ) (k : Nat)
    (distance_threshold : Option ℚ) : List (Nat × List ℚ) :=
  let ranked := (records.insertionSort (fun a b =>
    signed_cos_squared query_vector b.2 ≤ signed_cos_squared query_vector a.2)).take k
  match distance_threshold with
  | none => ranked
  | some t => ranked.filter (fun r => cosine_distance_le query_vector r.2 t)

/-- Modelled from the spec: the search of an index runs over its live records;
tombstoned slots are excluded. -/
def VectorIndex.search (x : VectorIndex) (query_vector : List ℚ) (k : Nat)
    (distance_threshold : Option ℚ) : List (Nat × List ℚ) :=
  vector_search x.live query_vector k distance_threshold

/-! ## text_embedder.cpp: pooling and padding -/

/-- The inner loop of `TextEmbedder::mean_pooling` (lines 77-80) for the column
`i`: `sum += inputs[j][i]` over the rows in order, starting from `sum`; `none`
when a row has no element `i`, a read past the end of the vector. -/
def mean_pooling_sum (i : Nat) : List (List ℚ) → ℚ → Option ℚ
  | [], sum => some sum
  | row :: rest, sum =>
    match row.get? i with
    | some x => mean_pooling_sum i rest (sum + x)
    | none => none

/-- The outer loop of `TextEmbedder::mean_pooling` (lines 76-82) over the `n`
columns from `i` on: each column pushes `sum / inputs.size()`. -/
def mean_pooling_loop (inputs : List (List ℚ)) : Nat → Nat → Option (List ℚ)
  | 0, _ => some []
  | n + 1, i =>
    match mean_pooling_sum i inputs 0 with
    | none => none
    | some sum =>
      match mean_pooling_loop inputs n (i + 1) with
      | none => none
      | some pooled_output => some (sum / (inputs.length : ℚ) :: pooled_output)

/-- Embedding of `TextEmbedder::mean_pooling` over exact arithmetic (the source
computes in `float`).  The bound of the outer loop is `inputs[0].size()`, read
unconditionally: on the empty list that is undefined behaviour, `none`. -/
def mean_pooling (inputs : List (List ℚ)) : Option (List ℚ) :=
  match inputs with
  | [] => none
  | first :: _ => mean_pooling_loop inputs first.length 0

/-- The result `encoded_input_t` of the tokenizer, with the members that
`batch_encode` reads; the header that declares it is not among the sources. -/
structure encoded_input_t where
  input_ids : List Int
  attention_mask : List Int
  token_type_ids : List Int

/-- The result `batch_encoded_input_t` of `batch_encode`, one row per input;
the header that declares it is not among the sources. -/
structure batch_encoded_input_t where
  input_ids : List (List Int)
  attention_mask : List (List Int)
  token_type_ids : List (List Int)

/-- The member `v.resize(n, fill)` of `std::vector`: the first `n` elements,
filled up to `n` with `fill`. -/
def resize (v : List Int) (n : Nat) (fill : Int) : List Int :=
  v.take n ++ List.replicate (n - v.length) fill

/-- Lines 359-364 of `batch_encode`: the greatest `input_ids.size()`. -/
def max_input_len (input_ids : List (List Int)) : Nat :=
  input_ids.foldl (fun max_len ids => if ids.length > max_len then ids.length else max_len) 0

/-- Embedding of `TextEmbedder::batch_encode`; the tokenizer call
`tokenizer_->Encode(input)` is the parameter `Encode`.  The rows are pushed in
the order of the inputs, then every row of the three members is resized to
`max_input_len` with zeros. -/
def batch_encode (Encode : String → encoded_input_t) (inputs : List String) :
    batch_encoded_input_t :=
  let encoded_inputs : batch_encoded_input_t :=
    ⟨inputs.map (fun input => (Encode input).input_ids),
      inputs.map (fun input => (Encode input).attention_mask),
      inputs.map (fun input => (Encode input).token_type_ids)⟩
  -- Pad inputs
  let max_len := max_input_len encoded_inputs.input_ids
  ⟨encoded_inputs.input_ids.map (fun input_ids => resize input_ids max_len 0),
    encoded_inputs.attention_mask.map (fun attention_mask => resize attention_mask max_len 0),
    encoded_inputs.token_type_ids.map (fun token_type_ids => resize token_type_ids max_len 0)⟩

/-! ## Documents: lookup after erase, touch and assign -/

theorem Doc.find_cons_self (k : String) (v : Json) (rest : Doc) :
    Doc.find ((k, v) :: rest) k = some v := by
  simp [Doc.find]

theorem Doc.find_cons_ne (k0 k : String) (v : Json) (rest : Doc) (h : k0 ≠ k) :
    Doc.find ((k0, v) :: rest) k = Doc.find rest k := by
  simp [Doc.find, h]

theorem Doc.erase_cons_self (k : String) (v : Json) (rest : Doc) :
    Doc.erase ((k, v) :: rest) k = Doc.erase rest k := by
  simp [Doc.erase]

theorem Doc.erase_cons_ne (k0 k : String) (v : Json) (rest : Doc) (h : k0 ≠ k) :
    Doc.erase ((k0, v) :: rest) k = (k0, v) :: Doc.erase rest k := by
  simp [Doc.erase, h]

theorem Doc.find_erase_self (d : Doc) (k : String) : Doc.find (Doc.erase d k) k = none := by
  induction d with
  | nil => rfl
  | cons kv rest ih =>
    obtain ⟨k0, v0⟩ := kv
    by_cases h : k0 = k
    · subst h
      rw [Doc.erase_cons_self]
      exact ih
    · rw [Doc.erase_cons_ne _ _ _ _ h, Doc.find_cons_ne _ _ _ _ h]
      exact ih

theorem Doc.find_erase_ne (d : Doc) (k k' : String) (h : k' ≠ k) :
    Doc.find (Doc.erase d k) k' = Doc.find d k' := by
  induction d with
  | nil => rfl
  | cons kv rest ih =>
    obtain ⟨k0, v0⟩ := kv
    by_cases h0 : k0 = k
    · subst h0
      rw [Doc.erase_cons_self, Doc.find_cons_ne _ _ _ _ (Ne.symm h)]
      exact ih
    · rw [Doc.erase_cons_ne _ _ _ _ h0]
      by_cases h1 : k0 = k'
      · subst h1
        rw [Doc.find_cons_self, Doc.find_cons_self]
      · rw [Doc.find_cons_ne _ _ _ _ h1, Doc.find_cons_ne _ _ _ _ h1]
        exact ih

theorem Doc.erase_of_find_none (d : Doc) (k : String) (h : Doc.find d k = none) :
    Doc.erase d k = d := by
  induction d with
  | nil => rfl
  | cons kv rest ih =>
    obtain ⟨k0, v0⟩ := kv
    by_cases h0 : k0 = k
    · subst h0
      rw [Doc.find_cons_self] at h
      cases h
    · rw [Doc.find_cons_ne _ _ _ _ h0] at h
      rw [Doc.erase_cons_ne _ _ _ _ h0, ih h]

theorem Doc.touch_of_find (d : Doc) (k : String) (v : Json) (h : Doc.find d k = some v) :
    Doc.touch d k = d := by
  simp [Doc.touch, Doc.contains, h]

theorem Doc.index_of_find (d : Doc) (k : String) (v : Json) (h : Doc.find d k = some v) :
    Doc.index d k = v := by
  simp [Doc.index, h]

theorem Doc.find_append_ne (d : Doc) (k k' : String) (v : Json) (h : k' ≠ k) :
    Doc.find (d ++ [(k, v)]) k' = Doc.find d k' := by
  induction d with
  | nil =>
    show Doc.find [(k, v)] k' = Doc.find [] k'
    rw [Doc.find_cons_ne _ _ _ _ (Ne.symm h)]
  | cons kv rest ih =>
    obtain ⟨k0, v0⟩ := kv
    show Doc.find ((k0, v0) :: (rest ++ [(k, v)])) k' = Doc.find ((k0, v0) :: rest) k'
    by_cases h1 : k0 = k'
    · subst h1
      rw [Doc.find_cons_self, Doc.find_cons_self]
    · rw [Doc.find_cons_ne _ _ _ _ h1, Doc.find_cons_ne _ _ _ _ h1]
      exact ih

theorem Doc.find_append_self (d : Doc) (k : String) (v : Json) (h : Doc.find d k = none) :
    Doc.find (d ++ [(k, v)]) k = some v := by
  induction d with
  | nil => exact Doc.find_cons_self k v []
  | cons kv rest ih =>
    obtain ⟨k0, v0⟩ := kv
    show Doc.find ((k0, v0) :: (rest ++ [(k, v)])) k = some v
    by_cases h0 : k0 = k
    · subst h0
      rw [Doc.find_cons_self] at h
      cases h
    · rw [Doc.find_cons_ne _ _ _ _ h0] at h
      rw [Doc.find_cons_ne _ _ _ _ h0]
      exact ih h

theorem Doc.find_touch_ne (d : Doc) (k k' : String) (h : k' ≠ k) :
    Doc.find (Doc.touch d k) k' = Doc.find d k' := by
  unfold Doc.touch
  split
  · rfl
  · exact Doc.find_append_ne d k k' Json.null h

theorem Doc.find_touch_self (d : Doc) (k : String) :
    Doc.find (Doc.touch d k) k = some (Doc.index d k) := by
  unfold Doc.touch Doc.contains Doc.index
  cases h : Doc.find d k with
  | none => simpa using Doc.find_append_self d k Json.null h
  | some v => simp [h]

/-- The member update behind `Doc.assign`. -/
theorem Doc.map_cons_self (k : String) (v0 v : Json) (rest : Doc) :
    ((k, v0) :: rest).map (fun kv => if kv.1 = k then (kv.1, v) else kv) =
      (k, v) :: rest.map (fun kv => if kv.1 = k then (kv.1, v) else kv) := by
  simp

theorem Doc.map_cons_ne (k0 k : String) (v0 v : Json) (rest : Doc) (h : k0 ≠ k) :
    ((k0, v0) :: rest).map (fun kv => if kv.1 = k then (kv.1, v) else kv) =
      (k0, v0) :: rest.map (fun kv => if kv.1 = k then (kv.1, v) else kv) := by
  simp [h]

theorem Doc.find_map_ne (d : Doc) (k k' : String) (v : Json) (h : k' ≠ k) :
    Doc.find (d.map (fun kv => if kv.1 = k then (kv.1, v) else kv)) k' = Doc.find d k' := by
  induction d with
  | nil => rfl
  | cons kv rest ih =>
    obtain ⟨k0, v0⟩ := kv
    by_cases h0 : k0 = k
    · subst h0
      rw [Doc.map_cons_self, Doc.find_cons_ne _ _ _ _ (Ne.symm h),
        Doc.find_cons_ne _ _ _ _ (Ne.symm h)]
      exact ih
    · rw [Doc.map_cons_ne _ _ _ _ _ h0]
      by_cases h1 : k0 = k'
      · subst h1
        rw [Doc.find_cons_self, Doc.find_cons_self]
      · rw [Doc.find_cons_ne _ _ _ _ h1, Doc.find_cons_ne _ _ _ _ h1]
        exact ih

theorem Doc.find_map_self (d : Doc) (k : String) (v : Json) :
    Doc.find (d.map (fun kv => if kv.1 = k then (kv.1, v) else kv)) k =
      (Doc.find d k).map (fun _ => v) := by
  induction d with
  | nil => rfl
  | cons kv rest ih =>
    obtain ⟨k0, v0⟩ := kv
    by_cases h0 : k0 = k
    · subst h0
      rw [Doc.map_cons_self, Doc.find_cons_self, Doc.find_cons_self]
      rfl
    · rw [Doc.map_cons_ne _ _ _ _ _ h0, Doc.find_cons_ne _ _ _ _ h0,
        Doc.find_cons_ne _ _ _ _ h0]
      exact ih

theorem Doc.find_assign_ne (d : Doc) (k k' : String) (v : Json) (h : k' ≠ k) :
    Doc.find (Doc.assign d k v) k' = Doc.find d k' := by
  unfold Doc.assign
  rw [Doc.find_map_ne _ k k' v h, Doc.find_touch_ne d k k' h]

theorem Doc.find_assign_self (d : Doc) (k : String) (v : Json) :
    Doc.find (Doc.assign d k v) k = some v := by
  unfold Doc.assign
  rw [Doc.find_map_self, Doc.find_touch_self]
  rfl

/-! ## Results of `coerce_element` on values that need no coercion -/

/-- C2 (identity law): for every dirty-values policy, a scalar field (string,
int32, int64, float, bool) whose document value already has the matching JSON
type (string; integer; integer; any number; boolean) makes `coerce_element`
return success and leave the whole document unchanged. -/
theorem coerce_element_identity (su : StringUtils) (a_field : field) (document : Doc)
    (fallback_field_type : String) (dirty_values : DIRTY_VALUES) (v : Json)
    (hfind : Doc.find document a_field.name = some v)
    (hmatch : (a_field.type = field_types.STRING ∧ v.is_string = true) ∨
      (a_field.type = field_types.INT32 ∧ v.is_number_integer = true) ∨
      (a_field.type = field_types.INT64 ∧ v.is_number_integer = true) ∨
      (a_field.type = field_types.FLOAT ∧ v.is_number = true) ∨
      (a_field.type = field_types.BOOL ∧ v.is_boolean = true)) :
    coerce_element su a_field document fallback_field_type dirty_values =
      (Outcome.ok 200, document) := by
  have hidx : Doc.index document a_field.name = v := Doc.index_of_find _ _ _ hfind
  rcases hmatch with ⟨ht, hv⟩ | ⟨ht, hv⟩ | ⟨ht, hv⟩ | ⟨ht, hv⟩ | ⟨ht, hv⟩ <;>
    simp [coerce_element, hidx, ht, hv, field.is_array]

/-- Witness for C2: a float field holding the integer 3, under COERCE_OR_DROP. -/
theorem coerce_element_identity_witness :
    coerce_element StringUtils.model ⟨"price", field_types.FLOAT, false, false, 0⟩
      [("id", Json.string "7"), ("price", Json.number_unsigned 3)] ""
      DIRTY_VALUES.COERCE_OR_DROP =
      (Outcome.ok 200, [("id", Json.string "7"), ("price", Json.number_unsigned 3)]) :=
  coerce_element_identity StringUtils.model ⟨"price", field_types.FLOAT, false, false, 0⟩
    [("id", Json.string "7"), ("price", Json.number_unsigned 3)] ""
    DIRTY_VALUES.COERCE_OR_DROP (Json.number_unsigned 3) rfl
    (Or.inr (Or.inr (Or.inr (Or.inl ⟨rfl, rfl⟩))))

/-! ## The typed messages -/

/-- The C++ concatenation `"Field `" + name + "` must be " + suffix + tail`
with the literals joined. -/
theorem must_be_msg (field_name suffix tail : String) :
    "Field `" ++ field_name ++ "` must be " ++ suffix ++ tail =
      "Field `" ++ field_name ++ ("` must be " ++ suffix ++ tail) := by
  simp [String.append_assoc]

/-- C7 (REJECT): under REJECT, a scalar field whose value is not of the
matching JSON type (and a geopoint field given a 2-element array with a
non-numeric element) makes `coerce_element` return status 400 with the exact
typed message, whether or not the field is optional, and the document is
unchanged. -/
theorem coerce_element_reject_mismatch (su : StringUtils) (a_field : field) (document : Doc)
    (fallback_field_type : String) (v : Json)
    (hfind : Doc.find document a_field.name = some v) :
    (a_field.type = field_types.STRING → v.is_string = false →
      coerce_element su a_field document fallback_field_type DIRTY_VALUES.REJECT =
        (Outcome.error 400 ("Field `" ++ a_field.name ++ "` must be a string."), document)) ∧
    (a_field.type = field_types.INT32 → v.is_number_integer = false →
      coerce_element su a_field document fallback_field_type DIRTY_VALUES.REJECT =
        (Outcome.error 400 ("Field `" ++ a_field.name ++ "` must be an int32."), document)) ∧
    (a_field.type = field_types.INT64 → v.is_number_integer = false →
      coerce_element su a_field document fallback_field_type DIRTY_VALUES.REJECT =
        (Outcome.error 400 ("Field `" ++ a_field.name ++ "` must be an int64."), document)) ∧
    (a_field.type = field_types.FLOAT → v.is_number = false →
      coerce_element su a_field document fallback_field_type DIRTY_VALUES.REJECT =
        (Outcome.error 400 ("Field `" ++ a_field.name ++ "` must be a float."), document)) ∧
    (a_field.type = field_types.BOOL → v.is_boolean = false →
      coerce_element su a_field document fallback_field_type DIRTY_VALUES.REJECT =
        (Outcome.error 400 ("Field `" ++ a_field.name ++ "` must be a bool."), document)) ∧
    (a_field.type = field_types.GEOPOINT →
      ∀ lat lng : Json, v = Json.array [lat, lng] →
        (lat.is_number = false ∨ lng.is_number = false) →
        coerce_element su a_field document fallback_field_type DIRTY_VALUES.REJECT =
          (Outcome.error 400 ("Field `" ++ a_field.name ++ "` must be a geopoint."),
            document)) := by
  have hidx : Doc.index document a_field.name = v := Doc.index_of_find _ _ _ hfind
  have htouch : Doc.touch document a_field.name = document := Doc.touch_of_find _ _ _ hfind
  refine ⟨?_, ?_, ?_, ?_, ?_, ?_⟩
  · intro ht hv
    simp [coerce_element, coerce_string, return_or_200, item_bind, Outcome.is_ok, hidx, ht, hv,
      htouch, must_be_msg]
  · intro ht hv
    simp [coerce_element, coerce_int32_t, return_or_200, item_bind, Outcome.is_ok, hidx, ht, hv,
      htouch, must_be_msg]
  · intro ht hv
    simp [coerce_element, coerce_int64_t, return_or_200, item_bind, Outcome.is_ok, hidx, ht, hv,
      htouch, must_be_msg]
  · intro ht hv
    simp [coerce_element, coerce_float, return_or_200, item_bind, Outcome.is_ok, hidx, ht, hv,
      htouch, must_be_msg]
  · intro ht hv
    simp [coerce_element, coerce_bool, return_or_200, item_bind, Outcome.is_ok, hidx, ht, hv,
      htouch, must_be_msg]
  · intro ht lat lng hv hnum
    subst hv
    rcases hnum with h | h <;>
      simp [coerce_element, coerce_geopoint, return_or_200, item_bind, Outcome.is_ok, hidx, ht,
        h, htouch, must_be_msg, Json.is_array, Json.size, Json.elems]

/-- Witness for C7: an optional int32 field holding the string "12". -/
theorem coerce_element_reject_mismatch_witness :
    coerce_element StringUtils.model ⟨"qty", field_types.INT32, true, false, 0⟩
      [("qty", Json.string "12")] "" DIRTY_VALUES.REJECT =
      (Outcome.error 400 "Field `qty` must be an int32.", [("qty", Json.string "12")]) :=
  (coerce_element_reject_mismatch StringUtils.model ⟨"qty", field_types.INT32, true, false, 0⟩
    [("qty", Json.string "12")] "" (Json.string "12") rfl).2.1 rfl rfl

/-- C8 (DROP): under DROP each scalar coercer (string, int32, int64, float,
bool, geopoint), called on the field of a document whatever its value, erases
the field's key when the field is optional, leaving every other key unchanged,
and succeeds; when the field is not optional it fails with status 400 and the
typed message, the document unchanged.  The value is not inspected, so no
value coercion is attempted. -/
theorem coercers_drop (su : StringUtils) (fallback_field_type : String) (a_field : field)
    (document : Doc) (field_name : String) (array_iter : Nat) (erased : Bool) (v : Json)
    (hfind : Doc.find document field_name = some v) :
    (a_field.optional = true →
      coerce_string su DIRTY_VALUES.DROP fallback_field_type a_field document field_name
          array_iter false erased = (Outcome.ok 200, Doc.erase document field_name, erased) ∧
      coerce_int32_t su DIRTY_VALUES.DROP a_field document field_name array_iter false erased =
          (Outcome.ok 200, Doc.erase document field_name, erased) ∧
      coerce_int64_t su DIRTY_VALUES.DROP a_field document field_name array_iter false erased =
          (Outcome.ok 200, Doc.erase document field_name, erased) ∧
      coerce_float su DIRTY_VALUES.DROP a_field document field_name array_iter false erased =
          (Outcome.ok 200, Doc.erase document field_name, erased) ∧
      coerce_bool su DIRTY_VALUES.DROP a_field document field_name array_iter false erased =
          (Outcome.ok 200, Doc.erase document field_name, erased) ∧
      coerce_geopoint su DIRTY_VALUES.DROP a_field document field_name array_iter false erased =
          (Outcome.ok 200, Doc.erase document field_name, erased) ∧
      Doc.find (Doc.erase document field_name) field_name = none ∧
      ∀ key, key ≠ field_name →
        Doc.find (Doc.erase document field_name) key = Doc.find document key) ∧
    (a_field.optional = false →
      coerce_string su DIRTY_VALUES.DROP fallback_field_type a_field document field_name
          array_iter false erased =
        (Outcome.error 400 ("Field `" ++ field_name ++ "` must be a string."),
          document, erased) ∧
      coerce_int32_t su DIRTY_VALUES.DROP a_field document field_name array_iter false erased =
        (Outcome.error 400 ("Field `" ++ field_name ++ "` must be an int32."),
          document, erased) ∧
      coerce_int64_t su DIRTY_VALUES.DROP a_field document field_name array_iter false erased =
        (Outcome.error 400 ("Field `" ++ field_name ++ "` must be an int64."),
          document, erased) ∧
      coerce_float su DIRTY_VALUES.DROP a_field document field_name array_iter false erased =
        (Outcome.error 400 ("Field `" ++ field_name ++ "` must be a float."),
          document, erased) ∧
      coerce_bool su DIRTY_VALUES.DROP a_field document field_name array_iter false erased =
        (Outcome.error 400 ("Field `" ++ field_name ++ "` must be a bool."),
          document, erased) ∧
      coerce_geopoint su DIRTY_VALUES.DROP a_field document field_name array_iter false erased =
        (Outcome.error 400 ("Field `" ++ field_name ++ "` must be a geopoint."),
          document, erased)) := by
  have htouch : Doc.touch document field_name = document := Doc.touch_of_find _ _ _ hfind
  constructor
  · intro hopt
    refine ⟨?_, ?_, ?_, ?_, ?_, ?_, Doc.find_erase_self _ _,
      fun key hk => Doc.find_erase_ne _ _ _ hk⟩ <;>
    simp [coerce_string, coerce_int32_t, coerce_int64_t, coerce_float, coerce_bool,
      coerce_geopoint, item_bind, erase_item, htouch, hopt]
  · intro hopt
    refine ⟨?_, ?_, ?_, ?_, ?_, ?_⟩ <;>
    simp [coerce_string, coerce_int32_t, coerce_int64_t, coerce_float, coerce_bool,
      coerce_geopoint, item_bind, htouch, hopt, must_be_msg]

/-- Witness for C8: an optional string field holding the coercible integer 5
is erased, not coerced. -/
theorem coercers_drop_witness :
    coerce_string StringUtils.model DIRTY_VALUES.DROP ""
        ⟨"title", field_types.STRING, true, false, 0⟩
        [("title", Json.number_unsigned 5), ("points", Json.number_unsigned 1)]
        "title" 0 false false =
      (Outcome.ok 200, [("points", Json.number_unsigned 1)], false) :=
  ((coercers_drop StringUtils.model "" ⟨"title", field_types.STRING, true, false, 0⟩
    [("title", Json.number_unsigned 5), ("points", Json.number_unsigned 1)]
    "title" 0 false (Json.number_unsigned 5) rfl).1 rfl).1

/-! ## Values that cannot be coerced -/

theorem Doc.erase_map (d : Doc) (k : String) (v : Json) :
    Doc.erase (d.map (fun kv => if kv.1 = k then (kv.1, v) else kv)) k = Doc.erase d k := by
  induction d with
  | nil => rfl
  | cons kv rest ih =>
    obtain ⟨k0, v0⟩ := kv
    by_cases h0 : k0 = k
    · subst h0
      rw [Doc.map_cons_self, Doc.erase_cons_self, Doc.erase_cons_self]
      exact ih
    · rw [Doc.map_cons_ne _ _ _ _ _ h0, Doc.erase_cons_ne _ _ _ _ h0,
        Doc.erase_cons_ne _ _ _ _ h0, ih]

theorem Doc.erase_assign (d : Doc) (k : String) (v w : Json)
    (h : Doc.find d k = some w) : Doc.erase (Doc.assign d k v) k = Doc.erase d k := by
  unfold Doc.assign
  rw [Doc.touch_of_find d k w h, Doc.erase_map]

theorem coerce_geopoint_elem_length (su : StringUtils) (a b : List Json) (i : Nat)
    (h : coerce_geopoint_elem su a i = some b) : b.length = a.length := by
  unfold coerce_geopoint_elem at h
  simp only [] at h
  split at h
  · split at h
    · split at h
      · cases h
        simp
      · cases h
    · cases h
      rfl
  · cases h
    rfl

/-- What `coerce_geopoint` does under a coercing policy to a 2-element array
whose element conversions yield `a3` without throwing. -/
theorem coerce_geopoint_pair (su : StringUtils) (dirty_values : DIRTY_VALUES)
    (a_field : field) (document : Doc) (field_name : String) (array_iter : Nat)
    (erased : Bool) (lat lng : Json) (a1 a3 : List Json)
    (hfind : Doc.find document field_name = some (Json.array [lat, lng]))
    (hrej : dirty_values ≠ DIRTY_VALUES.REJECT) (hdrop : dirty_values ≠ DIRTY_VALUES.DROP)
    (h1 : coerce_geopoint_elem su [lat, lng] 0 = some a1)
    (h3 : coerce_geopoint_elem su a1 1 = some a3) :
    coerce_geopoint su dirty_values a_field document field_name array_iter false erased =
      if (!(a3.getD 0 Json.null).is_number || !(a3.getD 1 Json.null).is_number) = true then
        if dirty_values = DIRTY_VALUES.COERCE_OR_DROP then
          if (!a_field.optional) = true then
            (Outcome.error 400 ("Field `" ++ field_name ++ "` must be a geopoint."),
              Doc.assign document field_name (Json.array a3), erased)
          else (Outcome.ok 200, Doc.erase document field_name, erased)
        else
          (Outcome.error 400 ("Field `" ++ field_name ++ "` must be a geopoint."),
            Doc.assign document field_name (Json.array a3), erased)
      else (Outcome.ok 200, Doc.assign document field_name (Json.array a3), erased) := by
  have htouch : Doc.touch document field_name = document := Doc.touch_of_find _ _ _ hfind
  have hidx : Doc.index document field_name = Json.array [lat, lng] :=
    Doc.index_of_find _ _ _ hfind
  have hlen : a1.length = 2 := coerce_geopoint_elem_length su _ _ _ h1
  have hpad : a1 ++ List.replicate (2 - a1.length) Json.null = a1 := by simp [hlen]
  have herase : Doc.erase (Doc.assign document field_name (Json.array a3)) field_name =
      Doc.erase document field_name := Doc.erase_assign _ _ _ _ hfind
  simp only [coerce_geopoint, item_bind, item_value, item_assign, erase_item, htouch, hidx,
    subscript_fill, hrej, hdrop, if_false, Bool.false_eq_true, List.length_cons,
    List.length_nil, List.replicate, List.append_nil, h1, hpad, h3, herase, must_be_msg,
    Bool.not_false, if_true]
  rfl

/-- C9 (COERCE_OR_DROP), as amended: when the value of the field cannot be
value-coerced, each of the six coercers erases an optional field and succeeds,
and fails a non-optional field with status 400 and the typed message; the
exceptions are left out: a bool field holding a string is not covered, a
non-optional nested string field holding an array gets the "incorrect type"
hint instead of the typed message, and for a geopoint the two element
conversions must not throw. -/
theorem coercers_coerce_or_drop (su : StringUtils) (fallback_field_type : String)
    (a_field : field) (document : Doc) (field_name : String) (array_iter : Nat)
    (erased : Bool) (v : Json) (hfind : Doc.find document field_name = some v) :
    (v.is_number_integer = false → v.is_number_float = false → v.is_boolean = false →
      coerce_string su DIRTY_VALUES.COERCE_OR_DROP fallback_field_type a_field document
          field_name array_iter false erased =
        if a_field.optional = true then (Outcome.ok 200, Doc.erase document field_name, erased)
        else if (a_field.nested && v.is_array) = true then
          (Outcome.error 400 ("Field `" ++ field_name ++
            "` has an incorrect type. Hint: field inside an array of objects must be an array type as well."),
            document, erased)
        else
          (Outcome.error 400 ("Field `" ++ field_name ++ "` must be a string."),
            document, erased)) ∧
    (v.is_number_float = false → v.is_boolean = false →
      (v.is_string && su.is_int32_t (get_string v)) = false →
      coerce_int32_t su DIRTY_VALUES.COERCE_OR_DROP a_field document field_name array_iter
          false erased =
        if a_field.optional = true then (Outcome.ok 200, Doc.erase document field_name, erased)
        else
          (Outcome.error 400 ("Field `" ++ field_name ++ "` must be an int32."),
            document, erased)) ∧
    (v.is_number_float = false → v.is_boolean = false →
      (v.is_string && su.is_int64_t (get_string v)) = false →
      coerce_int64_t su DIRTY_VALUES.COERCE_OR_DROP a_field document field_name array_iter
          false erased =
        if a_field.optional = true then (Outcome.ok 200, Doc.erase document field_name, erased)
        else
          (Outcome.error 400 ("Field `" ++ field_name ++ "` must be an int64."),
            document, erased)) ∧
    ((v.is_string && su.is_float (get_string v)) = false → v.is_boolean = false →
      coerce_float su DIRTY_VALUES.COERCE_OR_DROP a_field document field_name array_iter
          false erased =
        if a_field.optional = true then (Outcome.ok 200, Doc.erase document field_name, erased)
        else
          (Outcome.error 400 ("Field `" ++ field_name ++ "` must be a float."),
            document, erased)) ∧
    ((v.is_number_integer &&
        (decide (get_int64 v = Conv.val 1) || decide (get_int64 v = Conv.val 0))) = false →
      v.is_string = false →
      coerce_bool su DIRTY_VALUES.COERCE_OR_DROP a_field document field_name array_iter
          false erased =
        if a_field.optional = true then (Outcome.ok 200, Doc.erase document field_name, erased)
        else
          (Outcome.error 400 ("Field `" ++ field_name ++ "` must be a bool."),
            document, erased)) ∧
    (∀ (lat lng : Json) (a1 a3 : List Json), v = Json.array [lat, lng] →
      coerce_geopoint_elem su [lat, lng] 0 = some a1 →
      coerce_geopoint_elem su a1 1 = some a3 →
      ((a3.getD 0 Json.null).is_number = false ∨ (a3.getD 1 Json.null).is_number = false) →
      coerce_geopoint su DIRTY_VALUES.COERCE_OR_DROP a_field document field_name array_iter
          false erased =
        if a_field.optional = true then (Outcome.ok 200, Doc.erase document field_name, erased)
        else
          (Outcome.error 400 ("Field `" ++ field_name ++ "` must be a geopoint."),
            Doc.assign document field_name (Json.array a3), erased)) ∧
    Doc.find (Doc.erase document field_name) field_name = none := by
  have htouch : Doc.touch document field_name = document := Doc.touch_of_find _ _ _ hfind
  have hidx : Doc.index document field_name = v := Doc.index_of_find _ _ _ hfind
  have hnone : Doc.find (Doc.erase document field_name) field_name = none :=
    Doc.find_erase_self _ _
  have hrange : ∀ e, coerce_int32_t_range DIRTY_VALUES.COERCE_OR_DROP a_field
      (Doc.erase document field_name) field_name e =
        (Outcome.ok 200, Doc.erase document field_name, e) := by
    intro e
    simp [coerce_int32_t_range, Doc.contains, hnone]
  refine ⟨?_, ?_, ?_, ?_, ?_, ?_, hnone⟩
  · intro h1 h2 h3
    cases hopt : a_field.optional <;>
      simp [coerce_string, item_bind, item_value, erase_item, htouch, hidx, h1, h2, h3, hopt,
        must_be_msg]
  · intro h1 h2 h3
    cases hopt : a_field.optional <;>
      simp [coerce_int32_t, item_bind, item_value, erase_item, htouch, hidx, h1, h2, h3, hopt,
        must_be_msg, hrange]
  · intro h1 h2 h3
    cases hopt : a_field.optional <;>
      simp [coerce_int64_t, item_bind, item_value, erase_item, htouch, hidx, h1, h2, h3, hopt,
        must_be_msg]
  · intro h1 h2
    cases hopt : a_field.optional <;>
      simp [coerce_float, item_bind, item_value, erase_item, htouch, hidx, h1, h2, hopt,
        must_be_msg]
  · intro h1 h2
    cases hopt : a_field.optional <;>
      simp [coerce_bool, item_bind, item_value, erase_item, htouch, hidx, h1, h2, hopt,
        must_be_msg]
  · intro lat lng a1 a3 hv h1 h3 hnum
    subst hv
    rw [coerce_geopoint_pair su DIRTY_VALUES.COERCE_OR_DROP a_field document field_name
      array_iter erased lat lng a1 a3 hfind (by decide) (by decide) h1 h3]
    have hcond : (!(a3.getD 0 Json.null).is_number || !(a3.getD 1 Json.null).is_number)
        = true := by
      rcases hnum with h | h <;>
        simp only [h, Bool.not_false, Bool.true_or, Bool.or_true]
    rw [if_pos hcond]
    cases hopt : a_field.optional <;> simp

/-- Witness for C9 as amended: an optional int32 field holding the string
"abc" is erased. -/
theorem coercers_coerce_or_drop_witness :
    coerce_int32_t StringUtils.model DIRTY_VALUES.COERCE_OR_DROP
        ⟨"qty", field_types.INT32, true, false, 0⟩
        [("qty", Json.string "abc"), ("name", Json.string "pen")] "qty" 0 false false =
      (Outcome.ok 200, [("name", Json.string "pen")], false) :=
  (coercers_coerce_or_drop StringUtils.model "" ⟨"qty", field_types.INT32, true, false, 0⟩
    [("qty", Json.string "abc"), ("name", Json.string "pen")] "qty" 0 false
    (Json.string "abc") rfl).2.1 rfl rfl rfl

/-- Counterexample to C9 as stated: a non-optional nested string field
holding an array, which cannot be coerced to a string, fails under
COERCE_OR_DROP with status 400 and a message that is not the typed
"must be a string." message. -/
theorem coerce_or_drop_nested_string_counterexample :
    coerce_string StringUtils.model DIRTY_VALUES.COERCE_OR_DROP ""
        ⟨"locations.city", field_types.STRING, false, true, 0⟩
        [("locations.city", Json.array [Json.string "Oslo"])] "locations.city" 0 false false =
      (Outcome.error 400
        "Field `locations.city` has an incorrect type. Hint: field inside an array of objects must be an array type as well.",
        [("locations.city", Json.array [Json.string "Oslo"])], false) ∧
    coerce_element StringUtils.model ⟨"locations.city", field_types.STRING, false, true, 0⟩
        [("locations.city", Json.array [Json.string "Oslo"])] ""
        DIRTY_VALUES.COERCE_OR_DROP =
      (Outcome.error 400
        "Field `locations.city` has an incorrect type. Hint: field inside an array of objects must be an array type as well.",
        [("locations.city", Json.array [Json.string "Oslo"])]) ∧
    "Field `locations.city` has an incorrect type. Hint: field inside an array of objects must be an array type as well." ≠
      "Field `locations.city` must be a string." :=
  ⟨rfl, rfl, by decide⟩

/-- C10 (COERCE_OR_REJECT), as amended: a value that cannot be value-coerced
makes each of the six coercers fail with status 400 and the typed message,
also when the field is optional, and the field's key stays in the document;
the exception is a nested string field holding an array, which gets the
"incorrect type" hint as message, and for a geopoint the two element
conversions must not throw. -/
theorem coercers_coerce_or_reject (su : StringUtils) (fallback_field_type : String)
    (a_field : field) (document : Doc) (field_name : String) (array_iter : Nat)
    (erased : Bool) (v : Json) (hfind : Doc.find document field_name = some v) :
    (v.is_number_integer = false → v.is_number_float = false → v.is_boolean = false →
      coerce_string su DIRTY_VALUES.COERCE_OR_REJECT fallback_field_type a_field document
          field_name array_iter false erased =
        if (a_field.nested && v.is_array) = true then
          (Outcome.error 400 ("Field `" ++ field_name ++
            "` has an incorrect type. Hint: field inside an array of objects must be an array type as well."),
            document, erased)
        else
          (Outcome.error 400 ("Field `" ++ field_name ++ "` must be a string."),
            document, erased)) ∧
    (v.is_number_float = false → v.is_boolean = false →
      (v.is_string && su.is_int32_t (get_string v)) = false →
      coerce_int32_t su DIRTY_VALUES.COERCE_OR_REJECT a_field document field_name array_iter
          false erased =
        (Outcome.error 400 ("Field `" ++ field_name ++ "` must be an int32."),
          document, erased)) ∧
    (v.is_number_float = false → v.is_boolean = false →
      (v.is_string && su.is_int64_t (get_string v)) = false →
      coerce_int64_t su DIRTY_VALUES.COERCE_OR_REJECT a_field document field_name array_iter
          false erased =
        (Outcome.error 400 ("Field `" ++ field_name ++ "` must be an int64."),
          document, erased)) ∧
    ((v.is_string && su.is_float (get_string v)) = false → v.is_boolean = false →
      coerce_float su DIRTY_VALUES.COERCE_OR_REJECT a_field document field_name array_iter
          false erased =
        (Outcome.error 400 ("Field `" ++ field_name ++ "` must be a float."),
          document, erased)) ∧
    ((v.is_number_integer &&
        (decide (get_int64 v = Conv.val 1) || decide (get_int64 v = Conv.val 0))) = false →
      (v.is_string = true → su.tolowercase (get_string v) ≠ "true" ∧
        su.tolowercase (get_string v) ≠ "false") →
      coerce_bool su DIRTY_VALUES.COERCE_OR_REJECT a_field document field_name array_iter
          false erased =
        (Outcome.error 400 ("Field `" ++ field_name ++ "` must be a bool."),
          document, erased)) ∧
    (∀ (lat lng : Json) (a1 a3 : List Json), v = Json.array [lat, lng] →
      coerce_geopoint_elem su [lat, lng] 0 = some a1 →
      coerce_geopoint_elem su a1 1 = some a3 →
      ((a3.getD 0 Json.null).is_number = false ∨ (a3.getD 1 Json.null).is_number = false) →
      coerce_geopoint su DIRTY_VALUES.COERCE_OR_REJECT a_field document field_name array_iter
          false erased =
        (Outcome.error 400 ("Field `" ++ field_name ++ "` must be a geopoint."),
          Doc.assign document field_name (Json.array a3), erased) ∧
      Doc.find (Doc.assign document field_name (Json.array a3)) field_name =
        some (Json.array a3)) := by
  have htouch : Doc.touch document field_name = document := Doc.touch_of_find _ _ _ hfind
  have hidx : Doc.index document field_name = v := Doc.index_of_find _ _ _ hfind
  refine ⟨?_, ?_, ?_, ?_, ?_, ?_⟩
  · intro h1 h2 h3
    simp [coerce_string, item_bind, item_value, htouch, hidx, h1, h2, h3, must_be_msg]
  · intro h1 h2 h3
    simp [coerce_int32_t, item_bind, item_value, htouch, hidx, h1, h2, h3, must_be_msg]
  · intro h1 h2 h3
    simp [coerce_int64_t, item_bind, item_value, htouch, hidx, h1, h2, h3, must_be_msg]
  · intro h1 h2
    simp [coerce_float, item_bind, item_value, htouch, hidx, h1, h2, must_be_msg]
  · intro h1 h2
    cases hs : v.is_string
    · simp [coerce_bool, item_bind, item_value, htouch, hidx, h1, hs, must_be_msg]
    · obtain ⟨ht, hf⟩ := h2 hs
      simp [coerce_bool, item_bind, item_value, htouch, hidx, h1, hs, ht, hf, must_be_msg]
  · intro lat lng a1 a3 hv h1 h3 hnum
    subst hv
    refine ⟨?_, Doc.find_assign_self _ _ _⟩
    rw [coerce_geopoint_pair su DIRTY_VALUES.COERCE_OR_REJECT a_field document field_name
      array_iter erased lat lng a1 a3 hfind (by decide) (by decide) h1 h3]
    have hcond : (!(a3.getD 0 Json.null).is_number || !(a3.getD 1 Json.null).is_number)
        = true := by
      rcases hnum with h | h <;>
        simp only [h, Bool.not_false, Bool.true_or, Bool.or_true]
    rw [if_pos hcond]
    simp

/-- Witness for C10 as amended: an optional float field holding an array. -/
theorem coercers_coerce_or_reject_witness :
    coerce_float StringUtils.model DIRTY_VALUES.COERCE_OR_REJECT
        ⟨"price", field_types.FLOAT, true, false, 0⟩
        [("price", Json.array [])] "price" 0 false false =
      (Outcome.error 400 "Field `price` must be a float.", [("price", Json.array [])], false) :=
  (coercers_coerce_or_reject StringUtils.model "" ⟨"price", field_types.FLOAT, true, false, 0⟩
    [("price", Json.array [])] "price" 0 false (Json.array []) rfl).2.2.2.1 rfl rfl

/-- Counterexample to C10 as stated: a nested string field holding an array,
which cannot be coerced to a string, fails under COERCE_OR_REJECT with a
message that is not the typed "must be a string." message. -/
theorem coerce_or_reject_nested_string_counterexample :
    coerce_string StringUtils.model DIRTY_VALUES.COERCE_OR_REJECT ""
        ⟨"locations.city", field_types.STRING, false, true, 0⟩
        [("locations.city", Json.array [Json.string "Oslo"])] "locations.city" 0 false false =
      (Outcome.error 400
        "Field `locations.city` has an incorrect type. Hint: field inside an array of objects must be an array type as well.",
        [("locations.city", Json.array [Json.string "Oslo"])], false) ∧
    coerce_element StringUtils.model ⟨"locations.city", field_types.STRING, false, true, 0⟩
        [("locations.city", Json.array [Json.string "Oslo"])] ""
        DIRTY_VALUES.COERCE_OR_REJECT =
      (Outcome.error 400
        "Field `locations.city` has an incorrect type. Hint: field inside an array of objects must be an array type as well.",
        [("locations.city", Json.array [Json.string "Oslo"])]) ∧
    "Field `locations.city` has an incorrect type. Hint: field inside an array of objects must be an array type as well." ≠
      "Field `locations.city` must be a string." :=
  ⟨rfl, rfl, by decide⟩

/-! ## Frame: a coercer touches no key but the field's -/

theorem item_bind_frame (d : Doc) (k : String) (b : Bool) (key : String) (h : key ≠ k) :
    Doc.find (item_bind d k b) key = Doc.find d key := by
  unfold item_bind
  split
  · rfl
  · exact Doc.find_touch_ne d k key h

theorem item_assign_frame (d : Doc) (k : String) (it : Nat) (b : Bool) (v : Json)
    (key : String) (h : key ≠ k) :
    Doc.find (item_assign d k it b v) key = Doc.find d key := by
  unfold item_assign
  split <;> exact Doc.find_assign_ne d k key _ h

theorem array_erase_frame (d : Doc) (k : String) (it : Nat) (key : String) (h : key ≠ k) :
    Doc.find (array_erase d k it) key = Doc.find d key :=
  Doc.find_assign_ne d k key _ h

theorem erase_item_frame (d : Doc) (k : String) (it : Nat) (b e : Bool)
    (key : String) (h : key ≠ k) :
    Doc.find (erase_item d k it b e).1 key = Doc.find d key := by
  unfold erase_item
  split
  · exact Doc.find_erase_ne d k key h
  · exact array_erase_frame d k it key h

theorem coerce_int32_t_range_frame (dv : DIRTY_VALUES) (f : field) (d : Doc) (k : String)
    (e : Bool) (key : String) (h : key ≠ k) :
    Doc.find (coerce_int32_t_range dv f d k e).2.1 key = Doc.find d key := by
  unfold coerce_int32_t_range
  repeat' split
  all_goals first
    | rfl
    | exact Doc.find_erase_ne d k key h

theorem coerce_string_frame (su : StringUtils) (dv : DIRTY_VALUES) (fb : String) (f : field)
    (d : Doc) (k : String) (it : Nat) (b e : Bool) (key : String) (h : key ≠ k) :
    Doc.find (coerce_string su dv fb f d k it b e).2.1 key = Doc.find d key := by
  unfold coerce_string
  simp only []
  repeat' split
  all_goals
    simp only [item_assign_frame _ _ _ _ _ _ h, erase_item_frame _ _ _ _ _ _ h,
      item_bind_frame _ _ _ _ h]

theorem coerce_int32_t_frame (su : StringUtils) (dv : DIRTY_VALUES) (f : field)
    (d : Doc) (k : String) (it : Nat) (b e : Bool) (key : String) (h : key ≠ k) :
    Doc.find (coerce_int32_t su dv f d k it b e).2.1 key = Doc.find d key := by
  unfold coerce_int32_t
  simp only []
  repeat' split
  all_goals
    simp only [coerce_int32_t_range_frame _ _ _ _ _ _ h, item_assign_frame _ _ _ _ _ _ h,
      erase_item_frame _ _ _ _ _ _ h, item_bind_frame _ _ _ _ h]

theorem coerce_int64_t_frame (su : StringUtils) (dv : DIRTY_VALUES) (f : field)
    (d : Doc) (k : String) (it : Nat) (b e : Bool) (key : String) (h : key ≠ k) :
    Doc.find (coerce_int64_t su dv f d k it b e).2.1 key = Doc.find d key := by
  unfold coerce_int64_t
  simp only []
  repeat' split
  all_goals
    simp only [item_assign_frame _ _ _ _ _ _ h, erase_item_frame _ _ _ _ _ _ h,
      item_bind_frame _ _ _ _ h]

theorem coerce_bool_frame (su : StringUtils) (dv : DIRTY_VALUES) (f : field)
    (d : Doc) (k : String) (it : Nat) (b e : Bool) (key : String) (h : key ≠ k) :
    Doc.find (coerce_bool su dv f d k it b e).2.1 key = Doc.find d key := by
  unfold coerce_bool
  simp only []
  repeat' split
  all_goals
    simp only [item_assign_frame _ _ _ _ _ _ h, erase_item_frame _ _ _ _ _ _ h,
      item_bind_frame _ _ _ _ h]

theorem coerce_float_frame (su : StringUtils) (dv : DIRTY_VALUES) (f : field)
    (d : Doc) (k : String) (it : Nat) (b e : Bool) (key : String) (h : key ≠ k) :
    Doc.find (coerce_float su dv f d k it b e).2.1 key = Doc.find d key := by
  unfold coerce_float
  simp only []
  repeat' split
  all_goals
    simp only [item_assign_frame _ _ _ _ _ _ h, erase_item_frame _ _ _ _ _ _ h,
      item_bind_frame _ _ _ _ h]

theorem coerce_geopoint_frame (su : StringUtils) (dv : DIRTY_VALUES) (f : field)
    (d : Doc) (k : String) (it : Nat) (b e : Bool) (key : String) (h : key ≠ k) :
    Doc.find (coerce_geopoint su dv f d k it b e).2.1 key = Doc.find d key := by
  unfold coerce_geopoint
  simp only []
  repeat' split
  all_goals
    simp only [item_assign_frame _ _ _ _ _ _ h, erase_item_frame _ _ _ _ _ _ h,
      item_bind_frame _ _ _ _ h]

theorem coerce_element_item_frame (su : StringUtils) (f : field) (d : Doc) (fb : String)
    (dv : DIRTY_VALUES) (it : Nat) (key : String) (h : key ≠ f.name) :
    Doc.find (coerce_element_item su f d fb dv it).2.1 key = Doc.find d key := by
  unfold coerce_element_item
  simp only []
  repeat' split
  all_goals
    simp only [coerce_string_frame _ _ _ _ _ _ _ _ _ _ h, coerce_int32_t_frame _ _ _ _ _ _ _ _ _ h,
      coerce_int64_t_frame _ _ _ _ _ _ _ _ _ h, coerce_float_frame _ _ _ _ _ _ _ _ _ h,
      coerce_bool_frame _ _ _ _ _ _ _ _ _ h, coerce_geopoint_frame _ _ _ _ _ _ _ _ _ h]

theorem coerce_element_loop_frame (su : StringUtils) (f : field) (fb : String)
    (dv : DIRTY_VALUES) (key : String) (h : key ≠ f.name) :
    ∀ (fuel it : Nat) (d : Doc) (r : Outcome × Doc),
      coerce_element_loop su f fb dv fuel it d = some r → Doc.find r.2 key = Doc.find d key := by
  intro fuel
  induction fuel with
  | zero =>
    intro it d r hr
    unfold coerce_element_loop at hr
    split at hr
    · cases hr
    · cases hr
      rfl
  | succ n ih =>
    intro it d r hr
    unfold coerce_element_loop at hr
    split at hr
    · simp only [] at hr
      split at hr
      · cases hr
        exact coerce_element_item_frame su f d fb dv it key h
      · rw [ih _ _ _ hr]
        exact coerce_element_item_frame su f d fb dv it key h
    · cases hr
      rfl

theorem return_or_200_snd (c : Outcome × Doc × Bool) : (return_or_200 c).2 = c.2.1 := by
  unfold return_or_200
  split <;> rfl

/-- Case analysis of `coerce_element`: a property holds of its result when it
holds on each path through the function. -/
theorem coerce_element_elim (su : StringUtils) (f : field) (d : Doc) (fb : String)
    (dv : DIRTY_VALUES) (P : Outcome × Doc → Prop)
    (h_string : f.type = field_types.STRING → (Doc.index d f.name).is_string = false →
      P (return_or_200 (coerce_string su dv fb f d f.name 0 false false)))
    (h_int32 : f.type = field_types.INT32 → (Doc.index d f.name).is_number_integer = false →
      P (return_or_200 (coerce_int32_t su dv f d f.name 0 false false)))
    (h_int64 : f.type = field_types.INT64 → (Doc.index d f.name).is_number_integer = false →
      P (return_or_200 (coerce_int64_t su dv f d f.name 0 false false)))
    (h_float : f.type = field_types.FLOAT → (Doc.index d f.name).is_number = false →
      P (return_or_200 (coerce_float su dv f d f.name 0 false false)))
    (h_bool : f.type = field_types.BOOL → (Doc.index d f.name).is_boolean = false →
      P (return_or_200 (coerce_bool su dv f d f.name 0 false false)))
    (h_geo_bad : f.type = field_types.GEOPOINT →
      ((Doc.index d f.name).is_array = false ∨ (Doc.index d f.name).size ≠ 2) →
      P (Outcome.error 400 ("Field `" ++ f.name ++ "` must be a 2 element array: [lat, lng]."),
        d))
    (h_geo : f.type = field_types.GEOPOINT → (Doc.index d f.name).is_array = true →
      (Doc.index d f.name).size = 2 →
      (((Doc.index d f.name).elems.getD 0 Json.null).is_number &&
        ((Doc.index d f.name).elems.getD 1 Json.null).is_number) = false →
      P (return_or_200 (coerce_geopoint su dv f d f.name 0 false false)))
    (h_not_array : f.is_array = true → (Doc.index d f.name).is_array = false →
      (f.optional && (decide (dv = DIRTY_VALUES.DROP) ||
        decide (dv = DIRTY_VALUES.COERCE_OR_DROP))) = true →
      P (Outcome.ok 200, Doc.erase d f.name))
    (h_not_array_err : f.is_array = true → (Doc.index d f.name).is_array = false →
      (f.optional && (decide (dv = DIRTY_VALUES.DROP) ||
        decide (dv = DIRTY_VALUES.COERCE_OR_DROP))) = false →
      P (Outcome.error 400 ("Field `" ++ f.name ++ "` must be an array."), d))
    (h_nested_empty : f.type = field_types.GEOPOINT_ARRAY → f.nested = true →
      (Doc.index d f.name).is_array = true → (Doc.index d f.name).size = 0 →
      P (Outcome.undefined, d))
    (h_nested_geo : f.type = field_types.GEOPOINT_ARRAY → f.nested = true →
      (Doc.index d f.name).is_array = true → (Doc.index d f.name).size = 2 →
      ((Doc.index d f.name).elems.getD 0 Json.null).is_number = true →
      ((Doc.index d f.name).elems.getD 1 Json.null).is_number = false →
      P (return_or_200 (coerce_geopoint su dv f d f.name 0 true false)))
    (h_loop : f.is_array = true → (Doc.index d f.name).is_array = true →
      (f.nested = true → f.type = field_types.GEOPOINT_ARRAY →
        (Doc.index d f.name).size ≠ 0 ∧
        ¬ (((Doc.index d f.name).elems.getD 0 Json.null).is_number = true ∧
          (Doc.index d f.name).size = 2)) →
      P (match coerce_element_loop su f fb dv (Doc.index d f.name).size 0 d with
        | some r => r
        | none => (Outcome.undefined, d)))
    (h_same :
      (f.type = field_types.STRING → (Doc.index d f.name).is_string = true) →
      (f.type = field_types.INT32 → (Doc.index d f.name).is_number_integer = true) →
      (f.type = field_types.INT64 → (Doc.index d f.name).is_number_integer = true) →
      (f.type = field_types.FLOAT → (Doc.index d f.name).is_number = true) →
      (f.type = field_types.BOOL → (Doc.index d f.name).is_boolean = true) →
      (f.type = field_types.GEOPOINT → (Doc.index d f.name).is_array = true ∧
        (Doc.index d f.name).size = 2 ∧
        ((Doc.index d f.name).elems.getD 0 Json.null).is_number = true ∧
        ((Doc.index d f.name).elems.getD 1 Json.null).is_number = true) →
      (f.is_array = true → f.type = field_types.GEOPOINT_ARRAY ∧ f.nested = true ∧
        (Doc.index d f.name).is_array = true ∧ (Doc.index d f.name).size = 2 ∧
        ((Doc.index d f.name).elems.getD 0 Json.null).is_number = true ∧
        ((Doc.index d f.name).elems.getD 1 Json.null).is_number = true) →
      P (Outcome.ok 200, d)) :
    P (coerce_element su f d fb dv) := by
  cases hT : f.type
  case STRING =>
    cases hv : (Doc.index d f.name).is_string
    · have := h_string hT hv
      simpa [coerce_element, hT, hv] using this
    · have := h_same (fun _ => hv) (by simp [hT]) (by simp [hT]) (by simp [hT]) (by simp [hT])
        (by simp [hT]) (by simp [field.is_array, hT])
      simpa [coerce_element, hT, hv, field.is_array] using this
  case INT32 =>
    cases hv : (Doc.index d f.name).is_number_integer
    · have := h_int32 hT hv
      simpa [coerce_element, hT, hv] using this
    · have := h_same (by simp [hT]) (fun _ => hv) (by simp [hT]) (by simp [hT]) (by simp [hT])
        (by simp [hT]) (by simp [field.is_array, hT])
      simpa [coerce_element, hT, hv, field.is_array] using this
  case INT64 =>
    cases hv : (Doc.index d f.name).is_number_integer
    · have := h_int64 hT hv
      simpa [coerce_element, hT, hv] using this
    · have := h_same (by simp [hT]) (by simp [hT]) (fun _ => hv) (by simp [hT]) (by simp [hT])
        (by simp [hT]) (by simp [field.is_array, hT])
      simpa [coerce_element, hT, hv, field.is_array] using this
  case FLOAT =>
    cases hv : (Doc.index d f.name).is_number
    · have := h_float hT hv
      simpa [coerce_element, hT, hv] using this
    · have := h_same (by simp [hT]) (by simp [hT]) (by simp [hT]) (fun _ => hv) (by simp [hT])
        (by simp [hT]) (by simp [field.is_array, hT])
      simpa [coerce_element, hT, hv, field.is_array] using this
  case BOOL =>
    cases hv : (Doc.index d f.name).is_boolean
    · have := h_bool hT hv
      simpa [coerce_element, hT, hv] using this
    · have := h_same (by simp [hT]) (by simp [hT]) (by simp [hT]) (by simp [hT]) (fun _ => hv)
        (by simp [hT]) (by simp [field.is_array, hT])
      simpa [coerce_element, hT, hv, field.is_array] using this
  case GEOPOINT =>
    cases ha : (Doc.index d f.name).is_array
    · have := h_geo_bad hT (Or.inl ha)
      simpa [coerce_element, hT, ha] using this
    · by_cases hs : (Doc.index d f.name).size = 2
      · cases hn : (((Doc.index d f.name).elems.getD 0 Json.null).is_number &&
            ((Doc.index d f.name).elems.getD 1 Json.null).is_number)
        · have := h_geo hT ha hs hn
          simp only [coerce_element, hT, ha, hs, hn]
          simpa using this
        · have hn2 := hn
          simp only [Bool.and_eq_true] at hn2
          have := h_same (by simp [hT]) (by simp [hT]) (by simp [hT]) (by simp [hT])
            (by simp [hT]) (fun _ => ⟨ha, hs, hn2.1, hn2.2⟩) (by simp [field.is_array, hT])
          simp only [coerce_element, hT, ha, hs, hn]
          simpa using this
      · have := h_geo_bad hT (Or.inr hs)
        simpa [coerce_element, hT, ha, hs] using this
  case STRING_ARRAY =>
    have hia : f.is_array = true := by simp [field.is_array, hT]
    cases ha : (Doc.index d f.name).is_array
    · cases hopt : (f.optional && (decide (dv = DIRTY_VALUES.DROP) ||
          decide (dv = DIRTY_VALUES.COERCE_OR_DROP)))
      · have := h_not_array_err hia ha hopt
        rw [Bool.eq_false_iff] at hopt
        simp only [ne_eq, Bool.and_eq_true, Bool.or_eq_true, decide_eq_true_eq] at hopt
        simp only [coerce_element, hT, ha, hia]
        simpa [hopt] using this
      · have := h_not_array hia ha hopt
        simp only [Bool.and_eq_true, Bool.or_eq_true, decide_eq_true_eq] at hopt
        simp only [coerce_element, hT, ha, hia]
        simpa [hopt] using this
    · have := h_loop hia ha (by simp [hT])
      simpa [coerce_element, hT, ha, hia] using this
  case INT32_ARRAY =>
    have hia : f.is_array = true := by simp [field.is_array, hT]
    cases ha : (Doc.index d f.name).is_array
    · cases hopt : (f.optional && (decide (dv = DIRTY_VALUES.DROP) ||
          decide (dv = DIRTY_VALUES.COERCE_OR_DROP)))
      · have := h_not_array_err hia ha hopt
        rw [Bool.eq_false_iff] at hopt
        simp only [ne_eq, Bool.and_eq_true, Bool.or_eq_true, decide_eq_true_eq] at hopt
        simp only [coerce_element, hT, ha, hia]
        simpa [hopt] using this
      · have := h_not_array hia ha hopt
        simp only [Bool.and_eq_true, Bool.or_eq_true, decide_eq_true_eq] at hopt
        simp only [coerce_element, hT, ha, hia]
        simpa [hopt] using this
    · have := h_loop hia ha (by simp [hT])
      simpa [coerce_element, hT, ha, hia] using this
  case INT64_ARRAY =>
    have hia : f.is_array = true := by simp [field.is_array, hT]
    cases ha : (Doc.index d f.name).is_array
    · cases hopt : (f.optional && (decide (dv = DIRTY_VALUES.DROP) ||
          decide (dv = DIRTY_VALUES.COERCE_OR_DROP)))
      · have := h_not_array_err hia ha hopt
        rw [Bool.eq_false_iff] at hopt
        simp only [ne_eq, Bool.and_eq_true, Bool.or_eq_true, decide_eq_true_eq] at hopt
        simp only [coerce_element, hT, ha, hia]
        simpa [hopt] using this
      · have := h_not_array hia ha hopt
        simp only [Bool.and_eq_true, Bool.or_eq_true, decide_eq_true_eq] at hopt
        simp only [coerce_element, hT, ha, hia]
        simpa [hopt] using this
    · have := h_loop hia ha (by simp [hT])
      simpa [coerce_element, hT, ha, hia] using this
  case FLOAT_ARRAY =>
    have hia : f.is_array = true := by simp [field.is_array, hT]
    cases ha : (Doc.index d f.name).is_array
    · cases hopt : (f.optional && (decide (dv = DIRTY_VALUES.DROP) ||
          decide (dv = DIRTY_VALUES.COERCE_OR_DROP)))
      · have := h_not_array_err hia ha hopt
        rw [Bool.eq_false_iff] at hopt
        simp only [ne_eq, Bool.and_eq_true, Bool.or_eq_true, decide_eq_true_eq] at hopt
        simp only [coerce_element, hT, ha, hia]
        simpa [hopt] using this
      · have := h_not_array hia ha hopt
        simp only [Bool.and_eq_true, Bool.or_eq_true, decide_eq_true_eq] at hopt
        simp only [coerce_element, hT, ha, hia]
        simpa [hopt] using this
    · have := h_loop hia ha (by simp [hT])
      simpa [coerce_element, hT, ha, hia] using this
  case BOOL_ARRAY =>
    have hia : f.is_array = true := by simp [field.is_array, hT]
    cases ha : (Doc.index d f.name).is_array
    · cases hopt : (f.optional && (decide (dv = DIRTY_VALUES.DROP) ||
          decide (dv = DIRTY_VALUES.COERCE_OR_DROP)))
      · have := h_not_array_err hia ha hopt
        rw [Bool.eq_false_iff] at hopt
        simp only [ne_eq, Bool.and_eq_true, Bool.or_eq_true, decide_eq_true_eq] at hopt
        simp only [coerce_element, hT, ha, hia]
        simpa [hopt] using this
      · have := h_not_array hia ha hopt
        simp only [Bool.and_eq_true, Bool.or_eq_true, decide_eq_true_eq] at hopt
        simp only [coerce_element, hT, ha, hia]
        simpa [hopt] using this
    · have := h_loop hia ha (by simp [hT])
      simpa [coerce_element, hT, ha, hia] using this
  case GEOPOINT_ARRAY =>
    have hia : f.is_array = true := by simp [field.is_array, hT]
    cases ha : (Doc.index d f.name).is_array
    · cases hopt : (f.optional && (decide (dv = DIRTY_VALUES.DROP) ||
          decide (dv = DIRTY_VALUES.COERCE_OR_DROP)))
      · have := h_not_array_err hia ha hopt
        rw [Bool.eq_false_iff] at hopt
        simp only [ne_eq, Bool.and_eq_true, Bool.or_eq_true, decide_eq_true_eq] at hopt
        simp only [coerce_element, hT, ha, hia]
        simpa [hopt] using this
      · have := h_not_array hia ha hopt
        simp only [Bool.and_eq_true, Bool.or_eq_true, decide_eq_true_eq] at hopt
        simp only [coerce_element, hT, ha, hia]
        simpa [hopt] using this
    · cases hn : f.nested
      · have := h_loop hia ha (by simp [hn])
        simpa [coerce_element, hT, ha, hia, hn] using this
      · by_cases h0 : (Doc.index d f.name).size = 0
        · have := h_nested_empty hT hn ha h0
          simpa [coerce_element, hT, ha, hia, hn, h0] using this
        · by_cases h2 : ((Doc.index d f.name).elems.getD 0 Json.null).is_number = true ∧
              (Doc.index d f.name).size = 2
          · cases hsec : ((Doc.index d f.name).elems.getD 1 Json.null).is_number
            · have := h_nested_geo hT hn ha h2.2 h2.1 hsec
              simp only [coerce_element, hT, ha, hia, hn, h2.1, h2.2, hsec]
              simpa using this
            · have := h_same (by simp [hT]) (by simp [hT]) (by simp [hT]) (by simp [hT])
                (by simp [hT]) (by simp [hT]) (fun _ => ⟨hT, hn, ha, h2.2, h2.1, hsec⟩)
              simp only [coerce_element, hT, ha, hia, hn, h2.1, h2.2, hsec]
              simpa using this
          · have := h_loop hia ha (fun _ _ => ⟨h0, h2⟩)
            have h2' : ¬(((Doc.index d f.name).elems.getD 0 Json.null).is_number = true ∧
                (Doc.index d f.name).size = 2) := h2
            simp only [coerce_element, hT, ha, hia, hn]
            simp only [List.getD_eq_getElem?_getD] at h2' this ⊢
            simpa [h0, h2'] using this
  case OBJECT =>
    have := h_same (by simp [hT]) (by simp [hT]) (by simp [hT]) (by simp [hT])
      (by simp [hT]) (by simp [hT]) (by simp [field.is_array, hT])
    simpa [coerce_element, hT, field.is_array] using this
  case OBJECT_ARRAY =>
    have hia : f.is_array = true := by simp [field.is_array, hT]
    cases ha : (Doc.index d f.name).is_array
    · cases hopt : (f.optional && (decide (dv = DIRTY_VALUES.DROP) ||
          decide (dv = DIRTY_VALUES.COERCE_OR_DROP)))
      · have := h_not_array_err hia ha hopt
        rw [Bool.eq_false_iff] at hopt
        simp only [ne_eq, Bool.and_eq_true, Bool.or_eq_true, decide_eq_true_eq] at hopt
        simp only [coerce_element, hT, ha, hia]
        simpa [hopt] using this
      · have := h_not_array hia ha hopt
        simp only [Bool.and_eq_true, Bool.or_eq_true, decide_eq_true_eq] at hopt
        simp only [coerce_element, hT, ha, hia]
        simpa [hopt] using this
    · have := h_loop hia ha (by simp [hT])
      simpa [coerce_element, hT, ha, hia] using this

theorem coerce_element_frame (su : StringUtils) (f : field) (d : Doc) (fb : String)
    (dv : DIRTY_VALUES) (key : String) (h : key ≠ f.name) :
    Doc.find (coerce_element su f d fb dv).2 key = Doc.find d key := by
  refine coerce_element_elim su f d fb dv (fun r => Doc.find r.2 key = Doc.find d key)
    ?_ ?_ ?_ ?_ ?_ ?_ ?_ ?_ ?_ ?_ ?_ ?_ ?_
  · intro _ _
    simp only [return_or_200_snd, coerce_string_frame _ _ _ _ _ _ _ _ _ _ h]
  · intro _ _
    simp only [return_or_200_snd, coerce_int32_t_frame _ _ _ _ _ _ _ _ _ h]
  · intro _ _
    simp only [return_or_200_snd, coerce_int64_t_frame _ _ _ _ _ _ _ _ _ h]
  · intro _ _
    simp only [return_or_200_snd, coerce_float_frame _ _ _ _ _ _ _ _ _ h]
  · intro _ _
    simp only [return_or_200_snd, coerce_bool_frame _ _ _ _ _ _ _ _ _ h]
  · intro _ _
    rfl
  · intro _ _ _ _
    simp only [return_or_200_snd, coerce_geopoint_frame _ _ _ _ _ _ _ _ _ h]
  · intro _ _ _
    exact Doc.find_erase_ne d f.name key h
  · intro _ _ _
    rfl
  · intro _ _ _ _
    rfl
  · intro _ _ _ _ _ _
    simp only [return_or_200_snd, coerce_geopoint_frame _ _ _ _ _ _ _ _ _ h]
  · intro _ _ _
    cases hloop : coerce_element_loop su f fb dv (Doc.index d f.name).size 0 d with
    | none => rfl
    | some r => exact coerce_element_loop_frame su f fb dv key h _ _ _ _ hloop
  · intro _ _ _ _ _ _ _
    rfl

/-! ## validate_fields: unfolding one field -/

theorem validate_fields_nil (su : StringUtils) (op : index_operation_t) (fb : String)
    (dv : DIRTY_VALUES) (d : Doc) :
    validate_fields su op fb dv [] d = (Outcome.ok 200, d) := rfl

/-- A field named `id` or an object container is skipped. -/
theorem validate_fields_skip (su : StringUtils) (op : index_operation_t) (fb : String)
    (dv : DIRTY_VALUES) (f : field) (rest : List field) (d : Doc)
    (h : f.name = "id" ∨ f.is_object = true) :
    validate_fields su op fb dv (f :: rest) d = validate_fields su op fb dv rest d := by
  rw [validate_fields]
  have hc : (decide (f.name = "id") || f.is_object) = true := by
    rcases h with h | h <;> simp [h]
  simp only [hc, if_true]

/-- An absent field is skipped when it is optional or the operation is UPDATE
or EMPLACE. -/
theorem validate_fields_absent_skip (su : StringUtils) (op : index_operation_t) (fb : String)
    (dv : DIRTY_VALUES) (f : field) (rest : List field) (d : Doc)
    (habs : Doc.find d f.name = none)
    (h : f.optional = true ∨ op = index_operation_t.UPDATE ∨ op = index_operation_t.EMPLACE) :
    validate_fields su op fb dv (f :: rest) d = validate_fields su op fb dv rest d := by
  rw [validate_fields]
  have hcount : Doc.count d f.name = 0 := by simp [Doc.count, Doc.contains, habs]
  have hc : ((f.optional || decide (op = index_operation_t.UPDATE) ||
      decide (op = index_operation_t.EMPLACE)) && decide (Doc.count d f.name = 0)) = true := by
    rcases h with h | h | h <;> simp [h, hcount]
  simp only [hc, if_true, ite_self]

/-- An absent field that is not skipped is an error. -/
theorem validate_fields_absent_error (su : StringUtils) (op : index_operation_t) (fb : String)
    (dv : DIRTY_VALUES) (f : field) (rest : List field) (d : Doc)
    (hid : f.name ≠ "id") (hobj : f.is_object = false)
    (habs : Doc.find d f.name = none) (hopt : f.optional = false)
    (hu : op ≠ index_operation_t.UPDATE) (he : op ≠ index_operation_t.EMPLACE) :
    validate_fields su op fb dv (f :: rest) d =
      (Outcome.error 400 ("Field `" ++ f.name ++
        "` has been declared in the schema, but is not found in the document."), d) := by
  rw [validate_fields]
  have hcount : Doc.count d f.name = 0 := by simp [Doc.count, Doc.contains, habs]
  simp [hid, hobj, hopt, hu, he, hcount]

/-- A present optional field holding null: the key is erased for a
create-like operation and kept for UPDATE and EMPLACE; no coercer runs. -/
theorem validate_fields_null (su : StringUtils) (op : index_operation_t) (fb : String)
    (dv : DIRTY_VALUES) (f : field) (rest : List field) (d : Doc)
    (hid : f.name ≠ "id") (hobj : f.is_object = false)
    (hnull : Doc.find d f.name = some Json.null) (hopt : f.optional = true) :
    validate_fields su op fb dv (f :: rest) d =
      validate_fields su op fb dv rest
        (if op ≠ index_operation_t.UPDATE ∧ op ≠ index_operation_t.EMPLACE
          then Doc.erase d f.name else d) := by
  rw [validate_fields]
  have hcount : Doc.count d f.name ≠ 0 := by simp [Doc.count, Doc.contains, hnull]
  have hidx : Doc.index d f.name = Json.null := Doc.index_of_find _ _ _ hnull
  by_cases hop : op ≠ index_operation_t.UPDATE ∧ op ≠ index_operation_t.EMPLACE
  · simp [hid, hobj, hopt, hcount, hidx, Json.is_null, hop]
  · simp [hid, hobj, hopt, hcount, hidx, Json.is_null, hop]

/-- A present field that is not an optional null goes through
`coerce_element`. -/
theorem validate_fields_coerce (su : StringUtils) (op : index_operation_t) (fb : String)
    (dv : DIRTY_VALUES) (f : field) (rest : List field) (d : Doc) (v : Json)
    (hid : f.name ≠ "id") (hobj : f.is_object = false)
    (hfind : Doc.find d f.name = some v) (hnn : f.optional = false ∨ v.is_null = false) :
    validate_fields su op fb dv (f :: rest) d =
      if (coerce_element su f d fb dv).1.is_ok = true then
        validate_fields su op fb dv rest (coerce_element su f d fb dv).2
      else coerce_element su f d fb dv := by
  rw [validate_fields]
  have hcount : Doc.count d f.name ≠ 0 := by simp [Doc.count, Doc.contains, hfind]
  have hidx : Doc.index d f.name = v := Doc.index_of_find _ _ _ hfind
  have hc : (f.optional && v.is_null) = false := by
    rcases hnn with h | h <;> simp [h]
  cases hok : (coerce_element su f d fb dv).1.is_ok <;>
    simp [hid, hobj, hcount, hidx, hc, hok]

theorem Json.is_null_eq_true (v : Json) (h : v.is_null = true) : v = Json.null := by
  cases v <;> simp [Json.is_null] at h ⊢

/-- One iteration of the schema loop either returns a failure, or continues
with the rest of the schema on a document that is the same, has the field's
key erased, or is the one `coerce_element` left. -/
theorem validate_fields_step (su : StringUtils) (op : index_operation_t) (fb : String)
    (dv : DIRTY_VALUES) (f : field) (d : Doc) :
    (∃ r : Outcome × Doc, r.1.is_ok = false ∧
      ((r = (Outcome.error 400 ("Field `" ++ f.name ++
          "` has been declared in the schema, but is not found in the document."), d)) ∨
        (r = coerce_element su f d fb dv ∧ Doc.find d f.name ≠ none)) ∧
      ∀ rest, validate_fields su op fb dv (f :: rest) d = r) ∨
    (∃ d' : Doc,
      ((d' = d ∧ (f.name = "id" ∨ f.is_object = true ∨
          (Doc.find d f.name = none ∧ (f.optional = true ∨ op = index_operation_t.UPDATE ∨
            op = index_operation_t.EMPLACE)) ∨
          (Doc.find d f.name = some Json.null ∧ f.optional = true ∧
            (op = index_operation_t.UPDATE ∨ op = index_operation_t.EMPLACE)))) ∨
        (d' = Doc.erase d f.name ∧ f.optional = true ∧ Doc.find d f.name = some Json.null ∧
          f.name ≠ "id" ∧ f.is_object = false ∧
          op ≠ index_operation_t.UPDATE ∧ op ≠ index_operation_t.EMPLACE) ∨
        (d' = (coerce_element su f d fb dv).2 ∧ Doc.find d f.name ≠ none ∧
          (coerce_element su f d fb dv).1.is_ok = true ∧
          f.name ≠ "id" ∧ f.is_object = false)) ∧
      ∀ rest, validate_fields su op fb dv (f :: rest) d = validate_fields su op fb dv rest d') := by
  by_cases hskip : f.name = "id" ∨ f.is_object = true
  · refine Or.inr ⟨d, Or.inl ⟨rfl, ?_⟩, fun rest => validate_fields_skip su op fb dv f rest d hskip⟩
    rcases hskip with h | h
    · exact Or.inl h
    · exact Or.inr (Or.inl h)
  have hid : f.name ≠ "id" := fun h => hskip (Or.inl h)
  have hobj : f.is_object = false := by
    cases h : f.is_object
    · rfl
    · exact absurd (Or.inr h) hskip
  obtain ⟨o, hfind⟩ : ∃ o, Doc.find d f.name = o := ⟨_, rfl⟩
  cases o with
  | none =>
    by_cases hs : f.optional = true ∨ op = index_operation_t.UPDATE ∨
        op = index_operation_t.EMPLACE
    · exact Or.inr ⟨d, Or.inl ⟨rfl, Or.inr (Or.inr (Or.inl ⟨hfind, hs⟩))⟩,
        fun rest => validate_fields_absent_skip su op fb dv f rest d hfind hs⟩
    · have hopt : f.optional = false := by
        cases h : f.optional
        · rfl
        · exact absurd (Or.inl h) hs
      have hu : op ≠ index_operation_t.UPDATE := fun h => hs (Or.inr (Or.inl h))
      have he : op ≠ index_operation_t.EMPLACE := fun h => hs (Or.inr (Or.inr h))
      exact Or.inl ⟨(Outcome.error 400 ("Field `" ++ f.name ++
          "` has been declared in the schema, but is not found in the document."), d),
        rfl, Or.inl rfl,
        fun rest => validate_fields_absent_error su op fb dv f rest d hid hobj hfind hopt hu he⟩
  | some v =>
    by_cases hn : f.optional = true ∧ v.is_null = true
    · have hv : v = Json.null := Json.is_null_eq_true v hn.2
      subst hv
      by_cases hop : op ≠ index_operation_t.UPDATE ∧ op ≠ index_operation_t.EMPLACE
      · refine Or.inr ⟨Doc.erase d f.name,
          Or.inr (Or.inl ⟨rfl, hn.1, hfind, hid, hobj, hop.1, hop.2⟩), fun rest => ?_⟩
        rw [validate_fields_null su op fb dv f rest d hid hobj hfind hn.1, if_pos hop]
      · have hop' : op = index_operation_t.UPDATE ∨ op = index_operation_t.EMPLACE := by
          by_cases hu : op = index_operation_t.UPDATE
          · exact Or.inl hu
          · by_cases he : op = index_operation_t.EMPLACE
            · exact Or.inr he
            · exact absurd ⟨hu, he⟩ hop
        refine Or.inr ⟨d, Or.inl ⟨rfl, Or.inr (Or.inr (Or.inr ⟨hfind, hn.1, hop'⟩))⟩,
          fun rest => ?_⟩
        rw [validate_fields_null su op fb dv f rest d hid hobj hfind hn.1, if_neg hop]
    · have hnn : f.optional = false ∨ v.is_null = false := by
        cases h1 : f.optional
        · exact Or.inl rfl
        · cases h2 : v.is_null
          · exact Or.inr rfl
          · exact absurd ⟨h1, h2⟩ hn
      have hpres : Doc.find d f.name ≠ none := by simp [hfind]
      obtain ⟨b, hok⟩ : ∃ b, (coerce_element su f d fb dv).1.is_ok = b := ⟨_, rfl⟩
      cases b
      · refine Or.inl ⟨coerce_element su f d fb dv, hok, Or.inr ⟨rfl, hpres⟩, fun rest => ?_⟩
        · rw [validate_fields_coerce su op fb dv f rest d v hid hobj hfind hnn, hok]
          simp
      · refine Or.inr ⟨(coerce_element su f d fb dv).2,
          Or.inr (Or.inr ⟨rfl, hpres, hok, hid, hobj⟩), fun rest => ?_⟩
        · rw [validate_fields_coerce su op fb dv f rest d v hid hobj hfind hnn, hok]
          simp

/-- The document a step continues with has no key the document before lacks. -/
theorem validate_fields_step_keys (su : StringUtils) (f : field) (d d' : Doc) (fb : String)
    (dv : DIRTY_VALUES)
    (h : d' = d ∨ d' = Doc.erase d f.name ∨
      (d' = (coerce_element su f d fb dv).2 ∧ Doc.find d f.name ≠ none))
    (key : String) (hk : Doc.find d key = none) : Doc.find d' key = none := by
  rcases h with h | h | ⟨h, hp⟩
  · rw [h]
    exact hk
  · rw [h]
    by_cases e : key = f.name
    · rw [e]
      exact Doc.find_erase_self _ _
    · rw [Doc.find_erase_ne _ _ _ e]
      exact hk
  · rw [h]
    by_cases e : key = f.name
    · rw [e] at hk
      exact absurd hk hp
    · rw [coerce_element_frame su f d fb dv key e]
      exact hk

/-! ## Null on an optional field -/

/-- C6, as amended: for an optional schema field other than `id` and other
than an object container whose document value is JSON null, under every
dirty-values policy the field causes no error and no coercer runs on it: for a
create-like operation the loop goes on with the key erased, for UPDATE and
EMPLACE it goes on with the document as it is (the key still holding null). -/
theorem optional_null_field (su : StringUtils) (op : index_operation_t) (fb : String)
    (dv : DIRTY_VALUES) (f : field) (rest : List field) (d : Doc)
    (hid : f.name ≠ "id") (hobj : f.is_object = false) (hopt : f.optional = true)
    (hnull : Doc.find d f.name = some Json.null) :
    (op ≠ index_operation_t.UPDATE → op ≠ index_operation_t.EMPLACE →
      validate_fields su op fb dv (f :: rest) d =
        validate_fields su op fb dv rest (Doc.erase d f.name) ∧
      Doc.find (Doc.erase d f.name) f.name = none ∧
      ∀ seq_id, validate_index_in_memory su d seq_id "" [f] op fb dv =
        (Outcome.ok 200, Doc.erase d f.name)) ∧
    ((op = index_operation_t.UPDATE ∨ op = index_operation_t.EMPLACE) →
      validate_fields su op fb dv (f :: rest) d = validate_fields su op fb dv rest d ∧
      ∀ seq_id default_sorting_field,
        validate_index_in_memory su d seq_id default_sorting_field [f] op fb dv =
          (Outcome.ok 200, d)) := by
  have key := fun rest => validate_fields_null su op fb dv f rest d hid hobj hnull hopt
  constructor
  · intro hu he
    have hop : op ≠ index_operation_t.UPDATE ∧ op ≠ index_operation_t.EMPLACE := ⟨hu, he⟩
    refine ⟨?_, Doc.find_erase_self _ _, fun seq_id => ?_⟩
    · rw [key rest, if_pos hop]
    · unfold validate_index_in_memory
      simp only [ne_eq, not_true_eq_false, decide_False, Bool.false_and, Bool.and_false,
        Bool.false_eq_true, if_false]
      rw [key [], if_pos hop, validate_fields_nil]
  · intro hop
    have hop' : ¬(op ≠ index_operation_t.UPDATE ∧ op ≠ index_operation_t.EMPLACE) := by
      rcases hop with h | h <;> simp [h]
    refine ⟨?_, fun seq_id dsf => ?_⟩
    · rw [key rest, if_neg hop']
    · unfold validate_index_in_memory
      have hc : (decide (op ≠ index_operation_t.UPDATE) &&
          decide (op ≠ index_operation_t.EMPLACE)) = false := by
        rcases hop with h | h <;> simp [h]
      simp only [hc, Bool.false_and, Bool.false_eq_true, if_false]
      rw [key [], if_neg hop', validate_fields_nil]

/-- Witness for C6 as amended: an optional string field holding null in a
CREATE. -/
theorem optional_null_field_witness :
    validate_index_in_memory StringUtils.model
        [("note", Json.null), ("qty", Json.number_unsigned 1)] 0 ""
        [⟨"note", field_types.STRING, true, false, 0⟩] index_operation_t.CREATE ""
        DIRTY_VALUES.REJECT =
      (Outcome.ok 200, [("qty", Json.number_unsigned 1)]) :=
  ((optional_null_field StringUtils.model index_operation_t.CREATE "" DIRTY_VALUES.REJECT
    ⟨"note", field_types.STRING, true, false, 0⟩ []
    [("note", Json.null), ("qty", Json.number_unsigned 1)]
    (by decide) rfl rfl rfl).1 (by decide) (by decide)).2.2 0

/-- Counterexample to C6 as stated: an optional object field holding null in
a CREATE; validation succeeds and the key is still in the document. -/
theorem optional_null_object_counterexample :
    validate_index_in_memory StringUtils.model [("meta", Json.null)] 0 ""
        [⟨"meta", field_types.OBJECT, true, false, 0⟩] index_operation_t.CREATE ""
        DIRTY_VALUES.COERCE_OR_REJECT =
      (Outcome.ok 200, [("meta", Json.null)]) ∧
    Doc.find [("meta", Json.null)] "meta" = some Json.null :=
  ⟨rfl, rfl⟩

/-! ## Partial updates -/

/-- For UPDATE and EMPLACE the loop ignores the schema fields that are not in
the document `d0` it started from. -/
theorem validate_fields_filter (su : StringUtils) (op : index_operation_t) (fb : String)
    (dv : DIRTY_VALUES) (d0 : Doc)
    (hop : op = index_operation_t.UPDATE ∨ op = index_operation_t.EMPLACE) :
    ∀ (fields : List field) (d : Doc),
      (∀ key, Doc.find d0 key = none → Doc.find d key = none) →
      validate_fields su op fb dv fields d =
        validate_fields su op fb dv (fields.filter (fun f => Doc.contains d0 f.name)) d := by
  intro fields
  induction fields with
  | nil => intro d _; rfl
  | cons f rest ih =>
    intro d hkeys
    cases hc : Doc.contains d0 f.name
    · have h0 : Doc.find d0 f.name = none := by
        simpa [Doc.contains] using hc
      rw [List.filter_cons_of_neg (by simp [hc]),
        validate_fields_absent_skip su op fb dv f rest d (hkeys _ h0) (Or.inr hop)]
      exact ih d hkeys
    · rw [List.filter_cons_of_pos (by simp [hc])]
      rcases validate_fields_step su op fb dv f d with ⟨r, _, _, hr⟩ | ⟨d', hd', hcont⟩
      · rw [hr, hr]
      · rw [hcont, hcont]
        apply ih
        intro key hk
        refine validate_fields_step_keys su f d d' fb dv ?_ key (hkeys key hk)
        rcases hd' with ⟨h, _⟩ | ⟨h, _⟩ | ⟨h, hp, _⟩
        · exact Or.inl h
        · exact Or.inr (Or.inl h)
        · exact Or.inr (Or.inr ⟨h, hp⟩)

/-- C5 (partial update): for UPDATE and EMPLACE, every schema, policy and
default sorting field, a document that contains none of the schema's field
names validates successfully and is left unchanged; and the result of
validation is the result for the schema restricted to the fields whose names
are keys of the document. -/
theorem validate_partial_update (su : StringUtils) (document : Doc) (seq_id : Nat)
    (default_sorting_field : String) (search_schema : List field) (op : index_operation_t)
    (fallback_field_type : String) (dirty_values : DIRTY_VALUES)
    (hop : op = index_operation_t.UPDATE ∨ op = index_operation_t.EMPLACE) :
    ((∀ f ∈ search_schema, Doc.contains document f.name = false) →
      validate_index_in_memory su document seq_id default_sorting_field search_schema op
        fallback_field_type dirty_values = (Outcome.ok 200, document)) ∧
    validate_index_in_memory su document seq_id default_sorting_field search_schema op
        fallback_field_type dirty_values =
      validate_index_in_memory su document seq_id default_sorting_field
        (search_schema.filter (fun f => Doc.contains document f.name)) op
        fallback_field_type dirty_values := by
  have hc : (decide (op ≠ index_operation_t.UPDATE) &&
      decide (op ≠ index_operation_t.EMPLACE)) = false := by
    rcases hop with h | h <;> simp [h]
  have hfilter := validate_fields_filter su op fallback_field_type dirty_values document hop
    search_schema document (fun _ h => h)
  constructor
  · intro hnone
    have hnil : search_schema.filter (fun f => Doc.contains document f.name) = [] := by
      rw [List.filter_eq_nil_iff]
      intro f hf
      simp [hnone f hf]
    unfold validate_index_in_memory
    simp only [hc, Bool.false_and, Bool.false_eq_true, if_false]
    rw [hfilter, hnil, validate_fields_nil]
  · unfold validate_index_in_memory
    simp only [hc, Bool.false_and, Bool.false_eq_true, if_false]
    exact hfilter

/-- Witness for C5: an UPDATE that carries one of two schema fields. -/
theorem validate_partial_update_witness :
    validate_index_in_memory StringUtils.model [("qty", Json.string "3")] 0 "points"
        [⟨"title", field_types.STRING, false, false, 0⟩,
          ⟨"qty", field_types.INT32, false, false, 0⟩]
        index_operation_t.UPDATE "" DIRTY_VALUES.COERCE_OR_REJECT =
      validate_index_in_memory StringUtils.model [("qty", Json.string "3")] 0 "points"
        [⟨"qty", field_types.INT32, false, false, 0⟩]
        index_operation_t.UPDATE "" DIRTY_VALUES.COERCE_OR_REJECT :=
  (validate_partial_update StringUtils.model [("qty", Json.string "3")] 0 "points"
    [⟨"title", field_types.STRING, false, false, 0⟩,
      ⟨"qty", field_types.INT32, false, false, 0⟩]
    index_operation_t.UPDATE "" DIRTY_VALUES.COERCE_OR_REJECT (Or.inl rfl)).2

/-! ## Fields in sequence -/

/-- The loop over `pre ++ rest` is the loop over `pre`, followed on success by
the loop over `rest`. -/
theorem validate_fields_append (su : StringUtils) (op : index_operation_t) (fb : String)
    (dv : DIRTY_VALUES) (rest : List field) :
    ∀ (pre : List field) (d : Doc),
      validate_fields su op fb dv (pre ++ rest) d =
        if (validate_fields su op fb dv pre d).1.is_ok = true then
          validate_fields su op fb dv rest (validate_fields su op fb dv pre d).2
        else validate_fields su op fb dv pre d := by
  intro pre
  induction pre with
  | nil =>
    intro d
    simp [validate_fields_nil, Outcome.is_ok]
  | cons f pre ih =>
    intro d
    rw [List.cons_append]
    rcases validate_fields_step su op fb dv f d with ⟨r, hr0, _, hr⟩ | ⟨d', _, hcont⟩
    · rw [hr, hr, hr0]
      simp
    · rw [hcont, hcont]
      exact ih d'

/-- The loop adds no key to the document. -/
theorem validate_fields_keys (su : StringUtils) (op : index_operation_t) (fb : String)
    (dv : DIRTY_VALUES) (key : String) :
    ∀ (fields : List field) (d : Doc), Doc.find d key = none →
      Doc.find (validate_fields su op fb dv fields d).2 key = none := by
  intro fields
  induction fields with
  | nil => intro d h; exact h
  | cons f rest ih =>
    intro d h
    rcases validate_fields_step su op fb dv f d with ⟨r, _, hr1, hr⟩ | ⟨d', hd', hcont⟩
    · rw [hr]
      rcases hr1 with h1 | ⟨h1, hp⟩
      · rw [h1]
        exact h
      · rw [h1]
        exact validate_fields_step_keys su f d _ fb dv (Or.inr (Or.inr ⟨rfl, hp⟩)) key h
    · rw [hcont]
      apply ih
      refine validate_fields_step_keys su f d d' fb dv ?_ key h
      rcases hd' with ⟨h, _⟩ | ⟨h, _⟩ | ⟨h, hp, _⟩
      · exact Or.inl h
      · exact Or.inr (Or.inl h)
      · exact Or.inr (Or.inr ⟨h, hp⟩)

/-- C4, as amended: for a create-like operation, let a schema field X other
than `id` and other than an object field be absent from the document, the
default sorting field, if any, being present.  When X is not optional,
validation does not succeed, and when the schema fields before X pass it fails
with status 400 and the message "Field `X` has been declared in the schema, but
is not found in the document.".  When X is optional it causes no failure: the
result is that of validation with X left out of the schema. -/
theorem validate_absent_field (su : StringUtils) (document : Doc) (seq_id : Nat)
    (default_sorting_field : String) (pre post : List field) (x : field)
    (op : index_operation_t) (fb : String) (dv : DIRTY_VALUES)
    (hu : op ≠ index_operation_t.UPDATE) (he : op ≠ index_operation_t.EMPLACE)
    (hid : x.name ≠ "id") (hobj : x.is_object = false)
    (habs : Doc.find document x.name = none)
    (hsort : default_sorting_field = "" ∨ Doc.contains document default_sorting_field = true) :
    (x.optional = false →
      (validate_index_in_memory su document seq_id default_sorting_field (pre ++ x :: post)
        op fb dv).1.is_ok = false ∧
      ((validate_fields su op fb dv pre document).1.is_ok = true →
        validate_index_in_memory su document seq_id default_sorting_field (pre ++ x :: post)
          op fb dv =
        (Outcome.error 400 ("Field `" ++ x.name ++
          "` has been declared in the schema, but is not found in the document."),
          (validate_fields su op fb dv pre document).2))) ∧
    (x.optional = true →
      validate_index_in_memory su document seq_id default_sorting_field (pre ++ x :: post)
        op fb dv =
      validate_index_in_memory su document seq_id default_sorting_field (pre ++ post)
        op fb dv) := by
  have hmiss : (decide (default_sorting_field ≠ "") &&
      decide (Doc.count document default_sorting_field = 0)) = false := by
    rcases hsort with h | h
    · simp [h]
    · simp [Doc.count, h]
  have hval : ∀ schema, validate_index_in_memory su document seq_id default_sorting_field
      schema op fb dv = validate_fields su op fb dv schema document := by
    intro schema
    unfold validate_index_in_memory
    simp only [hmiss, Bool.and_false, Bool.false_eq_true, if_false]
  have habs' : Doc.find (validate_fields su op fb dv pre document).2 x.name = none :=
    validate_fields_keys su op fb dv x.name pre document habs
  constructor
  · intro hopt
    have hx := validate_fields_absent_error su op fb dv x post
      (validate_fields su op fb dv pre document).2 hid hobj habs' hopt hu he
    rw [hval, validate_fields_append]
    constructor
    · split
      · rw [hx]
        rfl
      · rename_i hno
        simpa using hno
    · intro hok
      rw [if_pos hok, hx]
  · intro hopt
    have hx := validate_fields_absent_skip su op fb dv x post
      (validate_fields su op fb dv pre document).2 habs' (Or.inl hopt)
    rw [hval, hval, validate_fields_append, validate_fields_append su op fb dv post, hx]

/-- Witness for C4 as amended: the second of two required fields is absent. -/
theorem validate_absent_field_witness :
    validate_index_in_memory StringUtils.model [("title", Json.string "pen")] 0 ""
        ([⟨"title", field_types.STRING, false, false, 0⟩] ++
          ⟨"qty", field_types.INT32, false, false, 0⟩ :: [])
        index_operation_t.CREATE "" DIRTY_VALUES.REJECT =
      (Outcome.error 400
        "Field `qty` has been declared in the schema, but is not found in the document.",
        [("title", Json.string "pen")]) :=
  ((validate_absent_field StringUtils.model [("title", Json.string "pen")] 0 ""
    [⟨"title", field_types.STRING, false, false, 0⟩] []
    ⟨"qty", field_types.INT32, false, false, 0⟩
    index_operation_t.CREATE "" DIRTY_VALUES.REJECT (by decide) (by decide) (by decide) rfl rfl
    (Or.inl rfl)).1 rfl).2 rfl

/-- Counterexample to C4 as stated: the required field `qty` is absent, yet
validation fails with the message of the field `title`, which comes first in
the schema and holds a number under REJECT. -/
theorem validate_absent_field_counterexample :
    validate_index_in_memory StringUtils.model [("title", Json.number_unsigned 1)] 0 ""
        [⟨"title", field_types.STRING, false, false, 0⟩,
          ⟨"qty", field_types.INT32, false, false, 0⟩]
        index_operation_t.CREATE "" DIRTY_VALUES.REJECT =
      (Outcome.error 400 "Field `title` must be a string.",
        [("title", Json.number_unsigned 1)]) ∧
    Doc.find [("title", Json.number_unsigned 1)] "qty" = none ∧
    Outcome.error 400 "Field `title` must be a string." ≠
      Outcome.error 400
        "Field `qty` has been declared in the schema, but is not found in the document." :=
  ⟨rfl, rfl, by decide⟩

/-! ## REJECT writes nothing -/

theorem coerce_element_item_reject (su : StringUtils) (f : field) (d : Doc) (fb : String)
    (it : Nat) :
    (coerce_element_item su f d fb DIRTY_VALUES.REJECT it).2 = (d, false) := by
  unfold coerce_element_item
  simp only []
  repeat' split
  all_goals
    simp only [coerce_string, coerce_int32_t, coerce_int64_t, coerce_float, coerce_bool,
      coerce_geopoint, item_bind, if_true]

theorem coerce_element_loop_reject (su : StringUtils) (f : field) (fb : String) :
    ∀ (fuel it : Nat) (d : Doc) (r : Outcome × Doc),
      coerce_element_loop su f fb DIRTY_VALUES.REJECT fuel it d = some r → r.2 = d := by
  intro fuel
  induction fuel with
  | zero =>
    intro it d r hr
    unfold coerce_element_loop at hr
    split at hr
    · cases hr
    · cases hr
      rfl
  | succ n ih =>
    intro it d r hr
    unfold coerce_element_loop at hr
    have hitem := coerce_element_item_reject su f d fb it
    split at hr
    · simp only [] at hr
      split at hr
      · cases hr
        simp only [hitem]
      · rw [ih _ _ _ hr]
        simp only [hitem]
    · cases hr
      rfl

/-- Under REJECT `coerce_element` leaves the document as it is, for a field
that is a key of the document. -/
theorem coerce_element_reject (su : StringUtils) (f : field) (d : Doc) (fb : String)
    (v : Json) (hfind : Doc.find d f.name = some v) :
    (coerce_element su f d fb DIRTY_VALUES.REJECT).2 = d := by
  have htouch : Doc.touch d f.name = d := Doc.touch_of_find _ _ _ hfind
  refine coerce_element_elim su f d fb DIRTY_VALUES.REJECT (fun r => r.2 = d)
    ?_ ?_ ?_ ?_ ?_ ?_ ?_ ?_ ?_ ?_ ?_ ?_ ?_
  · intro _ _
    simp only [return_or_200_snd, coerce_string, item_bind, if_true, htouch]
    rfl
  · intro _ _
    simp only [return_or_200_snd, coerce_int32_t, item_bind, if_true, htouch]
    rfl
  · intro _ _
    simp only [return_or_200_snd, coerce_int64_t, item_bind, if_true, htouch]
    rfl
  · intro _ _
    simp only [return_or_200_snd, coerce_float, item_bind, if_true, htouch]
    rfl
  · intro _ _
    simp only [return_or_200_snd, coerce_bool, item_bind, if_true, htouch]
    rfl
  · intro _ _
    rfl
  · intro _ _ _ _
    simp only [return_or_200_snd, coerce_geopoint, item_bind, if_true, htouch]
    rfl
  · intro _ _ h
    simp at h
  · intro _ _ _
    rfl
  · intro _ _ _ _
    rfl
  · intro _ _ _ _ _ _
    simp only [return_or_200_snd, coerce_geopoint, item_bind, if_true]
  · intro _ _ _
    cases hloop : coerce_element_loop su f fb DIRTY_VALUES.REJECT (Doc.index d f.name).size 0 d with
    | none => rfl
    | some r => exact coerce_element_loop_reject su f fb _ _ _ _ hloop
  · intro _ _ _ _ _ _ _
    rfl

/-- Under REJECT the schema loop changes the document only by erasing keys of
optional fields that hold null, and only in a create-like operation. -/
theorem validate_fields_reject (su : StringUtils) (op : index_operation_t) (fb : String) :
    ∀ (fields : List field) (d : Doc),
      ∃ keys : List String,
        (validate_fields su op fb DIRTY_VALUES.REJECT fields d).2 = keys.foldl Doc.erase d ∧
        ∀ key ∈ keys,
          (∃ f ∈ fields, f.name = key ∧ f.optional = true ∧ f.name ≠ "id" ∧
            f.is_object = false) ∧
          Doc.find d key = some Json.null ∧
          op ≠ index_operation_t.UPDATE ∧ op ≠ index_operation_t.EMPLACE := by
  intro fields
  induction fields with
  | nil =>
    intro d
    exact ⟨[], rfl, fun key hk => absurd hk (List.not_mem_nil key)⟩
  | cons f rest ih =>
    intro d
    rcases validate_fields_step su op fb DIRTY_VALUES.REJECT f d with
      ⟨r, _, hr1, hr⟩ | ⟨d', hd', hcont⟩
    · refine ⟨[], ?_, fun key hk => absurd hk (List.not_mem_nil key)⟩
      rw [hr]
      rcases hr1 with h1 | ⟨h1, hp⟩
      · rw [h1]
        rfl
      · rw [h1]
        obtain ⟨v, hv⟩ := Option.ne_none_iff_exists'.mp hp
        exact coerce_element_reject su f d fb v hv
    · have hsame : d' = d → ∃ keys : List String,
          (validate_fields su op fb DIRTY_VALUES.REJECT (f :: rest) d).2 =
            keys.foldl Doc.erase d ∧
          ∀ key ∈ keys,
            (∃ g ∈ f :: rest, g.name = key ∧ g.optional = true ∧ g.name ≠ "id" ∧
              g.is_object = false) ∧
            Doc.find d key = some Json.null ∧
            op ≠ index_operation_t.UPDATE ∧ op ≠ index_operation_t.EMPLACE := by
        intro h
        obtain ⟨keys, hk1, hk2⟩ := ih d
        refine ⟨keys, ?_, fun key hk => ?_⟩
        · rw [hcont, h]
          exact hk1
        · obtain ⟨⟨g, hg, hg'⟩, hrest⟩ := hk2 key hk
          exact ⟨⟨g, List.mem_cons_of_mem f hg, hg'⟩, hrest⟩
      rcases hd' with ⟨h, _⟩ | ⟨h, hopt, hnull, hid, hobj, hu, he⟩ | ⟨h, hp, _⟩
      · exact hsame h
      · obtain ⟨keys, hk1, hk2⟩ := ih (Doc.erase d f.name)
        refine ⟨f.name :: keys, ?_, fun key hk => ?_⟩
        · rw [hcont, h]
          exact hk1
        · rcases List.mem_cons.mp hk with hk | hk
          · rw [hk]
            exact ⟨⟨f, List.mem_cons_self f rest, rfl, hopt, hid, hobj⟩, hnull, hu, he⟩
          · obtain ⟨⟨g, hg, hg'⟩, hfind, hrest⟩ := hk2 key hk
            have hne : key ≠ f.name := by
              intro e
              rw [e, Doc.find_erase_self] at hfind
              cases hfind
            rw [Doc.find_erase_ne _ _ _ hne] at hfind
            exact ⟨⟨g, List.mem_cons_of_mem f hg, hg'⟩, hfind, hrest⟩
      · obtain ⟨v, hv⟩ := Option.ne_none_iff_exists'.mp hp
        exact hsame (h.trans (coerce_element_reject su f d fb v hv))

/-- C3, as amended: under REJECT, whether validation succeeds or fails, the
document afterwards is the document before with zero or more keys erased, each
the key of an optional schema field (not `id`, not an object field) whose value
was null, and only in a create-like operation; so the document is unchanged
for UPDATE and EMPLACE and whenever no optional schema field holds null. -/
theorem validate_reject_document (su : StringUtils) (document : Doc) (seq_id : Nat)
    (default_sorting_field : String) (search_schema : List field) (op : index_operation_t)
    (fallback_field_type : String) :
    (∃ keys : List String,
      (validate_index_in_memory su document seq_id default_sorting_field search_schema op
        fallback_field_type DIRTY_VALUES.REJECT).2 = keys.foldl Doc.erase document ∧
      ∀ key ∈ keys,
        (∃ f ∈ search_schema, f.name = key ∧ f.optional = true ∧ f.name ≠ "id" ∧
          f.is_object = false) ∧
        Doc.find document key = some Json.null ∧
        op ≠ index_operation_t.UPDATE ∧ op ≠ index_operation_t.EMPLACE) ∧
    ((op = index_operation_t.UPDATE ∨ op = index_operation_t.EMPLACE ∨
        ∀ f ∈ search_schema, f.optional = true → Doc.find document f.name ≠ some Json.null) →
      (validate_index_in_memory su document seq_id default_sorting_field search_schema op
        fallback_field_type DIRTY_VALUES.REJECT).2 = document) := by
  have hmain : ∃ keys : List String,
      (validate_index_in_memory su document seq_id default_sorting_field search_schema op
        fallback_field_type DIRTY_VALUES.REJECT).2 = keys.foldl Doc.erase document ∧
      ∀ key ∈ keys,
        (∃ f ∈ search_schema, f.name = key ∧ f.optional = true ∧ f.name ≠ "id" ∧
          f.is_object = false) ∧
        Doc.find document key = some Json.null ∧
        op ≠ index_operation_t.UPDATE ∧ op ≠ index_operation_t.EMPLACE := by
    unfold validate_index_in_memory
    dsimp only
    split
    · exact ⟨[], rfl, fun key hk => absurd hk (List.not_mem_nil key)⟩
    · exact validate_fields_reject su op fallback_field_type search_schema document
  refine ⟨hmain, fun h => ?_⟩
  obtain ⟨keys, hk1, hk2⟩ := hmain
  cases keys with
  | nil => exact hk1
  | cons key keys =>
    obtain ⟨⟨f, hf, hname, hopt, _, _⟩, hnull, hu, he⟩ := hk2 key (List.mem_cons_self key keys)
    rcases h with h | h | h
    · exact absurd h hu
    · exact absurd h he
    · rw [← hname] at hnull
      exact absurd hnull (h f hf hopt)

/-- Counterexample to C3 as stated: under REJECT a CREATE whose optional
string field holds null succeeds and leaves a different document: the key is
gone. -/
theorem validate_reject_erases_null_counterexample :
    validate_index_in_memory StringUtils.model
        [("note", Json.null), ("qty", Json.number_unsigned 1)] 0 ""
        [⟨"note", field_types.STRING, true, false, 0⟩] index_operation_t.CREATE ""
        DIRTY_VALUES.REJECT =
      (Outcome.ok 200, [("qty", Json.number_unsigned 1)]) ∧
    Doc.find [("note", Json.null), ("qty", Json.number_unsigned 1)] "note" = some Json.null ∧
    Doc.find [("qty", Json.number_unsigned 1)] "note" = none :=
  ⟨rfl, rfl, rfl⟩

/-- Witness for C3 as amended: under REJECT an UPDATE whose optional string
field holds null leaves the document unchanged. -/
theorem validate_reject_document_witness :
    (validate_index_in_memory StringUtils.model
        [("note", Json.null), ("qty", Json.number_unsigned 1)] 0 ""
        [⟨"note", field_types.STRING, true, false, 0⟩] index_operation_t.UPDATE ""
        DIRTY_VALUES.REJECT).2 = [("note", Json.null), ("qty", Json.number_unsigned 1)] :=
  (validate_reject_document StringUtils.model
    [("note", Json.null), ("qty", Json.number_unsigned 1)] 0 ""
    [⟨"note", field_types.STRING, true, false, 0⟩] index_operation_t.UPDATE "").2
    (Or.inl rfl)

/-! ## What a successful scalar coercion leaves under the field's key -/

theorem coerce_int32_t_range_post (dv : DIRTY_VALUES) (f : field) (d : Doc) (k : String)
    (e : Bool) (r : Outcome) (d' : Doc) (e' : Bool)
    (h : coerce_int32_t_range dv f d k e = (r, d', e')) (hok : r.is_ok = true) :
    e' = e ∧ (d' = d ∨ (d' = Doc.erase d k ∧ f.optional = true)) := by
  unfold coerce_int32_t_range at h
  repeat' split at h
  all_goals (simp only [Prod.mk.injEq] at h; obtain ⟨h1, h2, h3⟩ := h; subst h1 h2 h3)
  all_goals first
    | (simp [Outcome.is_ok] at hok; done)
    | skip
  all_goals simp_all

theorem coerce_string_scalar_post (su : StringUtils) (dv : DIRTY_VALUES) (fb : String)
    (f : field) (d : Doc) (k : String) (it : Nat) (e : Bool)
    (r : Outcome) (d' : Doc) (e' : Bool)
    (h : coerce_string su dv fb f d k it false e = (r, d', e')) (hok : r.is_ok = true) :
    (Doc.find d' k = none ∧ f.optional = true) ∨
      ∃ w, Doc.find d' k = some w ∧ w.is_string = true := by
  unfold coerce_string at h
  simp only [item_assign, erase_item, Bool.not_false, if_true, Bool.false_eq_true, if_false]
    at h
  repeat' split at h
  all_goals (simp only [Prod.mk.injEq] at h; obtain ⟨h1, h2, h3⟩ := h; subst h1 h2 h3)
  all_goals first
    | (simp [Outcome.is_ok] at hok; done)
    | skip
  all_goals simp_all [Doc.find_erase_self, Doc.find_assign_self, Json.is_string]

theorem coerce_int32_t_scalar_post (su : StringUtils) (dv : DIRTY_VALUES)
    (f : field) (d : Doc) (k : String) (it : Nat) (e : Bool)
    (r : Outcome) (d' : Doc) (e' : Bool)
    (h : coerce_int32_t su dv f d k it false e = (r, d', e')) (hok : r.is_ok = true) :
    (Doc.find d' k = none ∧ f.optional = true) ∨
      ∃ w, Doc.find d' k = some w ∧ w.is_number_integer = true := by
  unfold coerce_int32_t at h
  simp only [item_assign, erase_item, Bool.not_false, if_true, Bool.false_eq_true, if_false]
    at h
  repeat' split at h
  all_goals first
    | (obtain ⟨_, hp | ⟨hp, ho⟩⟩ := coerce_int32_t_range_post _ _ _ _ _ _ _ _ h hok <;>
        subst hp <;>
        simp_all [Doc.find_erase_self, Doc.find_assign_self, Json.is_number_integer])
    | (simp only [Prod.mk.injEq] at h
       obtain ⟨h1, h2, h3⟩ := h
       subst h1 h2 h3
       first
        | (simp [Outcome.is_ok] at hok; done)
        | simp_all [Doc.find_erase_self, Doc.find_assign_self, Json.is_number_integer])

theorem coerce_int64_t_scalar_post (su : StringUtils) (dv : DIRTY_VALUES)
    (f : field) (d : Doc) (k : String) (it : Nat) (e : Bool)
    (r : Outcome) (d' : Doc) (e' : Bool)
    (h : coerce_int64_t su dv f d k it false e = (r, d', e')) (hok : r.is_ok = true) :
    (Doc.find d' k = none ∧ f.optional = true) ∨
      ∃ w, Doc.find d' k = some w ∧ w.is_number_integer = true := by
  unfold coerce_int64_t at h
  simp only [item_assign, erase_item, Bool.not_false, if_true, Bool.false_eq_true, if_false]
    at h
  repeat' split at h
  all_goals (simp only [Prod.mk.injEq] at h; obtain ⟨h1, h2, h3⟩ := h; subst h1 h2 h3)
  all_goals first
    | (simp [Outcome.is_ok] at hok; done)
    | skip
  all_goals simp_all [Doc.find_erase_self, Doc.find_assign_self, Json.is_number_integer]

theorem coerce_float_scalar_post (su : StringUtils) (dv : DIRTY_VALUES)
    (f : field) (d : Doc) (k : String) (it : Nat) (e : Bool)
    (r : Outcome) (d' : Doc) (e' : Bool)
    (h : coerce_float su dv f d k it false e = (r, d', e')) (hok : r.is_ok = true) :
    (Doc.find d' k = none ∧ f.optional = true) ∨
      ∃ w, Doc.find d' k = some w ∧ w.is_number = true := by
  unfold coerce_float at h
  simp only [item_assign, erase_item, Bool.not_false, if_true, Bool.false_eq_true, if_false]
    at h
  repeat' split at h
  all_goals (simp only [Prod.mk.injEq] at h; obtain ⟨h1, h2, h3⟩ := h; subst h1 h2 h3)
  all_goals first
    | (simp [Outcome.is_ok] at hok; done)
    | skip
  all_goals simp_all [Doc.find_erase_self, Doc.find_assign_self, Json.is_number,
    Json.is_number_float, Json.is_number_integer]

theorem coerce_bool_scalar_post (su : StringUtils) (dv : DIRTY_VALUES)
    (f : field) (d : Doc) (k : String) (it : Nat) (e : Bool)
    (r : Outcome) (d' : Doc) (e' : Bool)
    (h : coerce_bool su dv f d k it false e = (r, d', e')) (hok : r.is_ok = true) :
    (Doc.find d' k = none ∧ f.optional = true) ∨
      ∃ w, Doc.find d' k = some w ∧ w.is_boolean = true := by
  unfold coerce_bool at h
  simp only [item_assign, erase_item, Bool.not_false, if_true, Bool.false_eq_true, if_false]
    at h
  repeat' split at h
  all_goals (simp only [Prod.mk.injEq] at h; obtain ⟨h1, h2, h3⟩ := h; subst h1 h2 h3)
  all_goals first
    | (simp [Outcome.is_ok] at hok; done)
    | skip
  all_goals simp_all [Doc.find_erase_self, Doc.find_assign_self, Json.is_boolean]

theorem is_geopoint_value_of (a : List Json) (hlen : a.length = 2)
    (h0 : (a.getD 0 Json.null).is_number = true) (h1 : (a.getD 1 Json.null).is_number = true) :
    is_geopoint_value (Json.array a) = true := by
  match a, hlen with
  | [x, y], _ =>
    simp only [List.getD_cons_zero, List.getD_cons_succ] at h0 h1
    simp [is_geopoint_value, h0, h1]

theorem coerce_geopoint_scalar_post (su : StringUtils) (dv : DIRTY_VALUES)
    (f : field) (d : Doc) (k : String) (it : Nat) (e : Bool) (lat lng : Json)
    (r : Outcome) (d' : Doc) (e' : Bool)
    (hfind : Doc.find d k = some (Json.array [lat, lng]))
    (h : coerce_geopoint su dv f d k it false e = (r, d', e')) (hok : r.is_ok = true) :
    (Doc.find d' k = none ∧ f.optional = true) ∨
      ∃ w, Doc.find d' k = some w ∧ is_geopoint_value w = true := by
  have htouch : Doc.touch d k = d := Doc.touch_of_find _ _ _ hfind
  have hidx : Doc.index d k = Json.array [lat, lng] := Doc.index_of_find _ _ _ hfind
  unfold coerce_geopoint at h
  simp only [item_bind, item_value, item_assign, erase_item, Bool.not_false, if_true,
    Bool.false_eq_true, if_false, htouch, hidx, subscript_fill, List.length_cons,
    List.length_nil, List.replicate, List.append_nil] at h
  repeat' split at h
  all_goals (simp only [Prod.mk.injEq] at h; obtain ⟨h1, h2, h3⟩ := h; subst h1 h2 h3)
  all_goals first
    | (simp [Outcome.is_ok] at hok; done)
    | skip
  · left
    simp_all [Doc.find_erase_self]
  · left
    rename_i hopt
    refine ⟨?_, by simpa using hopt⟩
    rw [Doc.erase_assign _ _ _ _ hfind]
    exact Doc.find_erase_self _ _
  · right
    rename_i a1 h1 _ a3 h3 hnum
    refine ⟨_, Doc.find_assign_self _ _ _, ?_⟩
    have hl1 : a1.length = 2 := coerce_geopoint_elem_length su _ _ _ h1
    have hl3 : a3.length = 2 := by
      rw [coerce_geopoint_elem_length su _ _ _ h3]
      simp [hl1]
    simp only [Bool.or_eq_true, Bool.not_eq_true', not_or, Bool.not_eq_false] at hnum
    exact is_geopoint_value_of a3 hl3 hnum.1 hnum.2

/-! ## What a successful element coercion leaves in the array -/

theorem coerce_int32_t_range_array (dv : DIRTY_VALUES) (f : field) (d : Doc) (k : String)
    (e : Bool) (a : List Json) (hfind : Doc.find d k = some (Json.array a)) :
    coerce_int32_t_range dv f d k e = (Outcome.thrown "type_error.302", d, e) := by
  simp [coerce_int32_t_range, Doc.contains, Doc.index, hfind, get_int64]

theorem coerce_string_array_post (su : StringUtils) (dv : DIRTY_VALUES) (fb : String)
    (f : field) (d : Doc) (k : String) (it : Nat) (e : Bool) (a : List Json)
    (r : Outcome) (d' : Doc) (e' : Bool)
    (hfind : Doc.find d k = some (Json.array a))
    (h : coerce_string su dv fb f d k it true e = (r, d', e')) (hok : r.is_ok = true) :
    (e' = e ∧ ∃ x, Doc.find d' k = some (Json.array (a.set it x)) ∧ x.is_string = true) ∨
      (e' = true ∧ Doc.find d' k = some (Json.array (a.eraseIdx it))) := by
  have hidx : Doc.index d k = Json.array a := Doc.index_of_find _ _ _ hfind
  unfold coerce_string at h
  simp only [item_bind, item_value, item_assign, erase_item, array_erase, Bool.not_true,
    if_true, Bool.false_eq_true, if_false, hidx, Json.elems] at h
  repeat' split at h
  all_goals (simp only [Prod.mk.injEq] at h; obtain ⟨h1, h2, h3⟩ := h; subst h1 h2 h3)
  all_goals first
    | (simp [Outcome.is_ok] at hok; done)
    | (left; exact ⟨rfl, _, Doc.find_assign_self _ _ _, rfl⟩)
    | (right; exact ⟨rfl, Doc.find_assign_self _ _ _⟩)

theorem coerce_int64_t_array_post (su : StringUtils) (dv : DIRTY_VALUES)
    (f : field) (d : Doc) (k : String) (it : Nat) (e : Bool) (a : List Json)
    (r : Outcome) (d' : Doc) (e' : Bool)
    (hfind : Doc.find d k = some (Json.array a))
    (h : coerce_int64_t su dv f d k it true e = (r, d', e')) (hok : r.is_ok = true) :
    (e' = e ∧ ∃ x, Doc.find d' k = some (Json.array (a.set it x)) ∧ x.is_number_integer = true) ∨
      (e' = true ∧ Doc.find d' k = some (Json.array (a.eraseIdx it))) := by
  have hidx : Doc.index d k = Json.array a := Doc.index_of_find _ _ _ hfind
  unfold coerce_int64_t at h
  simp only [item_bind, item_value, item_assign, erase_item, array_erase, Bool.not_true,
    if_true, Bool.false_eq_true, if_false, hidx, Json.elems] at h
  repeat' split at h
  all_goals (simp only [Prod.mk.injEq] at h; obtain ⟨h1, h2, h3⟩ := h; subst h1 h2 h3)
  all_goals first
    | (simp [Outcome.is_ok] at hok; done)
    | (left; exact ⟨rfl, _, Doc.find_assign_self _ _ _, rfl⟩)
    | (right; exact ⟨rfl, Doc.find_assign_self _ _ _⟩)

theorem coerce_float_array_post (su : StringUtils) (dv : DIRTY_VALUES)
    (f : field) (d : Doc) (k : String) (it : Nat) (e : Bool) (a : List Json)
    (r : Outcome) (d' : Doc) (e' : Bool)
    (hfind : Doc.find d k = some (Json.array a))
    (h : coerce_float su dv f d k it true e = (r, d', e')) (hok : r.is_ok = true) :
    (e' = e ∧ ∃ x, Doc.find d' k = some (Json.array (a.set it x)) ∧ x.is_number = true) ∨
      (e' = true ∧ Doc.find d' k = some (Json.array (a.eraseIdx it))) := by
  have hidx : Doc.index d k = Json.array a := Doc.index_of_find _ _ _ hfind
  unfold coerce_float at h
  simp only [item_bind, item_value, item_assign, erase_item, array_erase, Bool.not_true,
    if_true, Bool.false_eq_true, if_false, hidx, Json.elems] at h
  repeat' split at h
  all_goals (simp only [Prod.mk.injEq] at h; obtain ⟨h1, h2, h3⟩ := h; subst h1 h2 h3)
  all_goals first
    | (simp [Outcome.is_ok] at hok; done)
    | (left; exact ⟨rfl, _, Doc.find_assign_self _ _ _, rfl⟩)
    | (right; exact ⟨rfl, Doc.find_assign_self _ _ _⟩)

theorem coerce_bool_array_post (su : StringUtils) (dv : DIRTY_VALUES)
    (f : field) (d : Doc) (k : String) (it : Nat) (e : Bool) (a : List Json)
    (r : Outcome) (d' : Doc) (e' : Bool)
    (hfind : Doc.find d k = some (Json.array a))
    (h : coerce_bool su dv f d k it true e = (r, d', e')) (hok : r.is_ok = true) :
    (e' = e ∧ ∃ x, Doc.find d' k = some (Json.array (a.set it x)) ∧ x.is_boolean = true) ∨
      (e' = true ∧ Doc.find d' k = some (Json.array (a.eraseIdx it))) := by
  have hidx : Doc.index d k = Json.array a := Doc.index_of_find _ _ _ hfind
  unfold coerce_bool at h
  simp only [item_bind, item_value, item_assign, erase_item, array_erase, Bool.not_true,
    if_true, Bool.false_eq_true, if_false, hidx, Json.elems] at h
  repeat' split at h
  all_goals (simp only [Prod.mk.injEq] at h; obtain ⟨h1, h2, h3⟩ := h; subst h1 h2 h3)
  all_goals first
    | (simp [Outcome.is_ok] at hok; done)
    | (left; exact ⟨rfl, _, Doc.find_assign_self _ _ _, rfl⟩)
    | (right; exact ⟨rfl, Doc.find_assign_self _ _ _⟩)

/-! ## Lists: set, erase and take at one position -/

theorem eraseIdx_set_self (a : List Json) (i : Nat) (x : Json) :
    (a.set i x).eraseIdx i = a.eraseIdx i := by
  induction a generalizing i with
  | nil => rfl
  | cons y ys ih =>
    cases i with
    | zero => rfl
    | succ j => simp [List.set, List.eraseIdx, ih j]

theorem take_set_self (a : List Json) (i : Nat) (x : Json) :
    (a.set i x).take i = a.take i := by
  induction a generalizing i with
  | nil => rfl
  | cons y ys ih =>
    cases i with
    | zero => rfl
    | succ j => simp [List.set, List.take, ih j]

theorem take_eraseIdx_self (a : List Json) (i : Nat) :
    (a.eraseIdx i).take i = a.take i := by
  induction a generalizing i with
  | nil => rfl
  | cons y ys ih =>
    cases i with
    | zero => rfl
    | succ j => simp [List.eraseIdx, List.take, ih j]

theorem take_succ_set (a : List Json) (i : Nat) (x : Json) (h : i < a.length) :
    (a.set i x).take (i + 1) = a.take i ++ [x] := by
  induction a generalizing i with
  | nil => simp at h
  | cons y ys ih =>
    cases i with
    | zero => simp [List.set, List.take]
    | succ j =>
      have hj : j < ys.length := by simpa using h
      simp [List.set, List.take, ih j hj]

theorem set_getD_self (a : List Json) (i : Nat) (dflt : Json) :
    a.set i (a.getD i dflt) = a := by
  induction a generalizing i with
  | nil => rfl
  | cons y ys ih =>
    cases i with
    | zero => rfl
    | succ j =>
      have := ih j
      simp only [List.getD_cons_succ, List.set_cons_succ]
      rw [this]

theorem Doc.index_assign_self (d : Doc) (k : String) (v : Json) :
    Doc.index (Doc.assign d k v) k = v := by
  simp [Doc.index, Doc.find_assign_self]

theorem coerce_int32_t_range_assign_array (dv : DIRTY_VALUES) (f : field) (d : Doc)
    (k : String) (e : Bool) (b : List Json) :
    coerce_int32_t_range dv f (Doc.assign d k (Json.array b)) k e =
      (Outcome.thrown "type_error.302", Doc.assign d k (Json.array b), e) :=
  coerce_int32_t_range_array dv f _ k e b (Doc.find_assign_self _ _ _)

theorem coerce_int32_t_array_post (su : StringUtils) (dv : DIRTY_VALUES)
    (f : field) (d : Doc) (k : String) (it : Nat) (e : Bool) (a : List Json)
    (r : Outcome) (d' : Doc) (e' : Bool)
    (hfind : Doc.find d k = some (Json.array a))
    (h : coerce_int32_t su dv f d k it true e = (r, d', e')) (hok : r.is_ok = true) :
    (e' = e ∧ ∃ x, Doc.find d' k = some (Json.array (a.set it x)) ∧
        x.is_number_integer = true) ∨
      (e' = true ∧ Doc.find d' k = some (Json.array (a.eraseIdx it))) := by
  have hidx : Doc.index d k = Json.array a := Doc.index_of_find _ _ _ hfind
  unfold coerce_int32_t at h
  simp only [item_bind, item_value, item_assign, erase_item, array_erase, Bool.not_true,
    if_true, Bool.false_eq_true, if_false, hidx, Json.elems,
    coerce_int32_t_range_assign_array] at h
  repeat' split at h
  all_goals (simp only [Prod.mk.injEq] at h; obtain ⟨h1, h2, h3⟩ := h; subst h1 h2 h3)
  all_goals first
    | (simp [Outcome.is_ok] at hok; done)
    | (right; exact ⟨rfl, Doc.find_assign_self _ _ _⟩)

theorem coerce_geopoint_array_post (su : StringUtils) (dv : DIRTY_VALUES)
    (f : field) (d : Doc) (k : String) (it : Nat) (e : Bool) (a : List Json) (lat lng : Json)
    (r : Outcome) (d' : Doc) (e' : Bool)
    (hfind : Doc.find d k = some (Json.array a))
    (hitem : a.getD it Json.null = Json.array [lat, lng])
    (h : coerce_geopoint su dv f d k it true e = (r, d', e')) (hok : r.is_ok = true) :
    (e' = e ∧ ∃ x, Doc.find d' k = some (Json.array (a.set it x)) ∧
        is_geopoint_value x = true) ∨
      (e' = true ∧ Doc.find d' k = some (Json.array (a.eraseIdx it))) := by
  have hidx : Doc.index d k = Json.array a := Doc.index_of_find _ _ _ hfind
  unfold coerce_geopoint at h
  simp only [item_bind, item_value, item_assign, erase_item, array_erase, Bool.not_true,
    if_true, Bool.false_eq_true, if_false, hidx, Doc.index_assign_self, Json.elems, hitem,
    subscript_fill, List.length_cons, List.length_nil, List.replicate, List.append_nil,
    eraseIdx_set_self] at h
  repeat' split at h
  all_goals (simp only [Prod.mk.injEq] at h; obtain ⟨h1, h2, h3⟩ := h; subst h1 h2 h3)
  all_goals first
    | (simp [Outcome.is_ok] at hok; done)
    | skip
  · right
    exact ⟨rfl, Doc.find_assign_self _ _ _⟩
  · right
    exact ⟨rfl, Doc.find_assign_self _ _ _⟩
  · left
    rename_i a1 h1 _ a3 h3 hnum
    refine ⟨rfl, _, Doc.find_assign_self _ _ _, ?_⟩
    have hl1 : a1.length = 2 := coerce_geopoint_elem_length su _ _ _ h1
    have hl3 : a3.length = 2 := by
      rw [coerce_geopoint_elem_length su _ _ _ h3]
      simp [hl1]
    simp only [Bool.or_eq_true, Bool.not_eq_true', not_or, Bool.not_eq_false] at hnum
    exact is_geopoint_value_of a3 hl3 hnum.1 hnum.2

theorem Json.elems_array (a : List Json) : (Json.array a).elems = a := rfl

theorem coerce_element_item_post (su : StringUtils) (f : field) (d : Doc) (fb : String)
    (dv : DIRTY_VALUES) (it : Nat) (a : List Json) (t : field_types)
    (r : Outcome) (d' : Doc) (er : Bool)
    (hfind : Doc.find d f.name = some (Json.array a))
    (ht : element_type f.type = some t)
    (h : coerce_element_item su f d fb dv it = (r, d', er)) (hok : r.is_ok = true) :
    (er = false ∧ ∃ x, Doc.find d' f.name = some (Json.array (a.set it x)) ∧
        scalar_shape t x = true) ∨
      (er = true ∧ Doc.find d' f.name = some (Json.array (a.eraseIdx it))) := by
  have hidx : Doc.index d f.name = Json.array a := Doc.index_of_find _ _ _ hfind
  have hsame : ∀ p : Json → Bool, p (a.getD it Json.null) = true →
      ∃ x, Doc.find d f.name = some (Json.array (a.set it x)) ∧ p x = true := by
    intro p hp
    exact ⟨a.getD it Json.null, by rw [set_getD_self]; exact hfind, hp⟩
  unfold coerce_element_item at h
  simp only [hidx, Json.elems_array] at h
  cases hty : f.type <;> rw [hty] at ht <;> simp only [element_type] at ht <;>
    first
      | (simp at ht; done)
      | skip
  all_goals (simp only [Option.some.injEq] at ht; subst ht)
  case STRING_ARRAY =>
    cases hv : (a.getD it Json.null).is_string
    · simp only [hty, hv, reduceCtorEq, decide_True, decide_False, Bool.true_and,
        Bool.false_and, Bool.and_true, Bool.and_false, Bool.not_false, Bool.not_true,
        Bool.false_eq_true, if_true, if_false, Prod.mk.injEq] at h
      exact coerce_string_array_post su dv fb f d f.name it false a r d' er hfind h hok
    · simp only [hty, hv, reduceCtorEq, decide_True, decide_False, Bool.true_and,
        Bool.false_and, Bool.and_true, Bool.and_false, Bool.not_false, Bool.not_true,
        Bool.false_eq_true, if_true, if_false, Prod.mk.injEq] at h
      obtain ⟨h1, h2, h3⟩ := h
      subst h1 h2 h3
      exact Or.inl ⟨rfl, hsame _ hv⟩
  case INT32_ARRAY =>
    cases hv : (a.getD it Json.null).is_number_integer
    · simp only [hty, hv, reduceCtorEq, decide_True, decide_False, Bool.true_and,
        Bool.false_and, Bool.and_true, Bool.and_false, Bool.not_false, Bool.not_true,
        Bool.false_eq_true, if_true, if_false, Prod.mk.injEq] at h
      exact coerce_int32_t_array_post su dv f d f.name it false a r d' er hfind h hok
    · simp only [hty, hv, reduceCtorEq, decide_True, decide_False, Bool.true_and,
        Bool.false_and, Bool.and_true, Bool.and_false, Bool.not_false, Bool.not_true,
        Bool.false_eq_true, if_true, if_false, Prod.mk.injEq] at h
      obtain ⟨h1, h2, h3⟩ := h
      subst h1 h2 h3
      exact Or.inl ⟨rfl, hsame _ hv⟩
  case INT64_ARRAY =>
    cases hv : (a.getD it Json.null).is_number_integer
    · simp only [hty, hv, reduceCtorEq, decide_True, decide_False, Bool.true_and,
        Bool.false_and, Bool.and_true, Bool.and_false, Bool.not_false, Bool.not_true,
        Bool.false_eq_true, if_true, if_false, Prod.mk.injEq] at h
      exact coerce_int64_t_array_post su dv f d f.name it false a r d' er hfind h hok
    · simp only [hty, hv, reduceCtorEq, decide_True, decide_False, Bool.true_and,
        Bool.false_and, Bool.and_true, Bool.and_false, Bool.not_false, Bool.not_true,
        Bool.false_eq_true, if_true, if_false, Prod.mk.injEq] at h
      obtain ⟨h1, h2, h3⟩ := h
      subst h1 h2 h3
      exact Or.inl ⟨rfl, hsame _ hv⟩
  case FLOAT_ARRAY =>
    cases hv : (a.getD it Json.null).is_number
    · simp only [hty, hv, reduceCtorEq, decide_True, decide_False, Bool.true_and,
        Bool.false_and, Bool.and_true, Bool.and_false, Bool.not_false, Bool.not_true,
        Bool.false_eq_true, if_true, if_false, Prod.mk.injEq] at h
      exact coerce_float_array_post su dv f d f.name it false a r d' er hfind h hok
    · simp only [hty, hv, reduceCtorEq, decide_True, decide_False, Bool.true_and,
        Bool.false_and, Bool.and_true, Bool.and_false, Bool.not_false, Bool.not_true,
        Bool.false_eq_true, if_true, if_false, Prod.mk.injEq] at h
      obtain ⟨h1, h2, h3⟩ := h
      subst h1 h2 h3
      exact Or.inl ⟨rfl, hsame _ hv⟩
  case BOOL_ARRAY =>
    cases hv : (a.getD it Json.null).is_boolean
    · simp only [hty, hv, reduceCtorEq, decide_True, decide_False, Bool.true_and,
        Bool.false_and, Bool.and_true, Bool.and_false, Bool.not_false, Bool.not_true,
        Bool.false_eq_true, if_true, if_false, Prod.mk.injEq] at h
      exact coerce_bool_array_post su dv f d f.name it false a r d' er hfind h hok
    · simp only [hty, hv, reduceCtorEq, decide_True, decide_False, Bool.true_and,
        Bool.false_and, Bool.and_true, Bool.and_false, Bool.not_false, Bool.not_true,
        Bool.false_eq_true, if_true, if_false, Prod.mk.injEq] at h
      obtain ⟨h1, h2, h3⟩ := h
      subst h1 h2 h3
      exact Or.inl ⟨rfl, hsame _ hv⟩
  case GEOPOINT_ARRAY =>
    simp only [hty, reduceCtorEq, decide_False, Bool.false_and, Bool.false_eq_true, if_false,
      if_true] at h
    split at h
    · simp only [Prod.mk.injEq] at h
      obtain ⟨h1, _, _⟩ := h
      subst h1
      simp [Outcome.is_ok] at hok
    · rename_i hshape
      obtain ⟨lat, lng, hitem⟩ : ∃ lat lng, a.getD it Json.null = Json.array [lat, lng] := by
        cases hi : a.getD it Json.null with
        | array b =>
          rw [hi] at hshape
          simp only [Json.is_array, Json.size, Bool.not_true, Bool.false_or,
            decide_eq_true_eq, ne_eq, not_not] at hshape
          match b, hshape with
          | [x, y], _ => exact ⟨x, y, rfl⟩
        | _ =>
          rw [hi] at hshape
          simp [Json.is_array] at hshape
      rw [hitem] at h
      simp only [Json.elems_array, List.getD_cons_zero, List.getD_cons_succ] at h
      split at h
      · exact coerce_geopoint_array_post su dv f d f.name it false a lat lng r d' er hfind
          hitem h hok
      · rename_i hnum
        simp only [Prod.mk.injEq] at h
        obtain ⟨h1, h2, h3⟩ := h
        subst h1 h2 h3
        refine Or.inl ⟨rfl, hsame (scalar_shape field_types.GEOPOINT) ?_⟩
        rw [hitem]
        simp only [Bool.not_eq_true, Bool.not_eq_false] at hnum
        simpa [scalar_shape, is_geopoint_value] using hnum

/-- When the element loop runs to its end, every element of the array has the
shape of the element type: the elements before the iterator already have it. -/
theorem coerce_element_loop_post (su : StringUtils) (f : field) (fb : String)
    (dv : DIRTY_VALUES) (t : field_types) (ht : element_type f.type = some t) :
    ∀ (fuel it : Nat) (d : Doc) (a : List Json) (r : Outcome) (d' : Doc),
      Doc.find d f.name = some (Json.array a) →
      (∀ x ∈ a.take it, scalar_shape t x = true) →
      coerce_element_loop su f fb dv fuel it d = some (r, d') → r.is_ok = true →
      ∃ a', Doc.find d' f.name = some (Json.array a') ∧ ∀ x ∈ a', scalar_shape t x = true := by
  intro fuel
  induction fuel with
  | zero =>
    intro it d a r d' hfind hpre h hok
    have hidx : Doc.index d f.name = Json.array a := Doc.index_of_find _ _ _ hfind
    unfold coerce_element_loop at h
    simp only [hidx, Json.size] at h
    split at h
    · cases h
    · rename_i hlt
      simp only [Option.some.injEq, Prod.mk.injEq] at h
      obtain ⟨_, h2⟩ := h
      subst h2
      refine ⟨a, hfind, ?_⟩
      rw [List.take_of_length_le (Nat.le_of_not_lt hlt)] at hpre
      exact hpre
  | succ n ih =>
    intro it d a r d' hfind hpre h hok
    have hidx : Doc.index d f.name = Json.array a := Doc.index_of_find _ _ _ hfind
    unfold coerce_element_loop at h
    simp only [hidx, Json.size] at h
    split at h
    · rename_i hlt
      obtain ⟨r1, d1, er, hitem⟩ :
          ∃ r1 d1 er, coerce_element_item su f d fb dv it = (r1, d1, er) := ⟨_, _, _, rfl⟩
      rw [hitem] at h
      simp only [] at h
      split at h
      · rename_i hnot
        simp only [Option.some.injEq, Prod.mk.injEq] at h
        obtain ⟨h1, _⟩ := h
        subst h1
        simp [hok] at hnot
      · rename_i hr1
        have hr1' : r1.is_ok = true := by simpa using hr1
        rcases coerce_element_item_post su f d fb dv it a t r1 d1 er hfind ht hitem hr1' with
          ⟨he, x, hx, hshape⟩ | ⟨he, hx⟩
        · subst he
          simp only [Bool.false_eq_true, if_false] at h
          refine ih (it + 1) d1 (a.set it x) r d' hx ?_ h hok
          rw [take_succ_set a it x hlt]
          intro y hy
          rcases List.mem_append.mp hy with hy | hy
          · exact hpre y hy
          · simp only [List.mem_singleton] at hy
            rw [hy]
            exact hshape
        · subst he
          simp only [if_true] at h
          refine ih it d1 (a.eraseIdx it) r d' hx ?_ h hok
          rw [take_eraseIdx_self]
          exact hpre
    · rename_i hlt
      simp only [Option.some.injEq, Prod.mk.injEq] at h
      obtain ⟨_, h2⟩ := h
      subst h2
      refine ⟨a, hfind, ?_⟩
      rw [List.take_of_length_le (Nat.le_of_not_lt hlt)] at hpre
      exact hpre

theorem return_or_200_ok (c : Outcome × Doc × Bool) (h : (return_or_200 c).1.is_ok = true) :
    c.1.is_ok = true := by
  unfold return_or_200 at h
  split at h
  · exact h
  · rename_i hn
    simpa using hn

theorem element_type_of_is_array (f : field) (ha : f.is_array = true)
    (hobj : f.is_object = false) : ∃ t, element_type f.type = some t := by
  unfold field.is_array at ha
  unfold field.is_object at hobj
  cases hty : f.type <;> rw [hty] at ha hobj <;> simp only [element_type] <;>
    first
      | exact ⟨_, rfl⟩
      | (simp at ha; done)
      | (simp at hobj; done)

theorem element_type_none_of_not_is_array (f : field) (ha : f.is_array = false) :
    element_type f.type = none := by
  unfold field.is_array at ha
  cases hty : f.type <;> rw [hty] at ha <;> simp only [element_type] <;>
    first
      | rfl
      | (simp at ha; done)

theorem shape_transfer (p : Json → Bool) (t : field_types) (d : Doc) (k : String)
    (opt : Bool) (hshape : ∀ w, p w = true → has_declared_shape t w = true)
    (h : (Doc.find d k = none ∧ opt = true) ∨ ∃ w, Doc.find d k = some w ∧ p w = true) :
    (Doc.find d k = none ∧ opt = true) ∨
      ∃ w, Doc.find d k = some w ∧ has_declared_shape t w = true := by
  rcases h with h | ⟨w, hw, hp⟩
  · exact Or.inl h
  · exact Or.inr ⟨w, hw, hshape w hp⟩

/-- After a successful `coerce_element` on a non-nested, non-object field that
is a key of the document, the key is gone and the field is optional, or the
key holds a value of the declared shape. -/
theorem coerce_element_post (su : StringUtils) (f : field) (d : Doc) (fb : String)
    (dv : DIRTY_VALUES) (v : Json) (hfind : Doc.find d f.name = some v)
    (hnest : f.type = field_types.GEOPOINT_ARRAY → f.nested = false)
    (hobj : f.is_object = false)
    (hok : (coerce_element su f d fb dv).1.is_ok = true) :
    (Doc.find (coerce_element su f d fb dv).2 f.name = none ∧ f.optional = true) ∨
      ∃ w, Doc.find (coerce_element su f d fb dv).2 f.name = some w ∧
        has_declared_shape f.type w = true := by
  have hidx : Doc.index d f.name = v := Doc.index_of_find _ _ _ hfind
  revert hok
  refine coerce_element_elim su f d fb dv
    (fun res => res.1.is_ok = true →
      (Doc.find res.2 f.name = none ∧ f.optional = true) ∨
        ∃ w, Doc.find res.2 f.name = some w ∧ has_declared_shape f.type w = true)
    ?_ ?_ ?_ ?_ ?_ ?_ ?_ ?_ ?_ ?_ ?_ ?_ ?_
  · intro hty _ hok
    rw [return_or_200_snd]
    exact shape_transfer _ _ _ _ _
      (by intro w hw; simpa [has_declared_shape, element_type, scalar_shape, hty] using hw)
      (coerce_string_scalar_post su dv fb f d f.name 0 false _ _ _ rfl (return_or_200_ok _ hok))
  · intro hty _ hok
    rw [return_or_200_snd]
    exact shape_transfer _ _ _ _ _
      (by intro w hw; simpa [has_declared_shape, element_type, scalar_shape, hty] using hw)
      (coerce_int32_t_scalar_post su dv f d f.name 0 false _ _ _ rfl (return_or_200_ok _ hok))
  · intro hty _ hok
    rw [return_or_200_snd]
    exact shape_transfer _ _ _ _ _
      (by intro w hw; simpa [has_declared_shape, element_type, scalar_shape, hty] using hw)
      (coerce_int64_t_scalar_post su dv f d f.name 0 false _ _ _ rfl (return_or_200_ok _ hok))
  · intro hty _ hok
    rw [return_or_200_snd]
    exact shape_transfer _ _ _ _ _
      (by intro w hw; simpa [has_declared_shape, element_type, scalar_shape, hty] using hw)
      (coerce_float_scalar_post su dv f d f.name 0 false _ _ _ rfl (return_or_200_ok _ hok))
  · intro hty _ hok
    rw [return_or_200_snd]
    exact shape_transfer _ _ _ _ _
      (by intro w hw; simpa [has_declared_shape, element_type, scalar_shape, hty] using hw)
      (coerce_bool_scalar_post su dv f d f.name 0 false _ _ _ rfl (return_or_200_ok _ hok))
  · intro _ _ hok
    simp [Outcome.is_ok] at hok
  · intro hty ha hs _ hok
    rw [return_or_200_snd]
    obtain ⟨lat, lng, hv⟩ : ∃ lat lng, v = Json.array [lat, lng] := by
      rw [hidx] at ha hs
      cases v with
      | array b =>
        simp only [Json.size] at hs
        match b, hs with
        | [x, y], _ => exact ⟨x, y, rfl⟩
      | _ => simp [Json.is_array] at ha
    subst hv
    exact shape_transfer _ _ _ _ _
      (by intro w hw; simpa [has_declared_shape, element_type, scalar_shape, hty] using hw)
      (coerce_geopoint_scalar_post su dv f d f.name 0 false lat lng _ _ _ hfind rfl
        (return_or_200_ok _ hok))
  · intro _ _ hc _
    left
    refine ⟨Doc.find_erase_self _ _, ?_⟩
    simp only [Bool.and_eq_true] at hc
    exact hc.1
  · intro _ _ _ hok
    simp [Outcome.is_ok] at hok
  · intro hty hn _ _ _
    rw [hnest hty] at hn
    cases hn
  · intro hty hn _ _ _ _ _
    rw [hnest hty] at hn
    cases hn
  · intro ha hva _ hok
    obtain ⟨t, ht⟩ := element_type_of_is_array f ha hobj
    obtain ⟨a, hv⟩ : ∃ a, v = Json.array a := by
      rw [hidx] at hva
      cases v with
      | array b => exact ⟨b, rfl⟩
      | _ => simp [Json.is_array] at hva
    subst hv
    cases hloop : coerce_element_loop su f fb dv (Doc.index d f.name).size 0 d with
    | none =>
      rw [hloop] at hok
      simp [Outcome.is_ok] at hok
    | some res =>
      rw [hloop] at hok
      obtain ⟨a', hfind', hall⟩ := coerce_element_loop_post su f fb dv t ht _ 0 d a res.1 res.2
        hfind (by simp) hloop hok
      right
      refine ⟨Json.array a', hfind', ?_⟩
      simp only [has_declared_shape, ht, Json.is_array, Json.elems_array, Bool.true_and,
        List.all_eq_true]
      exact hall
  · intro h1 h2 h3 h4 h5 h6 h7 _
    right
    refine ⟨v, hfind, ?_⟩
    rw [hidx] at h1 h2 h3 h4 h5 h6 h7
    cases hia : f.is_array
    · have hnone := element_type_none_of_not_is_array f hia
      unfold field.is_array at hia
      unfold field.is_object at hobj
      simp only [has_declared_shape, hnone]
      cases hty : f.type <;> rw [hty] at hia hobj <;>
        first
          | (simp at hia; done)
          | (simp at hobj; done)
          | skip
      · simpa [scalar_shape] using h1 hty
      · simpa [scalar_shape] using h2 hty
      · simpa [scalar_shape] using h3 hty
      · simpa [scalar_shape] using h4 hty
      · simpa [scalar_shape] using h5 hty
      · obtain ⟨ha, hs, hn0, hn1⟩ := h6 hty
        cases v with
        | array b =>
          simp only [Json.size] at hs
          exact is_geopoint_value_of b hs hn0 hn1
        | _ => simp [Json.is_array] at ha
    · have hn := (h7 hia).2.1
      rw [hnest (h7 hia).1] at hn
      cases hn

/-! ## Soundness of validation -/

/-- The schema loop leaves alone every key that is no field name of the
schema. -/
theorem validate_fields_frame (su : StringUtils) (op : index_operation_t) (fb : String)
    (dv : DIRTY_VALUES) (key : String) :
    ∀ (fields : List field) (d : Doc), (∀ f ∈ fields, f.name ≠ key) →
      Doc.find (validate_fields su op fb dv fields d).2 key = Doc.find d key := by
  intro fields
  induction fields with
  | nil => intro d _; rfl
  | cons f rest ih =>
    intro d hne
    have hk : key ≠ f.name := fun e => hne f (List.mem_cons_self f rest) e.symm
    have hrest : ∀ g ∈ rest, g.name ≠ key := fun g hg => hne g (List.mem_cons_of_mem f hg)
    rcases validate_fields_step su op fb dv f d with ⟨r, _, hr1, hr⟩ | ⟨d', hd', hcont⟩
    · rw [hr]
      rcases hr1 with h1 | ⟨h1, _⟩
      · rw [h1]
      · rw [h1]
        exact coerce_element_frame su f d fb dv key hk
    · rw [hcont, ih d' hrest]
      rcases hd' with ⟨h, _⟩ | ⟨h, _⟩ | ⟨h, _⟩
      · rw [h]
      · rw [h]
        exact Doc.find_erase_ne d f.name key hk
      · rw [h]
        exact coerce_element_frame su f d fb dv key hk

/-- After a successful create-like validation against a schema of distinct,
non-nested, non-object fields, each field other than `id` is either absent and
optional or holds a value of its declared shape. -/
theorem validate_fields_post (su : StringUtils) (op : index_operation_t) (fb : String)
    (dv : DIRTY_VALUES) (hu : op ≠ index_operation_t.UPDATE)
    (he : op ≠ index_operation_t.EMPLACE) :
    ∀ (fields : List field) (d : Doc), (fields.map field.name).Nodup →
      (∀ f ∈ fields, f.nested = false ∧ f.is_object = false) →
      (validate_fields su op fb dv fields d).1.is_ok = true →
      ∀ f ∈ fields, f.name ≠ "id" →
        (Doc.find (validate_fields su op fb dv fields d).2 f.name = none ∧ f.optional = true) ∨
          ∃ w, Doc.find (validate_fields su op fb dv fields d).2 f.name = some w ∧
            has_declared_shape f.type w = true := by
  intro fields
  induction fields with
  | nil =>
    intro d _ _ _ f hf
    exact absurd hf (List.not_mem_nil f)
  | cons f0 rest ih =>
    intro d hnodup htypes hok f hf hid
    rw [List.map_cons, List.nodup_cons] at hnodup
    obtain ⟨hnotin, hnodup'⟩ := hnodup
    have htypes' : ∀ g ∈ rest, g.nested = false ∧ g.is_object = false :=
      fun g hg => htypes g (List.mem_cons_of_mem f0 hg)
    rcases validate_fields_step su op fb dv f0 d with ⟨r, hr0, _, hr⟩ | ⟨d', hd', hcont⟩
    · rw [hr, hr0] at hok
      cases hok
    · rw [hcont] at hok ⊢
      rcases List.mem_cons.mp hf with hf | hf
      · subst hf
        have hframe : Doc.find (validate_fields su op fb dv rest d').2 f.name =
            Doc.find d' f.name := by
          apply validate_fields_frame
          intro g hg e
          exact hnotin (List.mem_map.mpr ⟨g, hg, e⟩)
        rw [hframe]
        obtain ⟨hnest, hobj⟩ := htypes f (List.mem_cons_self f rest)
        rcases hd' with ⟨h, hwhy⟩ | ⟨h, hopt, _⟩ | ⟨h, hp, hcok, _, _⟩
        · rw [h]
          rcases hwhy with h1 | h1 | ⟨h1, h2⟩ | ⟨_, _, h2⟩
          · exact absurd h1 hid
          · rw [hobj] at h1
            cases h1
          · rcases h2 with h2 | h2 | h2
            · exact Or.inl ⟨h1, h2⟩
            · exact absurd h2 hu
            · exact absurd h2 he
          · rcases h2 with h2 | h2
            · exact absurd h2 hu
            · exact absurd h2 he
        · rw [h]
          exact Or.inl ⟨Doc.find_erase_self _ _, hopt⟩
        · rw [h]
          obtain ⟨v, hv⟩ := Option.ne_none_iff_exists'.mp hp
          exact coerce_element_post su f d fb dv v hv (fun _ => hnest) hobj hcok
      · exact ih d' hnodup' htypes' hok f hf hid

/-- C1 (gate soundness), as amended: for a create-like operation and a schema
of distinctly named, non-nested fields of type string, int32, int64, float,
bool, geopoint or their array forms, whenever `validate_index_in_memory`
returns success, every non-optional schema field other than `id` is present in
the resulting document, and every schema field other than `id` that is still
present holds a value of its declared shape. -/
theorem validate_gate_sound (su : StringUtils) (document : Doc) (seq_id : Nat)
    (default_sorting_field : String) (search_schema : List field) (op : index_operation_t)
    (fallback_field_type : String) (dirty_values : DIRTY_VALUES) (value : Nat)
    (result : Doc)
    (hu : op ≠ index_operation_t.UPDATE) (he : op ≠ index_operation_t.EMPLACE)
    (hnames : (search_schema.map field.name).Nodup)
    (htypes : ∀ f ∈ search_schema, f.nested = false ∧ f.is_object = false)
    (hres : validate_index_in_memory su document seq_id default_sorting_field search_schema
      op fallback_field_type dirty_values = (Outcome.ok value, result)) :
    (∀ f ∈ search_schema, f.optional = false → f.name ≠ "id" →
      Doc.contains result f.name = true) ∧
    (∀ f ∈ search_schema, f.name ≠ "id" → ∀ v, Doc.find result f.name = some v →
      has_declared_shape f.type v = true) := by
  have hfields : validate_fields su op fallback_field_type dirty_values search_schema
      document = (Outcome.ok value, result) := by
    unfold validate_index_in_memory at hres
    dsimp only at hres
    split at hres
    · cases hres
    · exact hres
  have hpost := validate_fields_post su op fallback_field_type dirty_values hu he
    search_schema document hnames htypes (by rw [hfields]; rfl)
  rw [hfields] at hpost
  constructor
  · intro f hf hopt hid
    rcases hpost f hf hid with ⟨_, h⟩ | ⟨w, hw, _⟩
    · rw [hopt] at h
      cases h
    · simp [Doc.contains, hw]
  · intro f hf hid v hv
    rcases hpost f hf hid with ⟨h, _⟩ | ⟨w, hw, hshape⟩
    · rw [h] at hv
      cases hv
    · rw [hw] at hv
      cases hv
      exact hshape

/-- Witness for C1 as amended: a CREATE under COERCE_OR_DROP; the string "12"
of the int32 field is coerced, the uncoercible element of the optional
string[] field is dropped. -/
theorem validate_gate_sound_witness :
    validate_index_in_memory StringUtils.model
        [("qty", Json.string "12"), ("tags", Json.array [Json.string "a", Json.null])] 0 ""
        [⟨"qty", field_types.INT32, false, false, 0⟩,
          ⟨"tags", field_types.STRING_ARRAY, true, false, 0⟩]
        index_operation_t.CREATE "" DIRTY_VALUES.COERCE_OR_DROP =
      (Outcome.ok 200,
        [("qty", Json.number_integer 12), ("tags", Json.array [Json.string "a"])]) ∧
    (∀ f ∈ [(⟨"qty", field_types.INT32, false, false, 0⟩ : field),
        ⟨"tags", field_types.STRING_ARRAY, true, false, 0⟩],
      f.optional = false → f.name ≠ "id" →
      Doc.contains [("qty", Json.number_integer 12), ("tags", Json.array [Json.string "a"])]
        f.name = true) ∧
    (∀ f ∈ [(⟨"qty", field_types.INT32, false, false, 0⟩ : field),
        ⟨"tags", field_types.STRING_ARRAY, true, false, 0⟩],
      f.name ≠ "id" → ∀ v,
      Doc.find [("qty", Json.number_integer 12), ("tags", Json.array [Json.string "a"])]
        f.name = some v → has_declared_shape f.type v = true) :=
  ⟨rfl,
    validate_gate_sound StringUtils.model
      [("qty", Json.string "12"), ("tags", Json.array [Json.string "a", Json.null])] 0 ""
      [⟨"qty", field_types.INT32, false, false, 0⟩,
        ⟨"tags", field_types.STRING_ARRAY, true, false, 0⟩]
      index_operation_t.CREATE "" DIRTY_VALUES.COERCE_OR_DROP 200
      [("qty", Json.number_integer 12), ("tags", Json.array [Json.string "a"])]
      (by decide) (by decide) (by decide) (by decide) rfl⟩

/-- Counterexample to C1 as stated: a schema field `id` declared int32 and a
document whose `id` is a string; the CREATE validates, and the field `id`,
still present, does not hold a JSON integer. -/
theorem validate_gate_id_counterexample :
    validate_index_in_memory StringUtils.model [("id", Json.string "abc")] 0 ""
        [⟨"id", field_types.INT32, false, false, 0⟩] index_operation_t.CREATE ""
        DIRTY_VALUES.REJECT =
      (Outcome.ok 200, [("id", Json.string "abc")]) ∧
    Doc.find [("id", Json.string "abc")] "id" = some (Json.string "abc") ∧
    has_declared_shape field_types.INT32 (Json.string "abc") = false :=
  ⟨rfl, rfl, rfl⟩

/-! ## The element loop terminates -/

/-- One iteration of the element loop that does not return either replaces
the element at the iterator or erases it. -/
theorem coerce_element_item_array (su : StringUtils) (f : field) (d : Doc) (fb : String)
    (dv : DIRTY_VALUES) (it : Nat) (a : List Json) (r : Outcome) (d' : Doc) (er : Bool)
    (hfind : Doc.find d f.name = some (Json.array a))
    (h : coerce_element_item su f d fb dv it = (r, d', er)) (hok : r.is_ok = true) :
    (er = false ∧ ∃ x, Doc.find d' f.name = some (Json.array (a.set it x))) ∨
      (er = true ∧ Doc.find d' f.name = some (Json.array (a.eraseIdx it))) := by
  cases ht : element_type f.type with
  | some t =>
    rcases coerce_element_item_post su f d fb dv it a t r d' er hfind ht h hok with
      ⟨he, x, hx, _⟩ | hr
    · exact Or.inl ⟨he, x, hx⟩
    · exact Or.inr hr
  | none =>
    have hsame : coerce_element_item su f d fb dv it = (Outcome.ok 200, d, false) := by
      unfold coerce_element_item
      cases hty : f.type <;> rw [hty] at ht <;> simp only [element_type] at ht <;>
        first
          | (simp at ht; done)
          | simp
    rw [hsame] at h
    simp only [Prod.mk.injEq] at h
    obtain ⟨_, h2, h3⟩ := h
    subst h2 h3
    exact Or.inl ⟨rfl, a.getD it Json.null, by rw [set_getD_self]; exact hfind⟩

/-- The element loop ends within `fuel` iterations when `fuel` covers the
elements from the iterator on. -/
theorem coerce_element_loop_terminates (su : StringUtils) (f : field) (fb : String)
    (dv : DIRTY_VALUES) :
    ∀ (fuel it : Nat) (d : Doc) (a : List Json),
      Doc.find d f.name = some (Json.array a) → a.length ≤ it + fuel →
      ∃ r, coerce_element_loop su f fb dv fuel it d = some r := by
  intro fuel
  induction fuel with
  | zero =>
    intro it d a hfind hlen
    have hidx : Doc.index d f.name = Json.array a := Doc.index_of_find _ _ _ hfind
    unfold coerce_element_loop
    simp only [hidx, Json.size]
    have hnot : ¬ it < a.length := by omega
    simp [hnot]
  | succ n ih =>
    intro it d a hfind hlen
    have hidx : Doc.index d f.name = Json.array a := Doc.index_of_find _ _ _ hfind
    unfold coerce_element_loop
    simp only [hidx, Json.size]
    split
    · rename_i hlt
      obtain ⟨r1, d1, er, hitem⟩ :
          ∃ r1 d1 er, coerce_element_item su f d fb dv it = (r1, d1, er) := ⟨_, _, _, rfl⟩
      rw [hitem]
      simp only []
      split
      · exact ⟨_, rfl⟩
      · rename_i hr1
        have hr1' : r1.is_ok = true := by simpa using hr1
        rcases coerce_element_item_array su f d fb dv it a r1 d1 er hfind hitem hr1' with
          ⟨he, x, hx⟩ | ⟨he, hx⟩
        · subst he
          simp only [Bool.false_eq_true, if_false]
          apply ih (it + 1) d1 (a.set it x) hx
          simp only [List.length_set]
          omega
        · subst he
          simp only [if_true]
          apply ih it d1 (a.eraseIdx it) hx
          rw [List.length_eraseIdx_of_lt hlt]
          omega
    · exact ⟨_, rfl⟩

/-- The fuel `coerce_element` gives the element loop, the size of the array,
is enough: the loop always ends. -/
theorem coerce_element_loop_enough (su : StringUtils) (f : field) (fb : String)
    (dv : DIRTY_VALUES) (d : Doc) (a : List Json)
    (hfind : Doc.find d f.name = some (Json.array a)) :
    ∃ r, coerce_element_loop su f fb dv (Doc.index d f.name).size 0 d = some r := by
  rw [Doc.index_of_find _ _ _ hfind]
  exact coerce_element_loop_terminates su f fb dv a.length 0 d a hfind (by simp [Json.size])

/-! ## Values of the wrong kind for a geopoint or an array field -/

/-- C17: for a geopoint field, a document value that is not a JSON array of
exactly 2 elements (null included) makes `coerce_element` fail with status 400
and message "Field `X` must be a 2 element array: [lat, lng]." under every
dirty-values policy, whether or not the field is optional, and the document is
left unchanged. -/
theorem coerce_element_geopoint_shape (su : StringUtils) (a_field : field) (document : Doc)
    (fallback_field_type : String) (dirty_values : DIRTY_VALUES) (v : Json)
    (hfind : Doc.find document a_field.name = some v)
    (htype : a_field.type = field_types.GEOPOINT)
    (hshape : v.is_array = false ∨ v.size ≠ 2) :
    coerce_element su a_field document fallback_field_type dirty_values =
      (Outcome.error 400
        ("Field `" ++ a_field.name ++ "` must be a 2 element array: [lat, lng]."),
        document) := by
  have hidx : Doc.index document a_field.name = v := Doc.index_of_find _ _ _ hfind
  rcases hshape with h | h <;> simp [coerce_element, hidx, htype, h]

/-- Witness for C17: an optional geopoint field holding a 3-element array of
numbers, under DROP. -/
theorem coerce_element_geopoint_shape_witness :
    coerce_element StringUtils.model ⟨"loc", field_types.GEOPOINT, true, false, 0⟩
        [("loc", Json.array [Json.number_unsigned 1, Json.number_unsigned 2,
          Json.number_unsigned 3])] "" DIRTY_VALUES.DROP =
      (Outcome.error 400 "Field `loc` must be a 2 element array: [lat, lng].",
        [("loc", Json.array [Json.number_unsigned 1, Json.number_unsigned 2,
          Json.number_unsigned 3])]) :=
  coerce_element_geopoint_shape StringUtils.model
    ⟨"loc", field_types.GEOPOINT, true, false, 0⟩
    [("loc", Json.array [Json.number_unsigned 1, Json.number_unsigned 2,
      Json.number_unsigned 3])] "" DIRTY_VALUES.DROP
    (Json.array [Json.number_unsigned 1, Json.number_unsigned 2, Json.number_unsigned 3])
    rfl rfl (Or.inr (by decide))

/-- What `coerce_element` does with an array-typed field whose value is no
array. -/
theorem coerce_element_not_array (su : StringUtils) (f : field) (d : Doc) (fb : String)
    (dv : DIRTY_VALUES) (v : Json) (hfind : Doc.find d f.name = some v)
    (harr : f.is_array = true) (hv : v.is_array = false) :
    coerce_element su f d fb dv =
      if (f.optional && (decide (dv = DIRTY_VALUES.DROP) ||
          decide (dv = DIRTY_VALUES.COERCE_OR_DROP))) = true then
        (Outcome.ok 200, Doc.erase d f.name)
      else (Outcome.error 400 ("Field `" ++ f.name ++ "` must be an array."), d) := by
  have hidx : Doc.index d f.name = v := Doc.index_of_find _ _ _ hfind
  refine coerce_element_elim su f d fb dv
    (fun r => r = if (f.optional && (decide (dv = DIRTY_VALUES.DROP) ||
          decide (dv = DIRTY_VALUES.COERCE_OR_DROP))) = true then
        (Outcome.ok 200, Doc.erase d f.name)
      else (Outcome.error 400 ("Field `" ++ f.name ++ "` must be an array."), d))
    ?_ ?_ ?_ ?_ ?_ ?_ ?_ ?_ ?_ ?_ ?_ ?_ ?_
  · intro ht; simp [field.is_array, ht] at harr
  · intro ht; simp [field.is_array, ht] at harr
  · intro ht; simp [field.is_array, ht] at harr
  · intro ht; simp [field.is_array, ht] at harr
  · intro ht; simp [field.is_array, ht] at harr
  · intro ht; simp [field.is_array, ht] at harr
  · intro ht; simp [field.is_array, ht] at harr
  · intro _ _ hc
    rw [if_pos hc]
  · intro _ _ hc
    rw [hc]
    rfl
  · intro _ _ ha
    rw [hidx, hv] at ha
    cases ha
  · intro _ _ ha
    rw [hidx, hv] at ha
    cases ha
  · intro _ ha
    rw [hidx, hv] at ha
    cases ha
  · intro _ _ _ _ _ _ h7
    have := (h7 harr).2.2.1
    rw [hidx, hv] at this
    cases this

/-- C18: for an array-typed field whose document value is not a JSON array:
if the field is optional and the policy is DROP or COERCE_OR_DROP, the field's
key is erased, every other key is unchanged and `coerce_element` succeeds; in
every other case (policy REJECT or COERCE_OR_REJECT, or field not optional) it
fails with status 400 and message "Field `X` must be an array." and the
document is unchanged: no scalar-to-array coercion is attempted. -/
theorem coerce_element_array_field_given_non_array (su : StringUtils) (a_field : field)
    (document : Doc) (fallback_field_type : String) (dirty_values : DIRTY_VALUES) (v : Json)
    (hfind : Doc.find document a_field.name = some v)
    (harr : a_field.is_array = true) (hv : v.is_array = false) :
    (a_field.optional = true →
      (dirty_values = DIRTY_VALUES.DROP ∨ dirty_values = DIRTY_VALUES.COERCE_OR_DROP) →
      coerce_element su a_field document fallback_field_type dirty_values =
        (Outcome.ok 200, Doc.erase document a_field.name) ∧
      Doc.find (Doc.erase document a_field.name) a_field.name = none ∧
      ∀ key, key ≠ a_field.name →
        Doc.find (Doc.erase document a_field.name) key = Doc.find document key) ∧
    ((a_field.optional = false ∨ dirty_values = DIRTY_VALUES.REJECT ∨
        dirty_values = DIRTY_VALUES.COERCE_OR_REJECT) →
      coerce_element su a_field document fallback_field_type dirty_values =
        (Outcome.error 400 ("Field `" ++ a_field.name ++ "` must be an array."),
          document)) := by
  have key := coerce_element_not_array su a_field document fallback_field_type dirty_values v
    hfind harr hv
  constructor
  · intro hopt hdv
    refine ⟨?_, Doc.find_erase_self _ _, fun k hk => Doc.find_erase_ne _ _ _ hk⟩
    rw [key, if_pos]
    rcases hdv with h | h <;> simp [hopt, h]
  · intro hcase
    rw [key, if_neg]
    rcases hcase with h | h | h <;> simp [h]

/-- Witness for C18: an optional string[] field holding a string, under
COERCE_OR_DROP. -/
theorem coerce_element_array_field_given_non_array_witness :
    coerce_element StringUtils.model ⟨"tags", field_types.STRING_ARRAY, true, false, 0⟩
        [("tags", Json.string "red"), ("qty", Json.number_unsigned 1)] ""
        DIRTY_VALUES.COERCE_OR_DROP =
      (Outcome.ok 200, [("qty", Json.number_unsigned 1)]) :=
  ((coerce_element_array_field_given_non_array StringUtils.model
    ⟨"tags", field_types.STRING_ARRAY, true, false, 0⟩
    [("tags", Json.string "red"), ("qty", Json.number_unsigned 1)] ""
    DIRTY_VALUES.COERCE_OR_DROP (Json.string "red") rfl rfl rfl).1 rfl (Or.inr rfl)).1

/-- C19, as amended: for a float[] vector field (any `num_dim`) that is not
optional, every document value that is not a JSON array, JSON null included,
is rejected with status 400 and message "Field `X` must be an array."
regardless of the dirty-values policy and of the operation, the document
unchanged; for an optional vector field a non-null value that is not an array
is rejected in the same way under REJECT and COERCE_OR_REJECT. -/
theorem vector_field_given_non_array (su : StringUtils) (op : index_operation_t)
    (fallback_field_type : String) (dirty_values : DIRTY_VALUES) (a_field : field)
    (rest : List field) (document : Doc) (v : Json)
    (hfind : Doc.find document a_field.name = some v)
    (htype : a_field.type = field_types.FLOAT_ARRAY) (hid : a_field.name ≠ "id")
    (hv : v.is_array = false)
    (hcase : a_field.optional = false ∨
      (v.is_null = false ∧ (dirty_values = DIRTY_VALUES.REJECT ∨
        dirty_values = DIRTY_VALUES.COERCE_OR_REJECT))) :
    coerce_element su a_field document fallback_field_type dirty_values =
      (Outcome.error 400 ("Field `" ++ a_field.name ++ "` must be an array."), document) ∧
    validate_fields su op fallback_field_type dirty_values (a_field :: rest) document =
      (Outcome.error 400 ("Field `" ++ a_field.name ++ "` must be an array."), document) ∧
    ∀ seq_id, validate_index_in_memory su document seq_id "" [a_field] op
        fallback_field_type dirty_values =
      (Outcome.error 400 ("Field `" ++ a_field.name ++ "` must be an array."), document) := by
  have harr : a_field.is_array = true := by simp [field.is_array, htype]
  have hobj : a_field.is_object = false := by simp [field.is_object, htype]
  have hce : coerce_element su a_field document fallback_field_type dirty_values =
      (Outcome.error 400 ("Field `" ++ a_field.name ++ "` must be an array."), document) := by
    rw [coerce_element_not_array su a_field document fallback_field_type dirty_values v
      hfind harr hv, if_neg]
    rcases hcase with h | ⟨_, h | h⟩ <;> simp [h]
  have hnn : a_field.optional = false ∨ v.is_null = false := by
    rcases hcase with h | ⟨h, _⟩
    · exact Or.inl h
    · exact Or.inr h
  have hvf : ∀ fields, validate_fields su op fallback_field_type dirty_values
      (a_field :: fields) document =
      (Outcome.error 400 ("Field `" ++ a_field.name ++ "` must be an array."), document) := by
    intro fields
    rw [validate_fields_coerce su op fallback_field_type dirty_values a_field fields document v
      hid hobj hfind hnn, hce]
    rfl
  refine ⟨hce, hvf rest, fun seq_id => ?_⟩
  unfold validate_index_in_memory
  simp only [ne_eq, not_true_eq_false, decide_False, Bool.false_and, Bool.and_false,
    Bool.false_eq_true, if_false]
  exact hvf []

/-- Witness for C19 as amended: the document of the test `VectorWithNullValue`,
a required 4-dimensional vector field holding null. -/
theorem vector_field_given_non_array_witness :
    validate_index_in_memory StringUtils.model
        [("id", Json.string "1"), ("vec", Json.null)] 0 ""
        [⟨"vec", field_types.FLOAT_ARRAY, false, false, 4⟩] index_operation_t.CREATE ""
        DIRTY_VALUES.COERCE_OR_REJECT =
      (Outcome.error 400 "Field `vec` must be an array.",
        [("id", Json.string "1"), ("vec", Json.null)]) :=
  (vector_field_given_non_array StringUtils.model index_operation_t.CREATE ""
    DIRTY_VALUES.COERCE_OR_REJECT ⟨"vec", field_types.FLOAT_ARRAY, false, false, 4⟩ []
    [("id", Json.string "1"), ("vec", Json.null)] Json.null rfl rfl (by decide) rfl
    (Or.inl rfl)).2.2 0

/-- Counterexample to C19 as stated: an optional 4-dimensional vector field
holding a string under DROP is not rejected: the key is erased and validation
succeeds. -/
theorem vector_field_optional_drop_counterexample :
    validate_index_in_memory StringUtils.model
        [("id", Json.string "1"), ("vec", Json.string "0.1, 0.2")] 0 ""
        [⟨"vec", field_types.FLOAT_ARRAY, true, false, 4⟩] index_operation_t.CREATE ""
        DIRTY_VALUES.DROP =
      (Outcome.ok 200, [("id", Json.string "1")]) ∧
    Json.is_array (Json.string "0.1, 0.2") = false :=
  ⟨rfl, rfl⟩

/-! ## Coercion into a bool -/

/-- What `coerce_bool` does under the two coercing policies with the scalar
field `k` holding `v`. -/
theorem coerce_bool_scalar_eval (su : StringUtils) (dv : DIRTY_VALUES) (f : field) (d : Doc)
    (k : String) (it : Nat) (e : Bool) (v : Json)
    (hfind : Doc.find d k = some v)
    (hdv : dv = DIRTY_VALUES.COERCE_OR_REJECT ∨ dv = DIRTY_VALUES.COERCE_OR_DROP) :
    coerce_bool su dv f d k it false e =
      if (v.is_number_integer &&
          (decide (get_int64 v = Conv.val 1) || decide (get_int64 v = Conv.val 0))) = true then
        (Outcome.ok 200, Doc.assign d k (Json.boolean (decide (get_int64 v = Conv.val 1))), e)
      else if v.is_string = true then
        if su.tolowercase (get_string v) = "true" then
          (Outcome.ok 200, Doc.assign d k (Json.boolean true), e)
        else if su.tolowercase (get_string v) = "false" then
          (Outcome.ok 200, Doc.assign d k (Json.boolean false), e)
        else (Outcome.error 400 ("Field `" ++ k ++ "` must be a bool."), d, e)
      else if dv = DIRTY_VALUES.COERCE_OR_DROP ∧ f.optional = true then
        (Outcome.ok 200, Doc.erase d k, e)
      else (Outcome.error 400 ("Field `" ++ k ++ "` must be a bool."), d, e) := by
  have hidx : Doc.index d k = v := Doc.index_of_find _ _ _ hfind
  have htouch : Doc.touch d k = d := Doc.touch_of_find _ _ _ hfind
  unfold coerce_bool
  simp only [item_bind, item_value, item_assign, erase_item, htouch, hidx, Bool.false_eq_true,
    if_false, Bool.not_false, if_true]
  rcases hdv with h | h <;> subst h <;>
    simp only [reduceCtorEq, if_false, if_true, false_and, true_and] <;>
    cases f.optional <;> simp [must_be_msg]

/-- C15: under COERCE_OR_REJECT and COERCE_OR_DROP, `coerce_bool` on a scalar
field replaces the integer 0 (signed or unsigned) by false and the integer 1 by
true, and replaces a string that lowercases to "true" or "false" by that
boolean; every other value that is not a string (another integer, a float,
null, an array, an object) goes to the shared policy table: the key is erased
with success when the policy is COERCE_OR_DROP and the field is optional, and
otherwise the call fails with status 400 "Field `X` must be a bool." and the
document unchanged. -/
theorem coerce_bool_rules (su : StringUtils) (dv : DIRTY_VALUES) (f : field) (d : Doc)
    (k : String) (it : Nat) (e : Bool) (v : Json)
    (hfind : Doc.find d k = some v)
    (hdv : dv = DIRTY_VALUES.COERCE_OR_REJECT ∨ dv = DIRTY_VALUES.COERCE_OR_DROP) :
    ((v = Json.number_integer 0 ∨ v = Json.number_unsigned 0) →
      coerce_bool su dv f d k it false e =
        (Outcome.ok 200, Doc.assign d k (Json.boolean false), e)) ∧
    ((v = Json.number_integer 1 ∨ v = Json.number_unsigned 1) →
      coerce_bool su dv f d k it false e =
        (Outcome.ok 200, Doc.assign d k (Json.boolean true), e)) ∧
    (∀ s, v = Json.string s → su.tolowercase s = "true" →
      coerce_bool su dv f d k it false e =
        (Outcome.ok 200, Doc.assign d k (Json.boolean true), e)) ∧
    (∀ s, v = Json.string s → su.tolowercase s = "false" →
      coerce_bool su dv f d k it false e =
        (Outcome.ok 200, Doc.assign d k (Json.boolean false), e)) ∧
    (((∃ n : Int, v = Json.number_integer n ∧ n ≠ 0 ∧ n ≠ 1) ∨
        (∃ n : Nat, v = Json.number_unsigned n ∧ 2 ≤ n ∧ n < 2 ^ 64) ∨
        (v.is_number_integer = false ∧ v.is_string = false)) →
      coerce_bool su dv f d k it false e =
        if dv = DIRTY_VALUES.COERCE_OR_DROP ∧ f.optional = true then
          (Outcome.ok 200, Doc.erase d k, e)
        else (Outcome.error 400 ("Field `" ++ k ++ "` must be a bool."), d, e)) := by
  have key := coerce_bool_scalar_eval su dv f d k it e v hfind hdv
  refine ⟨?_, ?_, ?_, ?_, ?_⟩
  · rintro (h | h) <;> subst h <;> rw [key] <;>
      simp [Json.is_number_integer, get_int64, uint64_to_int64]
  · rintro (h | h) <;> subst h <;> rw [key] <;>
      simp [Json.is_number_integer, get_int64, uint64_to_int64]
  · intro s hs hl
    subst hs
    rw [key]
    simp [Json.is_number_integer, Json.is_string, get_string, hl]
  · intro s hs hl
    subst hs
    rw [key]
    simp [Json.is_number_integer, Json.is_string, get_string, hl]
  · rintro (⟨n, hv, h0, h1⟩ | ⟨n, hv, h2, h64⟩ | ⟨hni, hs⟩)
    · subst hv
      rw [key]
      simp [Json.is_number_integer, Json.is_string, get_int64, h0, h1]
    · subst hv
      have hmod : n % 2 ^ 64 = n := Nat.mod_eq_of_lt h64
      have hne1 : uint64_to_int64 n ≠ 1 := by
        unfold uint64_to_int64
        rw [hmod]
        split <;> omega
      have hne0 : uint64_to_int64 n ≠ 0 := by
        unfold uint64_to_int64
        rw [hmod]
        split <;> omega
      rw [key]
      simp [Json.is_number_integer, Json.is_string, get_int64, hne0, hne1]
    · rw [key]
      simp [hni, hs]

/-- Witness for C15: the string "TRUE" in a required bool field under
COERCE_OR_REJECT becomes the boolean true. -/
theorem coerce_bool_rules_witness :
    coerce_bool StringUtils.model DIRTY_VALUES.COERCE_OR_REJECT
        ⟨"in_stock", field_types.BOOL, false, false, 0⟩
        [("in_stock", Json.string "TRUE")] "in_stock" 0 false false =
      (Outcome.ok 200, [("in_stock", Json.boolean true)], false) :=
  (coerce_bool_rules StringUtils.model DIRTY_VALUES.COERCE_OR_REJECT
    ⟨"in_stock", field_types.BOOL, false, false, 0⟩
    [("in_stock", Json.string "TRUE")] "in_stock" 0 false (Json.string "TRUE") rfl
    (Or.inl rfl)).2.2.1 "TRUE" rfl (by decide)

/-- C16, as amended: for a bool field, a string value that lowercases to
neither "true" nor "false" makes validation fail with status 400 "Field `X`
must be a bool.", the document unchanged, under REJECT, COERCE_OR_REJECT and
COERCE_OR_DROP whether or not the field is optional, and under DROP when the
field is not optional. -/
theorem bool_field_given_other_string (su : StringUtils) (op : index_operation_t)
    (fallback_field_type : String) (dirty_values : DIRTY_VALUES) (a_field : field)
    (rest : List field) (document : Doc) (s : String)
    (hfind : Doc.find document a_field.name = some (Json.string s))
    (htype : a_field.type = field_types.BOOL) (hid : a_field.name ≠ "id")
    (htrue : su.tolowercase s ≠ "true") (hfalse : su.tolowercase s ≠ "false")
    (hcase : dirty_values ≠ DIRTY_VALUES.DROP ∨ a_field.optional = false) :
    coerce_bool su dirty_values a_field document a_field.name 0 false false =
      (Outcome.error 400 ("Field `" ++ a_field.name ++ "` must be a bool."),
        document, false) ∧
    coerce_element su a_field document fallback_field_type dirty_values =
      (Outcome.error 400 ("Field `" ++ a_field.name ++ "` must be a bool."), document) ∧
    validate_fields su op fallback_field_type dirty_values (a_field :: rest) document =
      (Outcome.error 400 ("Field `" ++ a_field.name ++ "` must be a bool."), document) ∧
    ∀ seq_id, validate_index_in_memory su document seq_id "" [a_field] op
        fallback_field_type dirty_values =
      (Outcome.error 400 ("Field `" ++ a_field.name ++ "` must be a bool."), document) := by
  have hidx : Doc.index document a_field.name = Json.string s := Doc.index_of_find _ _ _ hfind
  have htouch : Doc.touch document a_field.name = document := Doc.touch_of_find _ _ _ hfind
  have hobj : a_field.is_object = false := by simp [field.is_object, htype]
  have hcb : coerce_bool su dirty_values a_field document a_field.name 0 false false =
      (Outcome.error 400 ("Field `" ++ a_field.name ++ "` must be a bool."),
        document, false) := by
    cases dirty_values with
    | REJECT =>
      simp [coerce_bool, item_bind, htouch, must_be_msg]
    | DROP =>
      rcases hcase with h | h
      · exact absurd rfl h
      · simp [coerce_bool, item_bind, htouch, must_be_msg, h]
    | COERCE_OR_REJECT =>
      rw [coerce_bool_scalar_eval su _ a_field document a_field.name 0 false _ hfind
        (Or.inl rfl)]
      simp [Json.is_number_integer, Json.is_string, get_string, htrue, hfalse]
    | COERCE_OR_DROP =>
      rw [coerce_bool_scalar_eval su _ a_field document a_field.name 0 false _ hfind
        (Or.inr rfl)]
      simp [Json.is_number_integer, Json.is_string, get_string, htrue, hfalse]
  have hce : coerce_element su a_field document fallback_field_type dirty_values =
      (Outcome.error 400 ("Field `" ++ a_field.name ++ "` must be a bool."), document) := by
    unfold coerce_element
    simp only [htype, hidx, hcb, return_or_200, Json.is_boolean, Json.is_string,
      Outcome.is_ok, reduceCtorEq, decide_False, decide_True, Bool.false_and, Bool.true_and,
      Bool.not_false, Bool.not_true, Bool.false_eq_true, if_false, if_true]
  have hvf : ∀ fields, validate_fields su op fallback_field_type dirty_values
      (a_field :: fields) document =
      (Outcome.error 400 ("Field `" ++ a_field.name ++ "` must be a bool."), document) := by
    intro fields
    rw [validate_fields_coerce su op fallback_field_type dirty_values a_field fields document
      (Json.string s) hid hobj hfind (Or.inr rfl), hce]
    rfl
  refine ⟨hcb, hce, hvf rest, fun seq_id => ?_⟩
  unfold validate_index_in_memory
  simp only [ne_eq, not_true_eq_false, decide_False, Bool.false_and, Bool.and_false,
    Bool.false_eq_true, if_false]
  exact hvf []

/-- Witness for C16 as amended: an optional bool field holding "maybe" under
COERCE_OR_DROP. -/
theorem bool_field_given_other_string_witness :
    validate_index_in_memory StringUtils.model
        [("id", Json.string "1"), ("in_stock", Json.string "maybe")] 0 ""
        [⟨"in_stock", field_types.BOOL, true, false, 0⟩] index_operation_t.CREATE ""
        DIRTY_VALUES.COERCE_OR_DROP =
      (Outcome.error 400 "Field `in_stock` must be a bool.",
        [("id", Json.string "1"), ("in_stock", Json.string "maybe")]) :=
  (bool_field_given_other_string StringUtils.model index_operation_t.CREATE ""
    DIRTY_VALUES.COERCE_OR_DROP ⟨"in_stock", field_types.BOOL, true, false, 0⟩ []
    [("id", Json.string "1"), ("in_stock", Json.string "maybe")] "maybe" rfl rfl
    (by decide) (by decide) (by decide) (Or.inl (by decide))).2.2.2 0

/-- Counterexample to C16 as stated: under DROP an optional bool field holding
the string "maybe" does not fail: the key is erased and validation succeeds. -/
theorem bool_field_other_string_drop_counterexample :
    validate_index_in_memory StringUtils.model
        [("id", Json.string "1"), ("in_stock", Json.string "maybe")] 0 ""
        [⟨"in_stock", field_types.BOOL, true, false, 0⟩] index_operation_t.CREATE ""
        DIRTY_VALUES.DROP =
      (Outcome.ok 200, [("id", Json.string "1")]) ∧
    StringUtils.model.tolowercase "maybe" ≠ "true" ∧
    StringUtils.model.tolowercase "maybe" ≠ "false" :=
  ⟨rfl, by decide, by decide⟩

/-! ## The range of a coerced int32 -/

/-- What `coerce_int32_t_range` does when the field holds the integer `n`. -/
theorem coerce_int32_t_range_eval (dv : DIRTY_VALUES) (f : field) (d : Doc) (k : String)
    (e : Bool) (n : Int) (hfind : Doc.find d k = some (Json.number_integer n)) :
    coerce_int32_t_range dv f d k e =
      if n > INT32_MAX then
        if (f.optional && (decide (dv = DIRTY_VALUES.DROP) ||
            decide (dv = DIRTY_VALUES.COERCE_OR_REJECT))) = true then
          (Outcome.ok 200, Doc.erase d k, e)
        else (Outcome.error 400 ("Field `" ++ k ++ "` exceeds maximum value of int32."), d, e)
      else (Outcome.ok 200, d, e) := by
  have hidx : Doc.index d k = Json.number_integer n := Doc.index_of_find _ _ _ hfind
  have hc : Doc.contains d k = true := by simp [Doc.contains, hfind]
  unfold coerce_int32_t_range
  simp only [hc, hidx, get_int64, if_true]

/-- The result of `coerce_int32_t_range` on a document without the field. -/
theorem coerce_int32_t_range_absent (dv : DIRTY_VALUES) (f : field) (d : Doc) (k : String)
    (e : Bool) (hfind : Doc.find d k = none) :
    coerce_int32_t_range dv f d k e = (Outcome.ok 200, d, e) := by
  have hc : Doc.contains d k = false := by simp [Doc.contains, hfind]
  unfold coerce_int32_t_range
  simp only [hc, Bool.false_eq_true, if_false]

/-- C13: for a scalar int32 field, whenever `coerce_int32_t` returns success
and the field is still present in the document it leaves, the stored value is a
JSON integer `n` with `n ≤ 2147483647`. -/
theorem coerce_int32_t_stored_value (su : StringUtils) (dv : DIRTY_VALUES) (f : field)
    (d : Doc) (k : String) (it : Nat) (e : Bool) (r : Outcome) (d' : Doc) (e' : Bool)
    (w : Json)
    (h : coerce_int32_t su dv f d k it false e = (r, d', e'))
    (hok : r.is_ok = true) (hw : Doc.find d' k = some w) :
    ∃ n : Int, w = Json.number_integer n ∧ n ≤ 2147483647 := by
  have hrange : ∀ (x : Doc) (n : Int), Doc.find x k = some (Json.number_integer n) →
      coerce_int32_t_range dv f x k e = (r, d', e') →
      ∃ n : Int, w = Json.number_integer n ∧ n ≤ 2147483647 := by
    intro x n hx hr
    rw [coerce_int32_t_range_eval dv f x k e n hx] at hr
    split at hr
    · split at hr
      · simp only [Prod.mk.injEq] at hr
        obtain ⟨_, hd, _⟩ := hr
        subst hd
        rw [Doc.find_erase_self] at hw
        exact absurd hw (by simp)
      · simp only [Prod.mk.injEq] at hr
        obtain ⟨hr1, _, _⟩ := hr
        subst hr1
        simp [Outcome.is_ok] at hok
    · rename_i hle
      simp only [Prod.mk.injEq] at hr
      obtain ⟨_, hd, _⟩ := hr
      subst hd
      rw [hx] at hw
      refine ⟨n, (Option.some.inj hw).symm, ?_⟩
      simp only [INT32_MAX] at hle
      omega
  have hassign : ∀ n : Int,
      coerce_int32_t_range dv f (Doc.assign (Doc.touch d k) k (Json.number_integer n)) k e =
        (r, d', e') →
      ∃ n : Int, w = Json.number_integer n ∧ n ≤ 2147483647 :=
    fun n hr => hrange _ n (Doc.find_assign_self _ _ _) hr
  have herase : Doc.find d' k = none → ∃ n : Int, w = Json.number_integer n ∧ n ≤ 2147483647 := by
    intro hn
    rw [hn] at hw
    exact absurd hw (by simp)
  unfold coerce_int32_t at h
  simp only [item_bind, item_value, item_assign, erase_item, Bool.false_eq_true, if_false,
    Bool.not_false, if_true] at h
  split at h
  · simp only [Prod.mk.injEq] at h
    obtain ⟨hr1, _, _⟩ := h
    subst hr1
    simp [Outcome.is_ok] at hok
  split at h
  · split at h
    · simp only [Prod.mk.injEq] at h
      obtain ⟨hr1, _, _⟩ := h
      subst hr1
      simp [Outcome.is_ok] at hok
    · simp only [Prod.mk.injEq] at h
      obtain ⟨_, hd, _⟩ := h
      subst hd
      exact herase (Doc.find_erase_self _ _)
  split at h
  · split at h
    · split at h
      · exact hassign _ h
      · simp only [Prod.mk.injEq] at h
        obtain ⟨hr1, _, _⟩ := h
        subst hr1
        simp [Outcome.is_ok] at hok
      · simp only [Prod.mk.injEq] at h
        obtain ⟨hr1, _, _⟩ := h
        subst hr1
        simp [Outcome.is_ok] at hok
    · simp only [Prod.mk.injEq] at h
      obtain ⟨hr1, _, _⟩ := h
      subst hr1
      simp [Outcome.is_ok] at hok
    · simp only [Prod.mk.injEq] at h
      obtain ⟨hr1, _, _⟩ := h
      subst hr1
      simp [Outcome.is_ok] at hok
  split at h
  · exact hassign _ h
  split at h
  · exact hassign _ h
  split at h
  · split at h
    · simp only [Prod.mk.injEq] at h
      obtain ⟨hr1, _, _⟩ := h
      subst hr1
      simp [Outcome.is_ok] at hok
    · rw [coerce_int32_t_range_absent dv f _ k e (Doc.find_erase_self _ _)] at h
      simp only [Prod.mk.injEq] at h
      obtain ⟨_, hd, _⟩ := h
      subst hd
      exact herase (Doc.find_erase_self _ _)
  · simp only [Prod.mk.injEq] at h
    obtain ⟨hr1, _, _⟩ := h
    subst hr1
    simp [Outcome.is_ok] at hok

/-- Witness for C13: the string "12" in an int32 field under COERCE_OR_REJECT is
stored as the integer 12. -/
theorem coerce_int32_t_stored_value_witness :
    coerce_int32_t StringUtils.model DIRTY_VALUES.COERCE_OR_REJECT
        ⟨"qty", field_types.INT32, false, false, 0⟩ [("qty", Json.string "12")] "qty" 0
        false false = (Outcome.ok 200, [("qty", Json.number_integer 12)], false) ∧
    ∃ n : Int, Json.number_integer 12 = Json.number_integer n ∧ n ≤ 2147483647 :=
  ⟨rfl, coerce_int32_t_stored_value StringUtils.model DIRTY_VALUES.COERCE_OR_REJECT
    ⟨"qty", field_types.INT32, false, false, 0⟩ [("qty", Json.string "12")] "qty" 0
    false (Outcome.ok 200) [("qty", Json.number_integer 12)] false (Json.number_integer 12)
    rfl rfl rfl⟩

/-- C14: for a scalar int32 field holding a string that the int32 string check
accepts and that parses to an integer greater than 2147483647, `coerce_int32_t`
erases the field and succeeds when the field is optional and the policy is
COERCE_OR_REJECT; when the field is not optional, or the policy is
COERCE_OR_DROP, it fails with status 400 and message
"Field `X` exceeds maximum value of int32.", the field holding the parsed
integer. -/
theorem coerce_int32_t_overflow (su : StringUtils) (f : field) (d : Doc) (k : String)
    (it : Nat) (e : Bool) (s : String)
    (hfind : Doc.find d k = some (Json.string s))
    (hint : su.is_int32_t s = true) (hbig : su.atol s > 2147483647) :
    (f.optional = true →
      coerce_int32_t su DIRTY_VALUES.COERCE_OR_REJECT f d k it false e =
        (Outcome.ok 200, Doc.erase d k, e) ∧
      Doc.find (Doc.erase d k) k = none) ∧
    (f.optional = false →
      coerce_int32_t su DIRTY_VALUES.COERCE_OR_REJECT f d k it false e =
        (Outcome.error 400 ("Field `" ++ k ++ "` exceeds maximum value of int32."),
          Doc.assign d k (Json.number_integer (su.atol s)), e)) ∧
    coerce_int32_t su DIRTY_VALUES.COERCE_OR_DROP f d k it false e =
      (Outcome.error 400 ("Field `" ++ k ++ "` exceeds maximum value of int32."),
        Doc.assign d k (Json.number_integer (su.atol s)), e) := by
  have hidx : Doc.index d k = Json.string s := Doc.index_of_find _ _ _ hfind
  have htouch : Doc.touch d k = d := Doc.touch_of_find _ _ _ hfind
  have hgt : su.atol s > INT32_MAX := by
    simp only [INT32_MAX]
    exact hbig
  have hstep : ∀ dv, (dv = DIRTY_VALUES.COERCE_OR_REJECT ∨ dv = DIRTY_VALUES.COERCE_OR_DROP) →
      coerce_int32_t su dv f d k it false e =
        coerce_int32_t_range dv f (Doc.assign d k (Json.number_integer (su.atol s))) k e := by
    intro dv hdv
    unfold coerce_int32_t
    simp only [item_bind, item_value, item_assign, htouch, hidx, Bool.false_eq_true, if_false]
    rcases hdv with h | h <;> subst h <;>
      simp [Json.is_number_float, Json.is_boolean, Json.is_string, get_string, hint]
  have hrange : ∀ dv, coerce_int32_t_range dv f
      (Doc.assign d k (Json.number_integer (su.atol s))) k e =
      if (f.optional && (decide (dv = DIRTY_VALUES.DROP) ||
          decide (dv = DIRTY_VALUES.COERCE_OR_REJECT))) = true then
        (Outcome.ok 200, Doc.erase d k, e)
      else (Outcome.error 400 ("Field `" ++ k ++ "` exceeds maximum value of int32."),
        Doc.assign d k (Json.number_integer (su.atol s)), e) := by
    intro dv
    rw [coerce_int32_t_range_eval dv f _ k e (su.atol s) (Doc.find_assign_self _ _ _),
      if_pos hgt, Doc.erase_assign d k _ _ hfind]
  refine ⟨fun hopt => ⟨?_, Doc.find_erase_self _ _⟩, fun hopt => ?_, ?_⟩
  · rw [hstep _ (Or.inl rfl), hrange, if_pos]
    simp [hopt]
  · rw [hstep _ (Or.inl rfl), hrange, if_neg]
    simp [hopt]
  · rw [hstep _ (Or.inr rfl), hrange, if_neg]
    simp

/-- Witness for C14: an optional int32 field holding "2147483648" under
COERCE_OR_DROP fails with the overflow message. -/
theorem coerce_int32_t_overflow_witness :
    coerce_int32_t StringUtils.model DIRTY_VALUES.COERCE_OR_DROP
        ⟨"qty", field_types.INT32, true, false, 0⟩ [("qty", Json.string "2147483648")]
        "qty" 0 false false =
      (Outcome.error 400 "Field `qty` exceeds maximum value of int32.",
        [("qty", Json.number_integer 2147483648)], false) :=
  (coerce_int32_t_overflow StringUtils.model ⟨"qty", field_types.INT32, true, false, 0⟩
    [("qty", Json.string "2147483648")] "qty" 0 false "2147483648" rfl (by decide)
    (by decide)).2.2

/-! ## Coercions that go through a narrower type -/

/-- C11: the string stored for an unsigned integer above 2^63-1.  A string
field holding the unsigned integer 18446744073709551615 is coerced, under
COERCE_OR_REJECT and under COERCE_OR_DROP, to the string "-1" (the value passes
through `(int64_t)item` before `std::to_string`), not to
"18446744073709551615"; validation of the document succeeds with that
string. -/
theorem coerce_string_unsigned_above_int64_max :
    coerce_string StringUtils.model DIRTY_VALUES.COERCE_OR_REJECT ""
        ⟨"title", field_types.STRING, false, false, 0⟩
        [("title", Json.number_unsigned 18446744073709551615)] "title" 0 false false =
      (Outcome.ok 200, [("title", Json.string "-1")], false) ∧
    coerce_string StringUtils.model DIRTY_VALUES.COERCE_OR_DROP ""
        ⟨"title", field_types.STRING, false, false, 0⟩
        [("title", Json.number_unsigned 18446744073709551615)] "title" 0 false false =
      (Outcome.ok 200, [("title", Json.string "-1")], false) ∧
    validate_index_in_memory StringUtils.model
        [("title", Json.number_unsigned 18446744073709551615)] 0 ""
        [⟨"title", field_types.STRING, false, false, 0⟩] index_operation_t.CREATE ""
        DIRTY_VALUES.COERCE_OR_REJECT =
      (Outcome.ok 200, [("title", Json.string "-1")]) :=
  ⟨rfl, rfl, rfl⟩

/-- C12: the integer stored for the float 16777217.0.  An int32 field and an
int64 field holding the float 16777217.0 are coerced under COERCE_OR_REJECT to
the integer 16777216 (the value passes through `get<float>()`, which rounds to
24 significant bits, before the integer cast), not to 16777217, although the
truncation of 16777217.0 is 16777217 and fits both types. -/
theorem coerce_int_float_narrowed :
    coerce_int32_t StringUtils.model DIRTY_VALUES.COERCE_OR_REJECT
        ⟨"n", field_types.INT32, false, false, 0⟩
        [("n", Json.number_float ⟨16777217, 0⟩)] "n" 0 false false =
      (Outcome.ok 200, [("n", Json.number_integer 16777216)], false) ∧
    coerce_int64_t StringUtils.model DIRTY_VALUES.COERCE_OR_REJECT
        ⟨"n", field_types.INT64, false, false, 0⟩
        [("n", Json.number_float ⟨16777217, 0⟩)] "n" 0 false false =
      (Outcome.ok 200, [("n", Json.number_integer 16777216)], false) ∧
    validate_index_in_memory StringUtils.model
        [("n", Json.number_float ⟨16777217, 0⟩)] 0 ""
        [⟨"n", field_types.INT32, false, false, 0⟩] index_operation_t.CREATE ""
        DIRTY_VALUES.COERCE_OR_REJECT =
      (Outcome.ok 200, [("n", Json.number_integer 16777216)]) ∧
    trunc ⟨16777217, 0⟩ = 16777217 :=
  ⟨rfl, rfl, rfl, by decide⟩

/-! ## Dropping the mismatching elements of an array -/

theorem drop_eraseIdx_self (a : List Json) (i : Nat) :
    (a.eraseIdx i).drop i = a.drop (i + 1) := by
  induction a generalizing i with
  | nil => simp
  | cons y ys ih =>
    cases i with
    | zero => rfl
    | succ j =>
      show (ys.eraseIdx j).drop j = ys.drop (j + 1)
      exact ih j

theorem take_append_filter_drop_keep (a : List Json) (i : Nat) (p : Json → Bool)
    (hlt : i < a.length) (hp : p (a.getD i Json.null) = true) :
    a.take i ++ (a.drop i).filter p = a.take (i + 1) ++ (a.drop (i + 1)).filter p := by
  induction a generalizing i with
  | nil => simp at hlt
  | cons y ys ih =>
    cases i with
    | zero =>
      have hy : p y = true := hp
      simp [List.filter, hy]
    | succ j =>
      have hlt' : j < ys.length := by
        simp only [List.length_cons] at hlt
        omega
      have := ih j hlt' hp
      simp only [List.take_succ_cons, List.drop_succ_cons, List.cons_append]
      rw [this]

theorem take_append_filter_drop_skip (a : List Json) (i : Nat) (p : Json → Bool)
    (hlt : i < a.length) (hp : p (a.getD i Json.null) = false) :
    a.take i ++ (a.drop i).filter p = a.take i ++ (a.drop (i + 1)).filter p := by
  induction a generalizing i with
  | nil => simp at hlt
  | cons y ys ih =>
    cases i with
    | zero =>
      have hy : p y = false := hp
      simp [List.filter, hy]
    | succ j =>
      have hlt' : j < ys.length := by
        simp only [List.length_cons] at hlt
        omega
      have := ih j hlt' hp
      simp only [List.take_succ_cons, List.drop_succ_cons, List.cons_append]
      rw [this]

/-- Under DROP, for an optional field of one of the five plain array types, the
loop body keeps an element of the matching JSON type and erases every other
element. -/
theorem coerce_element_item_drop (su : StringUtils) (f : field) (d : Doc) (fb : String)
    (it : Nat) (a : List Json) (p : Json → Bool)
    (hopt : f.optional = true)
    (hfind : Doc.find d f.name = some (Json.array a))
    (hp : (f.type = field_types.STRING_ARRAY ∧ p = Json.is_string) ∨
      (f.type = field_types.INT32_ARRAY ∧ p = Json.is_number_integer) ∨
      (f.type = field_types.INT64_ARRAY ∧ p = Json.is_number_integer) ∨
      (f.type = field_types.FLOAT_ARRAY ∧ p = Json.is_number) ∨
      (f.type = field_types.BOOL_ARRAY ∧ p = Json.is_boolean)) :
    coerce_element_item su f d fb DIRTY_VALUES.DROP it =
      if p (a.getD it Json.null) = true then (Outcome.ok 200, d, false)
      else (Outcome.ok 200, array_erase d f.name it, true) := by
  have hidx : Doc.index d f.name = Json.array a := Doc.index_of_find _ _ _ hfind
  unfold coerce_element_item
  simp only [hidx, Json.elems_array]
  rcases hp with ⟨ht, hp⟩ | ⟨ht, hp⟩ | ⟨ht, hp⟩ | ⟨ht, hp⟩ | ⟨ht, hp⟩ <;> subst hp <;>
    simp only [ht, reduceCtorEq, decide_True, decide_False, Bool.true_and, Bool.false_and,
      Bool.false_eq_true, if_false]
  · cases hx : Json.is_string (a.getD it Json.null) <;>
      simp [coerce_string, item_bind, erase_item, hopt]
  · cases hx : Json.is_number_integer (a.getD it Json.null) <;>
      simp [coerce_int32_t, item_bind, erase_item, hopt]
  · cases hx : Json.is_number_integer (a.getD it Json.null) <;>
      simp [coerce_int64_t, item_bind, erase_item, hopt]
  · cases hx : Json.is_number (a.getD it Json.null) <;>
      simp [coerce_float, item_bind, erase_item, hopt]
  · cases hx : Json.is_boolean (a.getD it Json.null) <;>
      simp [coerce_bool, item_bind, erase_item, hopt]

/-- Under DROP, for an optional field of one of the five plain array types, the
element loop from position `it` runs to its end within `fuel` iterations and
leaves the elements before `it` followed by the matching elements from `it`
on. -/
theorem coerce_element_loop_drop (su : StringUtils) (f : field) (fb : String)
    (p : Json → Bool) (hopt : f.optional = true)
    (hp : (f.type = field_types.STRING_ARRAY ∧ p = Json.is_string) ∨
      (f.type = field_types.INT32_ARRAY ∧ p = Json.is_number_integer) ∨
      (f.type = field_types.INT64_ARRAY ∧ p = Json.is_number_integer) ∨
      (f.type = field_types.FLOAT_ARRAY ∧ p = Json.is_number) ∨
      (f.type = field_types.BOOL_ARRAY ∧ p = Json.is_boolean)) :
    ∀ (fuel it : Nat) (d : Doc) (a : List Json),
      Doc.find d f.name = some (Json.array a) → a.length ≤ it + fuel →
      ∃ d', coerce_element_loop su f fb DIRTY_VALUES.DROP fuel it d =
          some (Outcome.ok 200, d') ∧
        Doc.find d' f.name = some (Json.array (a.take it ++ (a.drop it).filter p)) ∧
        ∀ key, key ≠ f.name → Doc.find d' key = Doc.find d key := by
  intro fuel
  induction fuel with
  | zero =>
    intro it d a hfind hlen
    have hidx : Doc.index d f.name = Json.array a := Doc.index_of_find _ _ _ hfind
    have hnot : ¬ it < a.length := by omega
    refine ⟨d, ?_, ?_, fun _ _ => rfl⟩
    · unfold coerce_element_loop
      simp only [hidx, Json.size]
      simp [hnot]
    · rw [hfind, List.take_of_length_le (by omega), List.drop_of_length_le (by omega)]
      simp
  | succ n ih =>
    intro it d a hfind hlen
    have hidx : Doc.index d f.name = Json.array a := Doc.index_of_find _ _ _ hfind
    by_cases hlt : it < a.length
    · have hitem := coerce_element_item_drop su f d fb it a p hopt hfind hp
      cases hx : p (a.getD it Json.null) with
      | true =>
        rw [hx, if_pos rfl] at hitem
        obtain ⟨d', hloop, hres, hframe⟩ := ih (it + 1) d a hfind (by omega)
        refine ⟨d', ?_, ?_, hframe⟩
        · unfold coerce_element_loop
          simp only [hidx, Json.size, hlt, if_true, hitem, Outcome.is_ok, Bool.not_true,
            Bool.false_eq_true, if_false]
          exact hloop
        · rw [hres, take_append_filter_drop_keep a it p hlt hx]
      | false =>
        rw [hx, if_neg (by simp)] at hitem
        have hfind1 : Doc.find (array_erase d f.name it) f.name =
            some (Json.array (a.eraseIdx it)) := by
          unfold array_erase
          rw [Doc.find_assign_self, hidx, Json.elems_array]
        have hlen1 : (a.eraseIdx it).length ≤ it + n := by
          rw [List.length_eraseIdx_of_lt hlt]
          omega
        obtain ⟨d', hloop, hres, hframe⟩ := ih it (array_erase d f.name it) (a.eraseIdx it)
          hfind1 hlen1
        refine ⟨d', ?_, ?_, ?_⟩
        · unfold coerce_element_loop
          simp only [hidx, Json.size, hlt, if_true, hitem, Outcome.is_ok, Bool.not_true,
            Bool.false_eq_true, if_false]
          exact hloop
        · rw [hres, take_eraseIdx_self, drop_eraseIdx_self,
            take_append_filter_drop_skip a it p hlt hx]
        · intro key hkey
          rw [hframe key hkey]
          unfold array_erase
          exact Doc.find_assign_ne _ _ _ _ hkey
    · refine ⟨d, ?_, ?_, fun _ _ => rfl⟩
      · unfold coerce_element_loop
        simp only [hidx, Json.size]
        simp [hlt]
      · rw [hfind, List.take_of_length_le (by omega), List.drop_of_length_le (by omega)]
        simp

/-- C20: for an optional string[], int32[], int64[], float[] or bool[] field
under DROP whose value is the JSON array `a`, `coerce_element` succeeds, the
field then holds exactly the elements of `a` whose JSON type matches the
element type (string; integer; integer; number; boolean), in their original
order, and every other key of the document is unchanged. -/
theorem coerce_element_drop_filters (su : StringUtils) (a_field : field) (document : Doc)
    (fallback_field_type : String) (a : List Json) (p : Json → Bool)
    (hopt : a_field.optional = true)
    (hfind : Doc.find document a_field.name = some (Json.array a))
    (hp : (a_field.type = field_types.STRING_ARRAY ∧ p = Json.is_string) ∨
      (a_field.type = field_types.INT32_ARRAY ∧ p = Json.is_number_integer) ∨
      (a_field.type = field_types.INT64_ARRAY ∧ p = Json.is_number_integer) ∨
      (a_field.type = field_types.FLOAT_ARRAY ∧ p = Json.is_number) ∨
      (a_field.type = field_types.BOOL_ARRAY ∧ p = Json.is_boolean)) :
    (coerce_element su a_field document fallback_field_type DIRTY_VALUES.DROP).1 =
      Outcome.ok 200 ∧
    Doc.find (coerce_element su a_field document fallback_field_type DIRTY_VALUES.DROP).2
      a_field.name = some (Json.array (a.filter p)) ∧
    ∀ key, key ≠ a_field.name →
      Doc.find (coerce_element su a_field document fallback_field_type DIRTY_VALUES.DROP).2
        key = Doc.find document key := by
  have hidx : Doc.index document a_field.name = Json.array a := Doc.index_of_find _ _ _ hfind
  obtain ⟨d', hloop, hres, hframe⟩ := coerce_element_loop_drop su a_field fallback_field_type
    p hopt hp a.length 0 document a hfind (by omega)
  have hce : coerce_element su a_field document fallback_field_type DIRTY_VALUES.DROP =
      (Outcome.ok 200, d') := by
    unfold coerce_element
    simp only [hidx, Json.size, hloop]
    rcases hp with ⟨ht, _⟩ | ⟨ht, _⟩ | ⟨ht, _⟩ | ⟨ht, _⟩ | ⟨ht, _⟩ <;>
      simp [ht, field.is_array, Json.is_array]
  rw [hce]
  refine ⟨rfl, ?_, hframe⟩
  rw [hres]
  simp

/-- Witness for C20: an optional int32[] field under DROP; two adjacent
mismatching elements and a mismatching last element are removed, the integers
stay in order. -/
theorem coerce_element_drop_filters_witness :
    coerce_element StringUtils.model ⟨"nums", field_types.INT32_ARRAY, true, false, 0⟩
        [("nums", Json.array [Json.number_unsigned 1, Json.string "a", Json.string "b",
          Json.number_integer (-2), Json.null])] "" DIRTY_VALUES.DROP =
      (Outcome.ok 200,
        [("nums", Json.array [Json.number_unsigned 1, Json.number_integer (-2)])]) ∧
    Doc.find (coerce_element StringUtils.model
        ⟨"nums", field_types.INT32_ARRAY, true, false, 0⟩
        [("nums", Json.array [Json.number_unsigned 1, Json.string "a", Json.string "b",
          Json.number_integer (-2), Json.null])] "" DIRTY_VALUES.DROP).2 "nums" =
      some (Json.array ([Json.number_unsigned 1, Json.string "a", Json.string "b",
          Json.number_integer (-2), Json.null].filter Json.is_number_integer)) :=
  ⟨rfl, (coerce_element_drop_filters StringUtils.model
    ⟨"nums", field_types.INT32_ARRAY, true, false, 0⟩
    [("nums", Json.array [Json.number_unsigned 1, Json.string "a", Json.string "b",
      Json.number_integer (-2), Json.null])] ""
    [Json.number_unsigned 1, Json.string "a", Json.string "b",
      Json.number_integer (-2), Json.null] Json.is_number_integer rfl rfl
    (Or.inr (Or.inl ⟨rfl, rfl⟩))).2.1⟩

/-! ## Coercion of the elements of a string array -/

theorem drop_getD_cons (a : List Json) (i : Nat) (h : i < a.length) :
    a.drop i = a.getD i Json.null :: a.drop (i + 1) := by
  induction a generalizing i with
  | nil => simp at h
  | cons y ys ih =>
    cases i with
    | zero => rfl
    | succ j =>
      have hj : j < ys.length := by
        simp only [List.length_cons] at h
        omega
      exact ih j hj

theorem drop_succ_set (a : List Json) (i : Nat) (y : Json) :
    (a.set i y).drop (i + 1) = a.drop (i + 1) := by
  induction a generalizing i with
  | nil => rfl
  | cons x xs ih =>
    cases i with
    | zero => rfl
    | succ j => exact ih j

theorem uint64_to_int64_small (n : Nat) (h : n < 2 ^ 63) : uint64_to_int64 n = (n : Int) := by
  have hmod : n % 2 ^ 64 = n := Nat.mod_eq_of_lt (by omega)
  unfold uint64_to_int64
  rw [hmod, if_pos h]

/-- A value the string rules coerce becomes a string. -/
theorem string_of_element_is_string (su : StringUtils) (x y : Json)
    (h : string_of_element su x = some y) : ∃ s, y = Json.string s := by
  cases x <;> simp only [string_of_element, Option.some.injEq, reduceCtorEq] at h <;>
    exact ⟨_, h.symm⟩

/-- The loop body on an element of a string[] field under COERCE_OR_DROP, the
field optional: an element the string rules coerce is replaced by its string
(unsigned integers below 2^63), every other element is erased. -/
theorem coerce_element_item_string_coerce_or_drop (su : StringUtils) (f : field) (d : Doc)
    (fb : String) (it : Nat) (a : List Json)
    (htype : f.type = field_types.STRING_ARRAY) (hopt : f.optional = true)
    (hfind : Doc.find d f.name = some (Json.array a))
    (hrange : ∀ n, a.getD it Json.null = Json.number_unsigned n → n < 2 ^ 63) :
    ∃ d1 e1, coerce_element_item su f d fb DIRTY_VALUES.COERCE_OR_DROP it =
        (Outcome.ok 200, d1, e1) ∧
      (∀ key, key ≠ f.name → Doc.find d1 key = Doc.find d key) ∧
      match string_of_element su (a.getD it Json.null) with
      | some y => e1 = false ∧ Doc.find d1 f.name = some (Json.array (a.set it y))
      | none => e1 = true ∧ Doc.find d1 f.name = some (Json.array (a.eraseIdx it)) := by
  have hidx : Doc.index d f.name = Json.array a := Doc.index_of_find _ _ _ hfind
  obtain ⟨x, hx⟩ : ∃ x, a.getD it Json.null = x := ⟨_, rfl⟩
  rw [hx] at hrange ⊢
  have hset : ∀ y, Doc.find (Doc.assign d f.name (Json.array (a.set it y))) f.name =
      some (Json.array (a.set it y)) := fun y => Doc.find_assign_self _ _ _
  have hfr : ∀ v key, key ≠ f.name → Doc.find (Doc.assign d f.name v) key = Doc.find d key :=
    fun v key hk => Doc.find_assign_ne _ _ _ _ hk
  unfold coerce_element_item coerce_string
  simp only [hidx, Json.elems_array, hx, htype, item_bind, item_value, item_assign, erase_item,
    array_erase, if_true, decide_True, Bool.true_and, reduceCtorEq, if_false, hopt]
  cases x with
  | string s =>
    refine ⟨d, false, ?_, fun _ _ => rfl, ?_⟩
    · simp [Json.is_string]
    · simp only [string_of_element]
      refine ⟨trivial, ?_⟩
      rw [← hx, set_getD_self]
      exact hfind
  | number_integer n =>
    refine ⟨Doc.assign d f.name (Json.array (a.set it (Json.string (toString n)))), false,
      ?_, hfr _, ?_⟩
    · simp [Json.is_string, Json.is_number_integer, get_int64]
    · simp only [string_of_element]
      exact ⟨trivial, hset _⟩
  | number_unsigned n =>
    have hn : uint64_to_int64 n = (n : Int) := uint64_to_int64_small n (hrange n rfl)
    refine ⟨Doc.assign d f.name (Json.array (a.set it (Json.string (toString n)))), false,
      ?_, hfr _, ?_⟩
    · simp only [Json.is_string, Json.is_number_integer, get_int64, hn, Bool.not_false,
        if_true]
      rfl
    · simp only [string_of_element]
      exact ⟨trivial, hset _⟩
  | number_float y =>
    refine ⟨Doc.assign d f.name
      (Json.array (a.set it (Json.string (su.float_to_str (to_float y))))), false,
      ?_, hfr _, ?_⟩
    · simp [Json.is_string, Json.is_number_integer, Json.is_number_float, get_float]
    · simp only [string_of_element]
      exact ⟨trivial, hset _⟩
  | boolean b =>
    refine ⟨Doc.assign d f.name
      (Json.array (a.set it (Json.string (if b then "true" else "false")))), false,
      ?_, hfr _, ?_⟩
    · cases b <;>
        simp [Json.is_string, Json.is_number_integer, Json.is_number_float, Json.is_boolean,
          eq_true]
    · simp only [string_of_element]
      exact ⟨trivial, hset _⟩
  | null =>
    refine ⟨Doc.assign d f.name (Json.array (a.eraseIdx it)), true, ?_, hfr _, ?_⟩
    · simp [Json.is_string, Json.is_number_integer, Json.is_number_float, Json.is_boolean]
    · simp only [string_of_element]
      exact ⟨trivial, Doc.find_assign_self _ _ _⟩
  | array b =>
    refine ⟨Doc.assign d f.name (Json.array (a.eraseIdx it)), true, ?_, hfr _, ?_⟩
    · simp [Json.is_string, Json.is_number_integer, Json.is_number_float, Json.is_boolean]
    · simp only [string_of_element]
      exact ⟨trivial, Doc.find_assign_self _ _ _⟩
  | object o =>
    refine ⟨Doc.assign d f.name (Json.array (a.eraseIdx it)), true, ?_, hfr _, ?_⟩
    · simp [Json.is_string, Json.is_number_integer, Json.is_number_float, Json.is_boolean]
    · simp only [string_of_element]
      exact ⟨trivial, Doc.find_assign_self _ _ _⟩

theorem filterMap_drop_some (a : List Json) (i : Nat) (g : Json → Option Json) (y : Json)
    (hlt : i < a.length) (hy : g (a.getD i Json.null) = some y) :
    a.take i ++ (a.drop i).filterMap g =
      (a.set i y).take (i + 1) ++ ((a.set i y).drop (i + 1)).filterMap g := by
  rw [take_succ_set a i y hlt, drop_succ_set, drop_getD_cons a i hlt,
    List.filterMap_cons_some hy, List.append_assoc]
  rfl

theorem filterMap_drop_none (a : List Json) (i : Nat) (g : Json → Option Json)
    (hlt : i < a.length) (hy : g (a.getD i Json.null) = none) :
    a.take i ++ (a.drop i).filterMap g =
      (a.eraseIdx i).take i ++ ((a.eraseIdx i).drop i).filterMap g := by
  rw [take_eraseIdx_self, drop_eraseIdx_self, drop_getD_cons a i hlt,
    List.filterMap_cons_none hy]

/-- Under COERCE_OR_DROP, for an optional string[] field, the element loop from
position `it` runs to its end within `fuel` iterations and leaves the elements
before `it` followed by the coerced elements from `it` on. -/
theorem coerce_element_loop_string_coerce_or_drop (su : StringUtils) (f : field)
    (fb : String) (htype : f.type = field_types.STRING_ARRAY) (hopt : f.optional = true) :
    ∀ (fuel it : Nat) (d : Doc) (a : List Json),
      Doc.find d f.name = some (Json.array a) → a.length ≤ it + fuel →
      (∀ n, Json.number_unsigned n ∈ a → n < 2 ^ 63) →
      ∃ d', coerce_element_loop su f fb DIRTY_VALUES.COERCE_OR_DROP fuel it d =
          some (Outcome.ok 200, d') ∧
        Doc.find d' f.name =
          some (Json.array (a.take it ++ (a.drop it).filterMap (string_of_element su))) ∧
        ∀ key, key ≠ f.name → Doc.find d' key = Doc.find d key := by
  intro fuel
  induction fuel with
  | zero =>
    intro it d a hfind hlen _
    have hidx : Doc.index d f.name = Json.array a := Doc.index_of_find _ _ _ hfind
    have hnot : ¬ it < a.length := by omega
    refine ⟨d, ?_, ?_, fun _ _ => rfl⟩
    · unfold coerce_element_loop
      simp only [hidx, Json.size]
      simp [hnot]
    · rw [hfind, List.take_of_length_le (by omega), List.drop_of_length_le (by omega)]
      simp
  | succ n ih =>
    intro it d a hfind hlen hrange
    have hidx : Doc.index d f.name = Json.array a := Doc.index_of_find _ _ _ hfind
    by_cases hlt : it < a.length
    · have hmem : a.getD it Json.null ∈ a := by
        rw [List.getD_eq_getElem a Json.null hlt]
        exact List.getElem_mem _
      obtain ⟨d1, e1, hitem, hfr1, hcase⟩ := coerce_element_item_string_coerce_or_drop su f d
        fb it a htype hopt hfind (fun n hn => hrange n (hn ▸ hmem))
      cases hg : string_of_element su (a.getD it Json.null) with
      | some y =>
        rw [hg] at hcase
        obtain ⟨he1, hfind1⟩ := hcase
        subst he1
        obtain ⟨s, hs⟩ := string_of_element_is_string su _ _ hg
        have hrange1 : ∀ n, Json.number_unsigned n ∈ a.set it y → n < 2 ^ 63 := by
          intro n hn
          rcases List.mem_or_eq_of_mem_set hn with h | h
          · exact hrange n h
          · rw [hs] at h
            cases h
        obtain ⟨d', hloop, hres, hframe⟩ := ih (it + 1) d1 (a.set it y) hfind1
          (by rw [List.length_set]; omega) hrange1
        refine ⟨d', ?_, ?_, fun key hk => (hframe key hk).trans (hfr1 key hk)⟩
        · unfold coerce_element_loop
          simp only [hidx, Json.size, hlt, if_true, hitem, Outcome.is_ok, Bool.not_true,
            Bool.false_eq_true, if_false]
          exact hloop
        · rw [hres, filterMap_drop_some a it _ y hlt hg]
      | none =>
        rw [hg] at hcase
        obtain ⟨he1, hfind1⟩ := hcase
        subst he1
        have hrange1 : ∀ n, Json.number_unsigned n ∈ a.eraseIdx it → n < 2 ^ 63 :=
          fun n hn => hrange n (List.mem_of_mem_eraseIdx hn)
        obtain ⟨d', hloop, hres, hframe⟩ := ih it d1 (a.eraseIdx it) hfind1
          (by rw [List.length_eraseIdx_of_lt hlt]; omega) hrange1
        refine ⟨d', ?_, ?_, fun key hk => (hframe key hk).trans (hfr1 key hk)⟩
        · unfold coerce_element_loop
          simp only [hidx, Json.size, hlt, if_true, hitem, Outcome.is_ok, Bool.not_true,
            Bool.false_eq_true, if_false]
          exact hloop
        · rw [hres, filterMap_drop_none a it _ hlt hg]
    · refine ⟨d, ?_, ?_, fun _ _ => rfl⟩
      · unfold coerce_element_loop
        simp only [hidx, Json.size]
        simp [hlt]
      · rw [hfind, List.take_of_length_le (by omega), List.drop_of_length_le (by omega)]
        simp

/-- The loop body on an element of a string[] field under COERCE_OR_REJECT: an
element the string rules coerce is replaced by a string; any other element
fails with the typed message, unless the field is nested and the element is an
array. -/
theorem coerce_element_item_string_coerce_or_reject (su : StringUtils) (f : field) (d : Doc)
    (fb : String) (it : Nat) (a : List Json)
    (htype : f.type = field_types.STRING_ARRAY)
    (hfind : Doc.find d f.name = some (Json.array a))
    (hnested : f.nested = true → (a.getD it Json.null).is_array = false) :
    match string_of_element su (a.getD it Json.null) with
    | some _ => ∃ d1 s, coerce_element_item su f d fb DIRTY_VALUES.COERCE_OR_REJECT it =
        (Outcome.ok 200, d1, false) ∧
        Doc.find d1 f.name = some (Json.array (a.set it (Json.string s)))
    | none => coerce_element_item su f d fb DIRTY_VALUES.COERCE_OR_REJECT it =
        (Outcome.error 400 ("Field `" ++ f.name ++ "` must be an array of string."),
          d, false) := by
  have hidx : Doc.index d f.name = Json.array a := Doc.index_of_find _ _ _ hfind
  obtain ⟨x, hx⟩ : ∃ x, a.getD it Json.null = x := ⟨_, rfl⟩
  rw [hx] at hnested ⊢
  unfold coerce_element_item coerce_string
  simp only [hidx, Json.elems_array, hx, htype, item_bind, item_value, item_assign, erase_item,
    array_erase, if_true, decide_True, Bool.true_and, reduceCtorEq, if_false]
  cases x with
  | string s =>
    simp only [string_of_element]
    refine ⟨d, s, by simp [Json.is_string], ?_⟩
    rw [← hx, set_getD_self]
    exact hfind
  | number_integer n =>
    simp only [string_of_element]
    exact ⟨_, _, by simp [Json.is_string, Json.is_number_integer, get_int64]; rfl,
      Doc.find_assign_self _ _ _⟩
  | number_unsigned n =>
    simp only [string_of_element]
    exact ⟨_, _, by simp [Json.is_string, Json.is_number_integer, get_int64]; rfl,
      Doc.find_assign_self _ _ _⟩
  | number_float y =>
    simp only [string_of_element]
    exact ⟨_, _,
      by simp [Json.is_string, Json.is_number_integer, Json.is_number_float, get_float]; rfl,
      Doc.find_assign_self _ _ _⟩
  | boolean b =>
    simp only [string_of_element]
    exact ⟨_, _,
      by simp [Json.is_string, Json.is_number_integer, Json.is_number_float,
        Json.is_boolean]; rfl,
      Doc.find_assign_self _ _ _⟩
  | null =>
    simp [string_of_element, Json.is_string, Json.is_number_integer, Json.is_number_float,
      Json.is_boolean, Json.is_array, must_be_msg]
  | array b =>
    have hn : f.nested = false := by
      cases hf : f.nested
      · rfl
      · exact absurd (hnested hf) (by simp [Json.is_array])
    simp [string_of_element, Json.is_string, Json.is_number_integer, Json.is_number_float,
      Json.is_boolean, hn, must_be_msg]
  | object o =>
    simp [string_of_element, Json.is_string, Json.is_number_integer, Json.is_number_float,
      Json.is_boolean, Json.is_array, must_be_msg]

/-- Under COERCE_OR_REJECT the element loop over a string[] field fails with the
typed message when an element from position `it` on cannot be coerced. -/
theorem coerce_element_loop_string_coerce_or_reject (su : StringUtils) (f : field)
    (fb : String) (htype : f.type = field_types.STRING_ARRAY) :
    ∀ (fuel it : Nat) (d : Doc) (a : List Json),
      Doc.find d f.name = some (Json.array a) → a.length ≤ it + fuel →
      (f.nested = true → ∀ x ∈ a, x.is_array = false) →
      (∃ x ∈ a.drop it, string_of_element su x = none) →
      ∃ d', coerce_element_loop su f fb DIRTY_VALUES.COERCE_OR_REJECT fuel it d =
        some (Outcome.error 400 ("Field `" ++ f.name ++ "` must be an array of string."),
          d') := by
  intro fuel
  induction fuel with
  | zero =>
    intro it d a _ hlen _ hbad
    rw [List.drop_of_length_le (by omega)] at hbad
    obtain ⟨x, hx, _⟩ := hbad
    exact absurd hx (List.not_mem_nil x)
  | succ n ih =>
    intro it d a hfind hlen hnested hbad
    have hidx : Doc.index d f.name = Json.array a := Doc.index_of_find _ _ _ hfind
    by_cases hlt : it < a.length
    · have hmem : a.getD it Json.null ∈ a := by
        rw [List.getD_eq_getElem a Json.null hlt]
        exact List.getElem_mem _
      have hitem := coerce_element_item_string_coerce_or_reject su f d fb it a htype hfind
        (fun hn => hnested hn _ hmem)
      cases hg : string_of_element su (a.getD it Json.null) with
      | some y =>
        rw [hg] at hitem
        obtain ⟨d1, s, hitem, hfind1⟩ := hitem
        have hnested1 : f.nested = true → ∀ x ∈ a.set it (Json.string s),
            x.is_array = false := by
          intro hn x hx
          rcases List.mem_or_eq_of_mem_set hx with h | h
          · exact hnested hn x h
          · rw [h]
            rfl
        have hbad1 : ∃ x ∈ (a.set it (Json.string s)).drop (it + 1),
            string_of_element su x = none := by
          rw [drop_succ_set]
          obtain ⟨x, hx, hxn⟩ := hbad
          rw [drop_getD_cons a it hlt] at hx
          rcases List.mem_cons.mp hx with h | h
          · rw [h, hg] at hxn
            cases hxn
          · exact ⟨x, h, hxn⟩
        obtain ⟨d', hloop⟩ := ih (it + 1) d1 (a.set it (Json.string s)) hfind1
          (by rw [List.length_set]; omega) hnested1 hbad1
        refine ⟨d', ?_⟩
        unfold coerce_element_loop
        simp only [hidx, Json.size, hlt, if_true, hitem, Outcome.is_ok, Bool.not_true,
          Bool.false_eq_true, if_false]
        exact hloop
      | none =>
        rw [hg] at hitem
        refine ⟨d, ?_⟩
        unfold coerce_element_loop
        simp only [hidx, Json.size, hlt, if_true, hitem, Outcome.is_ok, Bool.not_false]
    · rw [List.drop_of_length_le (by omega)] at hbad
      obtain ⟨x, hx, _⟩ := hbad
      exact absurd hx (List.not_mem_nil x)

/-- C21, as amended: for a string[] field whose value is the JSON array `a`:
under COERCE_OR_DROP, the field optional and the unsigned integers of `a` below
2^63, `coerce_element` succeeds, the field then holds, element by element and in
order, the strings of `a` kept, each integer replaced by its decimal string,
each float by its printed form and each boolean by "true"/"false", every
element that cannot be coerced (null, array, object) removed, and every other
key is unchanged; under COERCE_OR_REJECT, when `a` has an element that cannot
be coerced and the field is not nested or no element of `a` is an array,
`coerce_element` fails with status 400 "Field `X` must be an array of
string.". -/
theorem coerce_element_string_array (su : StringUtils) (a_field : field) (document : Doc)
    (fallback_field_type : String) (a : List Json)
    (htype : a_field.type = field_types.STRING_ARRAY)
    (hfind : Doc.find document a_field.name = some (Json.array a)) :
    (a_field.optional = true → (∀ n, Json.number_unsigned n ∈ a → n < 2 ^ 63) →
      (coerce_element su a_field document fallback_field_type
        DIRTY_VALUES.COERCE_OR_DROP).1 = Outcome.ok 200 ∧
      Doc.find (coerce_element su a_field document fallback_field_type
        DIRTY_VALUES.COERCE_OR_DROP).2 a_field.name =
          some (Json.array (a.filterMap (string_of_element su))) ∧
      ∀ key, key ≠ a_field.name →
        Doc.find (coerce_element su a_field document fallback_field_type
          DIRTY_VALUES.COERCE_OR_DROP).2 key = Doc.find document key) ∧
    ((a_field.nested = true → ∀ x ∈ a, x.is_array = false) →
      (∃ x ∈ a, string_of_element su x = none) →
      (coerce_element su a_field document fallback_field_type
        DIRTY_VALUES.COERCE_OR_REJECT).1 =
          Outcome.error 400 ("Field `" ++ a_field.name ++ "` must be an array of string.")) := by
  have hidx : Doc.index document a_field.name = Json.array a := Doc.index_of_find _ _ _ hfind
  have hce : ∀ dv r, coerce_element_loop su a_field fallback_field_type dv a.length 0
      document = some r → coerce_element su a_field document fallback_field_type dv = r := by
    intro dv r hloop
    unfold coerce_element
    simp only [hidx, Json.size, hloop]
    simp [htype, field.is_array, Json.is_array]
  constructor
  · intro hopt hrange
    obtain ⟨d', hloop, hres, hframe⟩ := coerce_element_loop_string_coerce_or_drop su a_field
      fallback_field_type htype hopt a.length 0 document a hfind (by omega) hrange
    rw [hce _ _ hloop]
    refine ⟨rfl, ?_, hframe⟩
    rw [hres]
    simp
  · intro hnested hbad
    obtain ⟨d', hloop⟩ := coerce_element_loop_string_coerce_or_reject su a_field
      fallback_field_type htype a.length 0 document a hfind (by omega) hnested
      (by simpa using hbad)
    rw [hce _ _ hloop]

/-- Witness for C21 as amended: an optional string[] field under
COERCE_OR_DROP; the integer and the boolean become strings, null and the inner
array are removed. -/
theorem coerce_element_string_array_witness :
    coerce_element StringUtils.model ⟨"tags", field_types.STRING_ARRAY, true, false, 0⟩
        [("tags", Json.array [Json.string "a", Json.number_integer (-7), Json.null,
          Json.array [], Json.boolean true, Json.number_unsigned 3])] ""
        DIRTY_VALUES.COERCE_OR_DROP =
      (Outcome.ok 200, [("tags", Json.array [Json.string "a", Json.string "-7",
        Json.string "true", Json.string "3"])]) ∧
    Doc.find (coerce_element StringUtils.model
        ⟨"tags", field_types.STRING_ARRAY, true, false, 0⟩
        [("tags", Json.array [Json.string "a", Json.number_integer (-7), Json.null,
          Json.array [], Json.boolean true, Json.number_unsigned 3])] ""
        DIRTY_VALUES.COERCE_OR_DROP).2 "tags" =
      some (Json.array ([Json.string "a", Json.number_integer (-7), Json.null,
          Json.array [], Json.boolean true, Json.number_unsigned 3].filterMap
            (string_of_element StringUtils.model))) :=
  ⟨rfl, ((coerce_element_string_array StringUtils.model
    ⟨"tags", field_types.STRING_ARRAY, true, false, 0⟩
    [("tags", Json.array [Json.string "a", Json.number_integer (-7), Json.null,
      Json.array [], Json.boolean true, Json.number_unsigned 3])] ""
    [Json.string "a", Json.number_integer (-7), Json.null,
      Json.array [], Json.boolean true, Json.number_unsigned 3] rfl rfl).1 rfl
    (by
      intro n hn
      simp only [List.mem_cons, reduceCtorEq, List.mem_singleton, false_or, or_false,
        Json.number_unsigned.injEq, List.not_mem_nil] at hn
      omega)).2.1⟩

/-- Counterexample to C21 as stated: for a nested optional string[] field under
COERCE_OR_REJECT, an element that is an array does not fail with "must be an
array of string." but with the hint for fields inside an array of objects. -/
theorem string_array_nested_hint_counterexample :
    coerce_element StringUtils.model ⟨"tags", field_types.STRING_ARRAY, true, true, 0⟩
        [("tags", Json.array [Json.string "a", Json.array [Json.string "b"]])] ""
        DIRTY_VALUES.COERCE_OR_REJECT =
      (Outcome.error 400 "Field `tags` has an incorrect type. Hint: field inside an array of objects must be an array type as well.",
        [("tags", Json.array [Json.string "a", Json.array [Json.string "b"]])]) ∧
    string_of_element StringUtils.model (Json.array [Json.string "b"]) = none :=
  ⟨rfl, rfl⟩

/-! ## Coercion of the elements of an int32 array -/

/-- C22: the coercion of an element of an int32[] field.  Under
COERCE_OR_REJECT (and COERCE_OR_DROP) the array [1, true, 2.5] of an int32[]
field does not validate: after the boolean is replaced by 1 the range check of
`coerce_int32_t` reads `document[field_name].get<int64_t>()`, the whole array,
which throws `type_error` 302.  The same array in an int64[] field validates
and becomes [1, 1, 2]. -/
theorem coerce_int32_array_element_throws :
    validate_index_in_memory StringUtils.model
        [("nums", Json.array [Json.number_unsigned 1, Json.boolean true,
          Json.number_float ⟨5, -1⟩])] 0 ""
        [⟨"nums", field_types.INT32_ARRAY, false, false, 0⟩] index_operation_t.CREATE ""
        DIRTY_VALUES.COERCE_OR_REJECT =
      (Outcome.thrown "type_error.302",
        [("nums", Json.array [Json.number_unsigned 1, Json.number_integer 1,
          Json.number_float ⟨5, -1⟩])]) ∧
    validate_index_in_memory StringUtils.model
        [("nums", Json.array [Json.number_unsigned 1, Json.boolean true,
          Json.number_float ⟨5, -1⟩])] 0 ""
        [⟨"nums", field_types.INT32_ARRAY, false, false, 0⟩] index_operation_t.CREATE ""
        DIRTY_VALUES.COERCE_OR_DROP =
      (Outcome.thrown "type_error.302",
        [("nums", Json.array [Json.number_unsigned 1, Json.number_integer 1,
          Json.number_float ⟨5, -1⟩])]) ∧
    validate_index_in_memory StringUtils.model
        [("nums", Json.array [Json.number_unsigned 1, Json.boolean true,
          Json.number_float ⟨5, -1⟩])] 0 ""
        [⟨"nums", field_types.INT64_ARRAY, false, false, 0⟩] index_operation_t.CREATE ""
        DIRTY_VALUES.COERCE_OR_REJECT =
      (Outcome.ok 200,
        [("nums", Json.array [Json.number_unsigned 1, Json.number_integer 1,
          Json.number_integer 2])]) :=
  ⟨rfl, rfl, rfl⟩

/-! ## The form of every returned result -/

theorem begins_with_field_intro (name lit : String) (h : lit.data.head? = some '`') :
    begins_with_field name ("Field `" ++ name ++ lit) = true := by
  unfold begins_with_field
  rw [List.isPrefixOf_iff_prefix]
  simp only [String.data_append, List.append_assoc, List.prefix_append_right_inj]
  obtain ⟨cs, hcs⟩ : ∃ cs, lit.data = '`' :: cs := by
    cases hl : lit.data with
    | nil => rw [hl] at h; cases h
    | cons c cs =>
      rw [hl] at h
      simp only [List.head?_cons, Option.some.injEq] at h
      exact ⟨cs, by rw [h]⟩
  rw [hcs]
  exact ⟨cs, rfl⟩

theorem begins_with_field_append (name msg rest : String)
    (h : begins_with_field name msg = true) :
    begins_with_field name (msg ++ rest) = true := by
  unfold begins_with_field at h ⊢
  rw [List.isPrefixOf_iff_prefix] at h ⊢
  rw [String.data_append]
  exact h.trans (List.prefix_append _ _)

theorem documented_error (name msg : String) (h : begins_with_field name msg = true) :
    Outcome.documented name (Outcome.error 400 msg) = true := by
  simp [Outcome.documented, h]

theorem documented_error_lit (name lit : String) (h : lit.data.head? = some '`') :
    Outcome.documented name (Outcome.error 400 ("Field `" ++ name ++ lit)) = true :=
  documented_error _ _ (begins_with_field_intro name lit h)

theorem documented_error_must_be (name suffix tail : String) :
    Outcome.documented name
      (Outcome.error 400 ("Field `" ++ name ++ "` must be " ++ suffix ++ tail)) = true :=
  documented_error _ _ (begins_with_field_append _ _ _ (begins_with_field_append _ _ _
    (begins_with_field_intro name _ (by decide))))

theorem coerce_string_documented (su : StringUtils) (dv : DIRTY_VALUES) (fb : String)
    (f : field) (d : Doc) (k : String) (it : Nat) (arr e : Bool) :
    Outcome.documented k (coerce_string su dv fb f d k it arr e).1 = true := by
  unfold coerce_string
  dsimp only
  repeat' split
  all_goals first
    | rfl
    | exact documented_error_must_be _ _ _
    | exact documented_error_lit _ _ (by decide)

theorem coerce_int32_t_range_documented (dv : DIRTY_VALUES) (f : field) (d : Doc)
    (k : String) (e : Bool) :
    Outcome.documented k (coerce_int32_t_range dv f d k e).1 = true := by
  unfold coerce_int32_t_range
  repeat' split
  all_goals first
    | rfl
    | exact documented_error_lit _ _ (by decide)

theorem coerce_int32_t_documented (su : StringUtils) (dv : DIRTY_VALUES)
    (f : field) (d : Doc) (k : String) (it : Nat) (arr e : Bool) :
    Outcome.documented k (coerce_int32_t su dv f d k it arr e).1 = true := by
  unfold coerce_int32_t
  dsimp only
  repeat' split
  all_goals first
    | rfl
    | exact documented_error_must_be _ _ _
    | exact coerce_int32_t_range_documented _ _ _ _ _

theorem coerce_int64_t_documented (su : StringUtils) (dv : DIRTY_VALUES)
    (f : field) (d : Doc) (k : String) (it : Nat) (arr e : Bool) :
    Outcome.documented k (coerce_int64_t su dv f d k it arr e).1 = true := by
  unfold coerce_int64_t
  dsimp only
  repeat' split
  all_goals first
    | rfl
    | exact documented_error_must_be _ _ _

theorem coerce_bool_documented (su : StringUtils) (dv : DIRTY_VALUES)
    (f : field) (d : Doc) (k : String) (it : Nat) (arr e : Bool) :
    Outcome.documented k (coerce_bool su dv f d k it arr e).1 = true := by
  unfold coerce_bool
  dsimp only
  repeat' split
  all_goals first
    | rfl
    | exact documented_error_must_be _ _ _

theorem coerce_float_documented (su : StringUtils) (dv : DIRTY_VALUES)
    (f : field) (d : Doc) (k : String) (it : Nat) (arr e : Bool) :
    Outcome.documented k (coerce_float su dv f d k it arr e).1 = true := by
  unfold coerce_float
  dsimp only
  repeat' split
  all_goals first
    | rfl
    | exact documented_error_must_be _ _ _

theorem coerce_geopoint_documented (su : StringUtils) (dv : DIRTY_VALUES)
    (f : field) (d : Doc) (k : String) (it : Nat) (arr e : Bool) :
    Outcome.documented k (coerce_geopoint su dv f d k it arr e).1 = true := by
  unfold coerce_geopoint
  dsimp only
  repeat' split
  all_goals first
    | rfl
    | exact documented_error_must_be _ _ _

theorem return_or_200_documented (name : String) (r : Outcome × Doc × Bool)
    (h : Outcome.documented name r.1 = true) :
    Outcome.documented name (return_or_200 r).1 = true := by
  unfold return_or_200
  split
  · exact h
  · rfl

theorem coerce_element_item_documented (su : StringUtils) (f : field) (d : Doc) (fb : String)
    (dv : DIRTY_VALUES) (it : Nat) :
    Outcome.documented f.name (coerce_element_item su f d fb dv it).1 = true := by
  unfold coerce_element_item
  dsimp only
  split
  · exact coerce_string_documented _ _ _ _ _ _ _ _ _
  split
  · exact coerce_int32_t_documented _ _ _ _ _ _ _ _
  split
  · exact coerce_int64_t_documented _ _ _ _ _ _ _ _
  split
  · exact coerce_float_documented _ _ _ _ _ _ _ _
  split
  · exact coerce_bool_documented _ _ _ _ _ _ _ _
  split
  · split
    · exact documented_error_lit _ _ (by decide)
    split
    · exact coerce_geopoint_documented _ _ _ _ _ _ _ _
    · rfl
  · rfl

theorem coerce_element_loop_documented (su : StringUtils) (f : field) (fb : String)
    (dv : DIRTY_VALUES) :
    ∀ (fuel it : Nat) (d : Doc) (r : Outcome × Doc),
      coerce_element_loop su f fb dv fuel it d = some r →
      Outcome.documented f.name r.1 = true := by
  intro fuel
  induction fuel with
  | zero =>
    intro it d r h
    unfold coerce_element_loop at h
    split at h
    · cases h
    · cases h
      rfl
  | succ n ih =>
    intro it d r h
    unfold coerce_element_loop at h
    split at h
    · dsimp only at h
      split at h
      · cases h
        exact coerce_element_item_documented su f d fb dv it
      · exact ih _ _ r h
    · cases h
      rfl

theorem coerce_element_documented (su : StringUtils) (f : field) (d : Doc) (fb : String)
    (dv : DIRTY_VALUES) :
    Outcome.documented f.name (coerce_element su f d fb dv).1 = true := by
  apply coerce_element_elim su f d fb dv (fun r => Outcome.documented f.name r.1 = true)
  · intro _ _
    exact return_or_200_documented _ _ (coerce_string_documented _ _ _ _ _ _ _ _ _)
  · intro _ _
    exact return_or_200_documented _ _ (coerce_int32_t_documented _ _ _ _ _ _ _ _)
  · intro _ _
    exact return_or_200_documented _ _ (coerce_int64_t_documented _ _ _ _ _ _ _ _)
  · intro _ _
    exact return_or_200_documented _ _ (coerce_float_documented _ _ _ _ _ _ _ _)
  · intro _ _
    exact return_or_200_documented _ _ (coerce_bool_documented _ _ _ _ _ _ _ _)
  · intro _ _
    exact documented_error_lit _ _ (by decide)
  · intro _ _ _ _
    exact return_or_200_documented _ _ (coerce_geopoint_documented _ _ _ _ _ _ _ _)
  · intro _ _ _
    rfl
  · intro _ _ _
    exact documented_error_lit _ _ (by decide)
  · intro _ _ _ _
    rfl
  · intro _ _ _ _ _ _
    exact return_or_200_documented _ _ (coerce_geopoint_documented _ _ _ _ _ _ _ _)
  · intro _ _ _
    cases hl : coerce_element_loop su f fb dv (Doc.index d f.name).size 0 d with
    | none => rfl
    | some r => exact coerce_element_loop_documented su f fb dv _ _ _ r hl
  · intros
    rfl

theorem validate_fields_documented (su : StringUtils) (op : index_operation_t) (fb : String)
    (dv : DIRTY_VALUES) :
    ∀ (fields : List field) (d : Doc),
      (validate_fields su op fb dv fields d).1 = Outcome.ok 200 ∨
      (validate_fields su op fb dv fields d).1.is_ok = false ∧
        ∃ f ∈ fields, Outcome.documented f.name (validate_fields su op fb dv fields d).1 = true := by
  intro fields
  induction fields with
  | nil => intro d; exact Or.inl rfl
  | cons f rest ih =>
    intro d
    rcases validate_fields_step su op fb dv f d with ⟨r, hr0, hr1, hr⟩ | ⟨d', _, hcont⟩
    · right
      rw [hr rest]
      refine ⟨hr0, f, List.mem_cons_self f rest, ?_⟩
      rcases hr1 with h | ⟨h, _⟩
      · rw [h]
        exact documented_error_lit _ _ (by decide)
      · rw [h]
        exact coerce_element_documented su f d fb dv
    · rw [hcont rest]
      rcases ih d' with h | ⟨h0, g, hg, h⟩
      · exact Or.inl h
      · exact Or.inr ⟨h0, g, List.mem_cons_of_mem f hg, h⟩

theorem documented_error_iff (name : String) (code : Nat) (msg : String) :
    Outcome.documented name (Outcome.error code msg) = true ↔
      code = 400 ∧ begins_with_field name msg = true := by
  simp [Outcome.documented]

/-- C23: every failure returned by `validate_index_in_memory` carries status
400 and a message that begins with "Field `name`", `name` being the default
sorting field or the name of a schema field, and every success carries 200; the
same holds for `coerce_element` with the name of its field and for each of the
six coercers with the field name it is given. -/
theorem validation_results_documented (su : StringUtils) :
    (∀ (document : Doc) (seq_id : Nat) (default_sorting_field : String)
        (search_schema : List field) (op : index_operation_t) (fallback_field_type : String)
        (dirty_values : DIRTY_VALUES),
      (∀ v, (validate_index_in_memory su document seq_id default_sorting_field search_schema
          op fallback_field_type dirty_values).1 = Outcome.ok v → v = 200) ∧
      (∀ code msg, (validate_index_in_memory su document seq_id default_sorting_field
          search_schema op fallback_field_type dirty_values).1 = Outcome.error code msg →
        code = 400 ∧ (begins_with_field default_sorting_field msg = true ∨
          ∃ f ∈ search_schema, begins_with_field f.name msg = true))) ∧
    (∀ (a_field : field) (document : Doc) (fallback_field_type : String)
        (dirty_values : DIRTY_VALUES),
      (∀ v, (coerce_element su a_field document fallback_field_type dirty_values).1 =
          Outcome.ok v → v = 200) ∧
      (∀ code msg, (coerce_element su a_field document fallback_field_type dirty_values).1 =
          Outcome.error code msg →
        code = 400 ∧ begins_with_field a_field.name msg = true)) ∧
    (∀ (dirty_values : DIRTY_VALUES) (fallback_field_type : String) (a_field : field)
        (document : Doc) (field_name : String) (array_iter : Nat)
        (is_array array_ele_erased : Bool),
      Outcome.documented field_name (coerce_string su dirty_values fallback_field_type a_field
        document field_name array_iter is_array array_ele_erased).1 = true ∧
      Outcome.documented field_name (coerce_int32_t su dirty_values a_field
        document field_name array_iter is_array array_ele_erased).1 = true ∧
      Outcome.documented field_name (coerce_int64_t su dirty_values a_field
        document field_name array_iter is_array array_ele_erased).1 = true ∧
      Outcome.documented field_name (coerce_float su dirty_values a_field
        document field_name array_iter is_array array_ele_erased).1 = true ∧
      Outcome.documented field_name (coerce_bool su dirty_values a_field
        document field_name array_iter is_array array_ele_erased).1 = true ∧
      Outcome.documented field_name (coerce_geopoint su dirty_values a_field
        document field_name array_iter is_array array_ele_erased).1 = true) := by
  refine ⟨?_, ?_, ?_⟩
  · intro document seq_id dsf schema op fb dv
    unfold validate_index_in_memory
    dsimp only
    split
    · constructor
      · intro v hv
        cases hv
      · intro code msg h
        have hd : Outcome.documented dsf (Outcome.error code msg) = true := by
          rw [← h]
          exact documented_error_lit _ _ (by decide)
        exact ⟨((documented_error_iff _ _ _).mp hd).1,
          Or.inl ((documented_error_iff _ _ _).mp hd).2⟩
    · rcases validate_fields_documented su op fb dv schema document with h | ⟨h0, f, hf, h⟩
      · rw [h]
        constructor
        · intro v hv
          cases hv
          rfl
        · intro code msg hm
          cases hm
      · constructor
        · intro v hv
          rw [hv] at h0
          cases h0
        · intro code msg hm
          rw [hm] at h
          exact ⟨((documented_error_iff _ _ _).mp h).1,
            Or.inr ⟨f, hf, ((documented_error_iff _ _ _).mp h).2⟩⟩
  · intro f d fb dv
    have h := coerce_element_documented su f d fb dv
    constructor
    · intro v hv
      rw [hv] at h
      simpa [Outcome.documented] using h
    · intro code msg hm
      rw [hm] at h
      exact (documented_error_iff _ _ _).mp h
  · intro dv fb f d k it arr e
    exact ⟨coerce_string_documented _ _ _ _ _ _ _ _ _, coerce_int32_t_documented _ _ _ _ _ _ _ _,
      coerce_int64_t_documented _ _ _ _ _ _ _ _, coerce_float_documented _ _ _ _ _ _ _ _,
      coerce_bool_documented _ _ _ _ _ _ _ _, coerce_geopoint_documented _ _ _ _ _ _ _ _⟩

/-! ## Validation of a document that already has the declared shapes -/

/-- The loop body leaves an element of the declared shape as it is. -/
theorem coerce_element_item_of_shape (su : StringUtils) (f : field) (d : Doc) (fb : String)
    (dv : DIRTY_VALUES) (it : Nat) (a : List Json) (t : field_types)
    (hfind : Doc.find d f.name = some (Json.array a))
    (ht : element_type f.type = some t)
    (hshape : scalar_shape t (a.getD it Json.null) = true) :
    coerce_element_item su f d fb dv it = (Outcome.ok 200, d, false) := by
  have hidx : Doc.index d f.name = Json.array a := Doc.index_of_find _ _ _ hfind
  obtain ⟨x, hx⟩ : ∃ x, a.getD it Json.null = x := ⟨_, rfl⟩
  rw [hx] at hshape
  unfold coerce_element_item
  simp only [hidx, Json.elems_array, hx]
  cases hty : f.type <;> rw [hty] at ht <;> simp only [element_type, reduceCtorEq] at ht <;>
    simp only [Option.some.injEq] at ht <;> subst ht <;>
    simp only [scalar_shape] at hshape
  case STRING_ARRAY => simp [hshape]
  case INT32_ARRAY => simp [hshape]
  case INT64_ARRAY => simp [hshape]
  case FLOAT_ARRAY => simp [hshape]
  case BOOL_ARRAY => simp [hshape]
  case GEOPOINT_ARRAY =>
    unfold is_geopoint_value at hshape
    split at hshape
    · rename_i lat lng
      simp only [Bool.and_eq_true] at hshape
      simp [Json.is_array, Json.size, Json.elems, hshape.1, hshape.2]
    · cases hshape

/-- The element loop leaves an array of the declared shape as it is. -/
theorem coerce_element_loop_of_shape (su : StringUtils) (f : field) (fb : String)
    (dv : DIRTY_VALUES) (d : Doc) (a : List Json) (t : field_types)
    (hfind : Doc.find d f.name = some (Json.array a))
    (ht : element_type f.type = some t)
    (hshape : ∀ x ∈ a, scalar_shape t x = true) :
    ∀ (fuel it : Nat), a.length ≤ it + fuel →
      coerce_element_loop su f fb dv fuel it d = some (Outcome.ok 200, d) := by
  have hidx : Doc.index d f.name = Json.array a := Doc.index_of_find _ _ _ hfind
  intro fuel
  induction fuel with
  | zero =>
    intro it hlen
    have hnot : ¬ it < a.length := by omega
    unfold coerce_element_loop
    simp only [hidx, Json.size]
    simp [hnot]
  | succ n ih =>
    intro it hlen
    by_cases hlt : it < a.length
    · have hmem : a.getD it Json.null ∈ a := by
        rw [List.getD_eq_getElem a Json.null hlt]
        exact List.getElem_mem _
      have hitem := coerce_element_item_of_shape su f d fb dv it a t hfind ht
        (hshape _ hmem)
      unfold coerce_element_loop
      simp only [hidx, Json.size, hlt, if_true, hitem, Outcome.is_ok, Bool.not_true,
        Bool.false_eq_true, if_false]
      exact ih (it + 1) (by omega)
    · unfold coerce_element_loop
      simp only [hidx, Json.size]
      simp [hlt]

/-- A field that holds a value of its declared shape passes `coerce_element`
unchanged (nested geopoint[] fields apart). -/
theorem coerce_element_of_shape (su : StringUtils) (f : field) (d : Doc) (fb : String)
    (dv : DIRTY_VALUES) (v : Json) (hfind : Doc.find d f.name = some v)
    (hnest : f.type = field_types.GEOPOINT_ARRAY → f.nested = false)
    (hshape : has_declared_shape f.type v = true) :
    coerce_element su f d fb dv = (Outcome.ok 200, d) := by
  have hidx : Doc.index d f.name = v := Doc.index_of_find _ _ _ hfind
  unfold has_declared_shape at hshape
  cases ht : element_type f.type with
  | none =>
    rw [ht] at hshape
    simp only [] at hshape
    unfold coerce_element
    simp only [hidx]
    cases hty : f.type <;> rw [hty] at ht hshape <;> simp only [element_type, reduceCtorEq] at ht <;>
      simp only [scalar_shape, Bool.false_eq_true] at hshape
    case STRING => simp [hshape, hty, field.is_array]
    case INT32 => simp [hshape, hty, field.is_array]
    case INT64 => simp [hshape, hty, field.is_array]
    case FLOAT => simp [hshape, hty, field.is_array]
    case BOOL => simp [hshape, hty, field.is_array]
    case GEOPOINT =>
      unfold is_geopoint_value at hshape
      split at hshape
      · rename_i lat lng
        simp only [Bool.and_eq_true] at hshape
        simp [Json.is_array, Json.size, Json.elems, hshape.1, hshape.2, hty, field.is_array]
      · cases hshape
  | some t =>
    rw [ht] at hshape
    simp only [Bool.and_eq_true, List.all_eq_true] at hshape
    obtain ⟨harr, hall⟩ := hshape
    obtain ⟨a, ha⟩ : ∃ a, v = Json.array a := by
      cases v <;> simp only [Json.is_array, Bool.false_eq_true] at harr
      exact ⟨_, rfl⟩
    subst ha
    have hloop := coerce_element_loop_of_shape su f fb dv d a t hfind ht
      (fun x hx => hall x (by simpa [Json.elems] using hx)) a.length 0 (by omega)
    unfold coerce_element
    simp only [hidx, Json.size, hloop]
    cases hty : f.type <;> rw [hty] at ht <;> simp only [element_type, reduceCtorEq] at ht <;>
      first
        | (simp [field.is_array, hty, Json.is_array]; done)
        | simp [field.is_array, hty, Json.is_array, hnest hty]

theorem has_declared_shape_not_null (t : field_types) (w : Json)
    (h : has_declared_shape t w = true) : w.is_null = false := by
  cases w <;> first
    | rfl
    | (exfalso
       unfold has_declared_shape at h
       cases t <;> simp [element_type, scalar_shape, Json.is_array, Json.is_string,
         Json.is_number_integer, Json.is_number, Json.is_number_float, Json.is_boolean,
         is_geopoint_value] at h)

/-- After a successful validation against a schema of distinctly named fields,
none of them a nested geopoint[], every field is in a state that a second
validation passes over: skipped, absent and not required, an explicit null kept
for an update, or a value of the declared shape. -/
theorem validate_fields_settled (su : StringUtils) (op : index_operation_t) (fb : String)
    (dv : DIRTY_VALUES) :
    ∀ (fields : List field) (d : Doc), (fields.map field.name).Nodup →
      (∀ f ∈ fields, f.type = field_types.GEOPOINT_ARRAY → f.nested = false) →
      (validate_fields su op fb dv fields d).1.is_ok = true →
      ∀ f ∈ fields,
        f.name = "id" ∨ f.is_object = true ∨
        (Doc.find (validate_fields su op fb dv fields d).2 f.name = none ∧
          (f.optional = true ∨ op = index_operation_t.UPDATE ∨
            op = index_operation_t.EMPLACE)) ∨
        (Doc.find (validate_fields su op fb dv fields d).2 f.name = some Json.null ∧
          f.optional = true ∧
          (op = index_operation_t.UPDATE ∨ op = index_operation_t.EMPLACE)) ∨
        ∃ w, Doc.find (validate_fields su op fb dv fields d).2 f.name = some w ∧
          has_declared_shape f.type w = true := by
  intro fields
  induction fields with
  | nil =>
    intro d _ _ _ f hf
    exact absurd hf (List.not_mem_nil f)
  | cons f0 rest ih =>
    intro d hnodup hnest hok f hf
    rw [List.map_cons, List.nodup_cons] at hnodup
    obtain ⟨hnotin, hnodup'⟩ := hnodup
    have hnest' : ∀ g ∈ rest, g.type = field_types.GEOPOINT_ARRAY → g.nested = false :=
      fun g hg => hnest g (List.mem_cons_of_mem f0 hg)
    rcases validate_fields_step su op fb dv f0 d with ⟨r, hr0, _, hr⟩ | ⟨d', hd', hcont⟩
    · rw [hr, hr0] at hok
      cases hok
    · rw [hcont] at hok ⊢
      rcases List.mem_cons.mp hf with hf | hf
      · subst hf
        have hframe : Doc.find (validate_fields su op fb dv rest d').2 f.name =
            Doc.find d' f.name := by
          apply validate_fields_frame
          intro g hg e
          exact hnotin (List.mem_map.mpr ⟨g, hg, e⟩)
        rw [hframe]
        rcases hd' with ⟨h, hwhy⟩ | ⟨h, hopt, _⟩ | ⟨h, hp, hcok, _, hobj⟩
        · rw [h]
          rcases hwhy with h1 | h1 | h1 | h1
          · exact Or.inl h1
          · exact Or.inr (Or.inl h1)
          · exact Or.inr (Or.inr (Or.inl h1))
          · exact Or.inr (Or.inr (Or.inr (Or.inl h1)))
        · rw [h]
          exact Or.inr (Or.inr (Or.inl ⟨Doc.find_erase_self _ _, Or.inl hopt⟩))
        · rw [h]
          obtain ⟨v, hv⟩ := Option.ne_none_iff_exists'.mp hp
          rcases coerce_element_post su f d fb dv v hv
            (hnest f (List.mem_cons_self f rest)) hobj hcok with ⟨h1, h2⟩ | h1
          · exact Or.inr (Or.inr (Or.inl ⟨h1, Or.inl h2⟩))
          · exact Or.inr (Or.inr (Or.inr (Or.inr h1)))
      · exact ih d' hnodup' hnest' hok f hf

/-- A document whose fields are all settled passes validation unchanged. -/
theorem validate_fields_of_settled (su : StringUtils) (op : index_operation_t) (fb : String)
    (dv : DIRTY_VALUES) (d : Doc) :
    ∀ (fields : List field),
      (∀ f ∈ fields, f.type = field_types.GEOPOINT_ARRAY → f.nested = false) →
      (∀ f ∈ fields,
        f.name = "id" ∨ f.is_object = true ∨
        (Doc.find d f.name = none ∧
          (f.optional = true ∨ op = index_operation_t.UPDATE ∨
            op = index_operation_t.EMPLACE)) ∨
        (Doc.find d f.name = some Json.null ∧ f.optional = true ∧
          (op = index_operation_t.UPDATE ∨ op = index_operation_t.EMPLACE)) ∨
        ∃ w, Doc.find d f.name = some w ∧ has_declared_shape f.type w = true) →
      validate_fields su op fb dv fields d = (Outcome.ok 200, d) := by
  intro fields
  induction fields with
  | nil => intro _ _; rfl
  | cons f rest ih =>
    intro hnest hall
    have hrest := ih (fun g hg => hnest g (List.mem_cons_of_mem f hg))
      (fun g hg => hall g (List.mem_cons_of_mem f hg))
    by_cases hid : f.name = "id"
    · rw [validate_fields_skip su op fb dv f rest d (Or.inl hid)]
      exact hrest
    by_cases hobj : f.is_object = true
    · rw [validate_fields_skip su op fb dv f rest d (Or.inr hobj)]
      exact hrest
    have hobj' : f.is_object = false := by simpa using hobj
    rcases hall f (List.mem_cons_self f rest) with h | h | ⟨h1, h2⟩ | ⟨h1, h2, h3⟩ | ⟨w, hw, hs⟩
    · exact absurd h hid
    · exact absurd h hobj
    · rw [validate_fields_absent_skip su op fb dv f rest d h1 h2]
      exact hrest
    · rw [validate_fields_null su op fb dv f rest d hid hobj' h1 h2, if_neg]
      · exact hrest
      · intro hc
        rcases h3 with h3 | h3
        · exact hc.1 h3
        · exact hc.2 h3
    · rw [validate_fields_coerce su op fb dv f rest d w hid hobj' hw
        (Or.inr (has_declared_shape_not_null _ _ hs)),
        coerce_element_of_shape su f d fb dv w hw
          (hnest f (List.mem_cons_self f rest)) hs]
      simp only [Outcome.is_ok, if_true]
      exact hrest

/-- A key that no optional schema field names is still present after a
successful validation. -/
theorem validate_fields_keeps (su : StringUtils) (op : index_operation_t) (fb : String)
    (dv : DIRTY_VALUES) (key : String) :
    ∀ (fields : List field) (d : Doc),
      (∀ f ∈ fields, f.type = field_types.GEOPOINT_ARRAY → f.nested = false) →
      (∀ f ∈ fields, f.name = key → f.optional = false) →
      Doc.find d key ≠ none →
      (validate_fields su op fb dv fields d).1.is_ok = true →
      Doc.find (validate_fields su op fb dv fields d).2 key ≠ none := by
  intro fields
  induction fields with
  | nil => intro d _ _ h _; exact h
  | cons f rest ih =>
    intro d hnest hreq hpres hok
    have hnest' : ∀ g ∈ rest, g.type = field_types.GEOPOINT_ARRAY → g.nested = false :=
      fun g hg => hnest g (List.mem_cons_of_mem f hg)
    have hreq' : ∀ g ∈ rest, g.name = key → g.optional = false :=
      fun g hg => hreq g (List.mem_cons_of_mem f hg)
    rcases validate_fields_step su op fb dv f d with ⟨r, hr0, _, hr⟩ | ⟨d', hd', hcont⟩
    · rw [hr, hr0] at hok
      cases hok
    · rw [hcont] at hok ⊢
      apply ih d' hnest' hreq' _ hok
      rcases hd' with ⟨h, _⟩ | ⟨h, hopt, _⟩ | ⟨h, hp, hcok, _, hobj⟩
      · rw [h]
        exact hpres
      · rw [h]
        have hne : key ≠ f.name := by
          intro e
          have := hreq f (List.mem_cons_self f rest) e.symm
          rw [hopt] at this
          cases this
        rw [Doc.find_erase_ne d f.name key hne]
        exact hpres
      · rw [h]
        by_cases hk : key = f.name
        · obtain ⟨v, hv⟩ := Option.ne_none_iff_exists'.mp hp
          rcases coerce_element_post su f d fb dv v hv
            (hnest f (List.mem_cons_self f rest)) hobj hcok with ⟨_, h2⟩ | ⟨w, hw, _⟩
          · have := hreq f (List.mem_cons_self f rest) hk.symm
            rw [h2] at this
            cases this
          · rw [hk, hw]
            simp
        · rw [coerce_element_frame su f d fb dv key hk]
          exact hpres

/-- C30, as amended: for a schema of distinctly named fields, none of them a
nested geopoint[], in which the default sorting field does not name an
optional field, and for every document, operation and dirty-values policy, if
`validate_index_in_memory` succeeds and leaves document `result`, then running
it again on `result` with the same arguments also succeeds and leaves `result`
unchanged. -/
theorem validate_idempotent (su : StringUtils) (document : Doc) (seq_id : Nat)
    (default_sorting_field : String) (search_schema : List field) (op : index_operation_t)
    (fallback_field_type : String) (dirty_values : DIRTY_VALUES) (value : Nat)
    (result : Doc)
    (hnames : (search_schema.map field.name).Nodup)
    (hnest : ∀ f ∈ search_schema, f.type = field_types.GEOPOINT_ARRAY → f.nested = false)
    (hsort : ∀ f ∈ search_schema, f.name = default_sorting_field → f.optional = false)
    (hres : validate_index_in_memory su document seq_id default_sorting_field search_schema
      op fallback_field_type dirty_values = (Outcome.ok value, result)) :
    validate_index_in_memory su result seq_id default_sorting_field search_schema
      op fallback_field_type dirty_values = (Outcome.ok 200, result) := by
  unfold validate_index_in_memory at hres
  dsimp only at hres
  split at hres
  · cases hres
  · rename_i hgate
    have hok : (validate_fields su op fallback_field_type dirty_values search_schema
        document).1.is_ok = true := by
      rw [hres]
      rfl
    have hsettled := validate_fields_settled su op fallback_field_type dirty_values
      search_schema document hnames hnest hok
    rw [hres] at hsettled
    have hsecond := validate_fields_of_settled su op fallback_field_type dirty_values result
      search_schema hnest hsettled
    unfold validate_index_in_memory
    dsimp only
    rw [hsecond]
    apply if_neg
    intro hgate2
    apply hgate
    simp only [Bool.and_eq_true, decide_eq_true_eq] at hgate2 ⊢
    refine ⟨hgate2.1, hgate2.2.1, ?_⟩
    by_contra hcount
    have hpres : Doc.find document default_sorting_field ≠ none := by
      intro hnone
      apply hcount
      simp [Doc.count, Doc.contains, hnone]
    have hkeep := validate_fields_keeps su op fallback_field_type dirty_values
      default_sorting_field search_schema document hnest hsort hpres hok
    rw [hres] at hkeep
    obtain ⟨w, hw⟩ := Option.ne_none_iff_exists'.mp hkeep
    have : Doc.count result default_sorting_field = 1 := by
      simp [Doc.count, Doc.contains, hw]
    rw [this] at hgate2
    exact absurd hgate2.2.2 (by decide)

/-- Witness for C30 as amended: a CREATE under COERCE_OR_DROP with default
sorting field `qty`; the first validation coerces "12" and drops the null of
the optional field, the second leaves its result as it is. -/
theorem validate_idempotent_witness :
    validate_index_in_memory StringUtils.model
        [("qty", Json.string "12"), ("note", Json.null)] 0 "qty"
        [⟨"qty", field_types.INT32, false, false, 0⟩,
          ⟨"note", field_types.STRING, true, false, 0⟩]
        index_operation_t.CREATE "" DIRTY_VALUES.COERCE_OR_DROP =
      (Outcome.ok 200, [("qty", Json.number_integer 12)]) ∧
    validate_index_in_memory StringUtils.model [("qty", Json.number_integer 12)] 0 "qty"
        [⟨"qty", field_types.INT32, false, false, 0⟩,
          ⟨"note", field_types.STRING, true, false, 0⟩]
        index_operation_t.CREATE "" DIRTY_VALUES.COERCE_OR_DROP =
      (Outcome.ok 200, [("qty", Json.number_integer 12)]) :=
  ⟨rfl, validate_idempotent StringUtils.model
    [("qty", Json.string "12"), ("note", Json.null)] 0 "qty"
    [⟨"qty", field_types.INT32, false, false, 0⟩,
      ⟨"note", field_types.STRING, true, false, 0⟩]
    index_operation_t.CREATE "" DIRTY_VALUES.COERCE_OR_DROP 200
    [("qty", Json.number_integer 12)] (by decide) (by decide) (by decide) rfl⟩

/-- A nested geopoint[] field given [1.5, "abc"] under DROP: `coerce_geopoint`
is called in array mode on the first coordinate and erases it; the validation
succeeds, and the value it leaves is rejected by a second validation. -/
theorem nested_geopoint_array_second_validation :
    validate_index_in_memory StringUtils.model
        [("loc", Json.array [Json.number_float ⟨3, -1⟩, Json.string "abc"])] 0 ""
        [⟨"loc", field_types.GEOPOINT_ARRAY, true, true, 0⟩]
        index_operation_t.CREATE "" DIRTY_VALUES.DROP =
      (Outcome.ok 200, [("loc", Json.array [Json.string "abc"])]) ∧
    validate_index_in_memory StringUtils.model
        [("loc", Json.array [Json.string "abc"])] 0 ""
        [⟨"loc", field_types.GEOPOINT_ARRAY, true, true, 0⟩]
        index_operation_t.CREATE "" DIRTY_VALUES.DROP =
      (Outcome.error 400 "Field `loc` must contain 2 element arrays: [ [lat, lng],... ].",
        [("loc", Json.array [Json.string "abc"])]) :=
  ⟨rfl, rfl⟩

/-- Counterexample to C30 as stated: the default sorting field `points` is an
optional int32 field; under DROP the first CREATE erases the mismatching value
and succeeds with the empty document, and the second validation of that
document fails because the default sorting field is missing. -/
theorem validate_not_idempotent_counterexample :
    validate_index_in_memory StringUtils.model [("points", Json.string "abc")] 0 "points"
        [⟨"points", field_types.INT32, true, false, 0⟩]
        index_operation_t.CREATE "" DIRTY_VALUES.DROP = (Outcome.ok 200, []) ∧
    validate_index_in_memory StringUtils.model [] 0 "points"
        [⟨"points", field_types.INT32, true, false, 0⟩]
        index_operation_t.CREATE "" DIRTY_VALUES.DROP =
      (Outcome.error 400
        "Field `points` has been declared as a default sorting field, but is not found in the document.",
        []) :=
  ⟨rfl, rfl⟩

/-! ## Vector fields of the wrong length -/

/-- C24: a float[] vector field declared with `num_dim = N` that holds an array
of numbers whose length differs from N passes the coercion engine unchanged
under every dirty-values policy and is rejected by the array-length validation
with "Field `X` must have N dimensions."; a document validated against the
schema of that one field is rejected with that message. -/
theorem vector_field_wrong_length (su : StringUtils) (a_field : field) (document : Doc)
    (seq_id : Nat) (op : index_operation_t) (fallback_field_type : String)
    (dirty_values : DIRTY_VALUES) (a : List Json)
    (htype : a_field.type = field_types.FLOAT_ARRAY)
    (hid : a_field.name ≠ "id") (hdim : 0 < a_field.num_dim)
    (hfind : Doc.find document a_field.name = some (Json.array a))
    (hnum : ∀ x ∈ a, x.is_number = true) (hlen : a.length ≠ a_field.num_dim) :
    coerce_element su a_field document fallback_field_type dirty_values =
      (Outcome.ok 200, document) ∧
    validate_num_dim a_field document =
      Outcome.error 400 ("Field `" ++ a_field.name ++ "` must have " ++
        toString a_field.num_dim ++ " dimensions.") ∧
    validate_document su document seq_id "" [a_field] op fallback_field_type dirty_values =
      (Outcome.error 400 ("Field `" ++ a_field.name ++ "` must have " ++
        toString a_field.num_dim ++ " dimensions."), document) := by
  have hshape : has_declared_shape a_field.type (Json.array a) = true := by
    rw [htype]
    simp only [has_declared_shape, element_type, Json.is_array, Json.elems, Bool.true_and,
      List.all_eq_true]
    exact fun x hx => hnum x hx
  have hce := coerce_element_of_shape su a_field document fallback_field_type dirty_values
    (Json.array a) hfind (fun h => by rw [htype] at h; cases h) hshape
  have hdimcheck : validate_num_dim a_field document =
      Outcome.error 400 ("Field `" ++ a_field.name ++ "` must have " ++
        toString a_field.num_dim ++ " dimensions.") := by
    unfold validate_num_dim
    rw [if_neg (by omega), hfind]
    simp only []
    rw [if_pos hlen]
  have hobj : a_field.is_object = false := by simp [field.is_object, htype]
  have hvalid : validate_index_in_memory su document seq_id "" [a_field] op
      fallback_field_type dirty_values = (Outcome.ok 200, document) := by
    unfold validate_index_in_memory
    simp only [ne_eq, not_true_eq_false, decide_False, Bool.false_and, Bool.and_false,
      Bool.false_eq_true, if_false]
    rw [validate_fields_coerce su op fallback_field_type dirty_values a_field [] document
      (Json.array a) hid hobj hfind (Or.inr rfl), hce]
    rfl
  refine ⟨hce, hdimcheck, ?_⟩
  unfold validate_document
  simp only [hvalid, Outcome.is_ok, Bool.not_true, Bool.false_eq_true, if_false, List.map_cons,
    List.map_nil, hdimcheck, List.find?, Bool.not_false]

/-- Witness for C24: the field `vec` with `num_dim` 3 holding 100 numbers, under
DROP. -/
theorem vector_field_wrong_length_witness :
    validate_document StringUtils.model
        [("vec", Json.array (List.replicate 100 (Json.number_float ⟨1, -1⟩)))] 0 ""
        [⟨"vec", field_types.FLOAT_ARRAY, false, false, 3⟩] index_operation_t.CREATE ""
        DIRTY_VALUES.DROP =
      (Outcome.error 400 "Field `vec` must have 3 dimensions.",
        [("vec", Json.array (List.replicate 100 (Json.number_float ⟨1, -1⟩)))]) :=
  (vector_field_wrong_length StringUtils.model
    ⟨"vec", field_types.FLOAT_ARRAY, false, false, 3⟩
    [("vec", Json.array (List.replicate 100 (Json.number_float ⟨1, -1⟩)))] 0
    index_operation_t.CREATE "" DIRTY_VALUES.DROP
    (List.replicate 100 (Json.number_float ⟨1, -1⟩)) rfl (by decide) (by decide) rfl
    (fun x hx => by rw [List.eq_of_mem_replicate hx]; rfl) (by simp)).2.2

/-! ## Reciprocal-rank fusion -/

/-- C25: a document at 1-based rank `r_text` in the text list and `r_vec` in
the vector list gets the fused score `0.7 * (1/r_text) + 0.3 * (1/r_vec)`, the
fused list is a reordering of the hits by descending fused score, and for the
three documents with (text rank, vector rank) A (1,1), B (2,3), C (3,2) the
scores are exactly 1, 9/20 and 23/60 and the final order is A, B, C. -/
theorem rank_fusion_scores_and_order :
    (∀ (id : String) (r_text r_vec : Nat),
      rank_fusion_score ⟨id, some r_text, some r_vec⟩ =
        7 / 10 * (1 / (r_text : ℚ)) + 3 / 10 * (1 / (r_vec : ℚ))) ∧
    (∀ hits : List hybrid_hit,
      (rank_fusion hits).Sorted (fun a b => rank_fusion_score b ≤ rank_fusion_score a) ∧
      (rank_fusion hits).Perm hits) ∧
    (rank_fusion [⟨"A", some 1, some 1⟩, ⟨"B", some 2, some 3⟩, ⟨"C", some 3, some 2⟩]).map
        (fun h => (h.id, rank_fusion_score h)) =
      [("A", 1), ("B", 9 / 20), ("C", 23 / 60)] ∧
    (rank_fusion [⟨"C", some 3, some 2⟩, ⟨"B", some 2, some 3⟩, ⟨"A", some 1, some 1⟩]).map
        (fun h => (h.id, rank_fusion_score h)) =
      [("A", 1), ("B", 9 / 20), ("C", 23 / 60)] := by
  refine ⟨?_, ?_, ?_, ?_⟩
  · intro id r_text r_vec
    simp only [rank_fusion_score, reciprocal_rank]
    ring
  · intro hits
    haveI : IsTotal hybrid_hit (fun a b => rank_fusion_score b ≤ rank_fusion_score a) :=
      ⟨fun a b => le_total _ _⟩
    haveI : IsTrans hybrid_hit (fun a b => rank_fusion_score b ≤ rank_fusion_score a) :=
      ⟨fun a b c hab hbc => le_trans hbc hab⟩
    exact ⟨List.sorted_insertionSort _ hits, List.perm_insertionSort _ hits⟩
  · simp only [rank_fusion, List.insertionSort, List.orderedInsert, rank_fusion_score,
      reciprocal_rank]
    norm_num
  · simp only [rank_fusion, List.insertionSort, List.orderedInsert, rank_fusion_score,
      reciprocal_rank]
    norm_num

/-! ## The capacity of the vector index -/

theorem VectorIndex.capacity_le_insert (x : VectorIndex) (seq_id : Nat) (vector : List ℚ) :
    x.capacity ≤ (x.insert seq_id vector).capacity := by
  unfold VectorIndex.insert
  split
  · exact Nat.le_refl _
  split
  · exact Nat.le_refl _
  split
  · show x.capacity ≤ max (2 * x.capacity) (x.live.length + 1)
    omega
  · exact Nat.le_refl _

theorem VectorIndex.capacity_remove (x : VectorIndex) (seq_id : Nat) :
    (x.remove seq_id).capacity = x.capacity := by
  unfold VectorIndex.remove
  split <;> rfl

theorem filter_ne_ids (l : List (Nat × List ℚ)) (i : Nat) :
    (l.filter (fun r => decide (r.1 ≠ i))).map Prod.fst =
      (l.map Prod.fst).filter (fun j => decide (j ≠ i)) := by
  induction l with
  | nil => rfl
  | cons r rest ih =>
    by_cases hr : r.1 = i
    · have h1 : decide (r.1 ≠ i) = false := by simp [hr]
      rw [List.filter_cons_of_neg (by simp [hr]), List.map_cons,
        List.filter_cons_of_neg (by simp [hr]), ih]
    · rw [List.filter_cons_of_pos (by simp [hr]), List.map_cons, List.map_cons,
        List.filter_cons_of_pos (by simp [hr]), ih]

theorem filter_ne_length (l : List (Nat × List ℚ)) (i : Nat)
    (hnodup : (l.map Prod.fst).Nodup) (h : i ∈ l.map Prod.fst) :
    (l.filter (fun r => decide (r.1 ≠ i))).length + 1 = l.length := by
  induction l with
  | nil => simp at h
  | cons r rest ih =>
    rw [List.map_cons, List.nodup_cons] at hnodup
    by_cases hr : r.1 = i
    · have hnot : i ∉ rest.map Prod.fst := hr ▸ hnodup.1
      have hall : rest.filter (fun r => decide (r.1 ≠ i)) = rest := by
        apply List.filter_eq_self.mpr
        intro s hs
        have : s.1 ≠ i := fun e => hnot (e ▸ List.mem_map_of_mem Prod.fst hs)
        simp [this]
      rw [List.filter_cons_of_neg (by simp [hr]), hall]
      rfl
    · have hin : i ∈ rest.map Prod.fst := by
        simp only [List.map_cons, List.mem_cons] at h
        rcases h with h | h
        · exact absurd h.symm hr
        · exact h
      rw [List.filter_cons_of_pos (by simp [hr]), List.length_cons, List.length_cons,
        ih hnodup.2 hin]

theorem map_replace_ids (l : List (Nat × List ℚ)) (i : Nat) (v : List ℚ) :
    (l.map (fun r => if r.1 = i then (i, v) else r)).map Prod.fst = l.map Prod.fst := by
  induction l with
  | nil => rfl
  | cons r rest ih =>
    simp only [List.map_cons, ih, List.cons.injEq, and_true]
    split
    · rename_i h
      exact h.symm
    · rfl

/-- One change keeps the invariant of the index: the live ids are distinct,
the capacity is the default doubled some number of times, the stored slots
fit, and a capacity above the default is less than twice the stored slots,
whose number never decreases. -/
theorem VectorIndex.invariant_apply (x : VectorIndex) (c : index_change)
    (h : (x.live.map Prod.fst).Nodup ∧ (∃ k, x.capacity = 1024 * 2 ^ k) ∧
      x.live_count + x.tombstone_count ≤ x.capacity ∧
      (x.capacity = 1024 ∨ x.capacity < 2 * x.element_count)) :
    (((x.apply c).live.map Prod.fst).Nodup ∧ (∃ k, (x.apply c).capacity = 1024 * 2 ^ k) ∧
      (x.apply c).live_count + (x.apply c).tombstone_count ≤ (x.apply c).capacity ∧
      ((x.apply c).capacity = 1024 ∨
        (x.apply c).capacity < 2 * (x.apply c).element_count)) ∧
      x.element_count ≤ (x.apply c).element_count := by
  obtain ⟨hnodup, ⟨k, hk⟩, hfit, hmin⟩ := h
  simp only [VectorIndex.live_count, VectorIndex.element_count] at hfit hmin ⊢
  cases c with
  | insert seq_id vector =>
    simp only [VectorIndex.apply, VectorIndex.insert]
    split
    · simp only [List.length_map, map_replace_ids]
      exact ⟨⟨hnodup, ⟨k, hk⟩, hfit, hmin⟩, Nat.le_refl _⟩
    rename_i hlive
    have hnew : seq_id ∉ x.live.map Prod.fst := by
      simpa [VectorIndex.is_live] using hlive
    have hnodup' : (((seq_id, vector) :: x.live).map Prod.fst).Nodup := by
      rw [List.map_cons, List.nodup_cons]
      exact ⟨hnew, hnodup⟩
    split
    · simp only [List.length_cons]
      refine ⟨⟨hnodup', ⟨k, hk⟩, by omega, ?_⟩, by omega⟩
      rcases hmin with h | h
      · exact Or.inl h
      · exact Or.inr (by omega)
    split
    · simp only [List.length_cons]
      have h1 : 1 ≤ 2 ^ k := Nat.one_le_two_pow
      have hmax : max (2 * x.capacity) (x.live.length + 1) = 2 * x.capacity := by
        apply Nat.max_eq_left
        omega
      rw [hmax]
      exact ⟨⟨hnodup', ⟨k + 1, by rw [hk, Nat.pow_succ]; ring⟩, by omega, Or.inr (by omega)⟩,
        by omega⟩
    · simp only [List.length_cons]
      refine ⟨⟨hnodup', ⟨k, hk⟩, by omega, ?_⟩, by omega⟩
      rcases hmin with h | h
      · exact Or.inl h
      · exact Or.inr (by omega)
  | remove seq_id =>
    simp only [VectorIndex.apply, VectorIndex.remove]
    split
    · rename_i hlive
      have hmem : seq_id ∈ x.live.map Prod.fst := by
        simpa [VectorIndex.is_live] using hlive
      have hlen := filter_ne_length x.live seq_id hnodup hmem
      have hnodup' : ((x.live.filter (fun r => decide (r.1 ≠ seq_id))).map Prod.fst).Nodup := by
        rw [filter_ne_ids]
        exact hnodup.filter _
      dsimp only
      refine ⟨⟨hnodup', ⟨k, hk⟩, by omega, ?_⟩, by omega⟩
      rcases hmin with h | h
      · exact Or.inl h
      · exact Or.inr (by omega)
    · exact ⟨⟨hnodup, ⟨k, hk⟩, hfit, hmin⟩, Nat.le_refl _⟩

theorem VectorIndex.invariant_foldl (changes : List index_change) :
    ∀ (x : VectorIndex),
      ((x.live.map Prod.fst).Nodup ∧ (∃ k, x.capacity = 1024 * 2 ^ k) ∧
        x.live_count + x.tombstone_count ≤ x.capacity ∧
        (x.capacity = 1024 ∨ x.capacity < 2 * x.element_count)) →
      (((changes.foldl VectorIndex.apply x).live.map Prod.fst).Nodup ∧
        (∃ k, (changes.foldl VectorIndex.apply x).capacity = 1024 * 2 ^ k) ∧
        (changes.foldl VectorIndex.apply x).live_count +
          (changes.foldl VectorIndex.apply x).tombstone_count ≤
            (changes.foldl VectorIndex.apply x).capacity ∧
        ((changes.foldl VectorIndex.apply x).capacity = 1024 ∨
          (changes.foldl VectorIndex.apply x).capacity <
            2 * (changes.foldl VectorIndex.apply x).element_count)) := by
  induction changes with
  | nil => intro x h; exact h
  | cons c rest ih =>
    intro x h
    exact ih (x.apply c) (VectorIndex.invariant_apply x c h).1

theorem VectorIndex.invariant_run (changes : List index_change) :
    ((VectorIndex.run changes).live.map Prod.fst).Nodup ∧
      (∃ k, (VectorIndex.run changes).capacity = 1024 * 2 ^ k) ∧
      (VectorIndex.run changes).live_count + (VectorIndex.run changes).tombstone_count ≤
        (VectorIndex.run changes).capacity ∧
      ((VectorIndex.run changes).capacity = 1024 ∨
        (VectorIndex.run changes).capacity < 2 * (VectorIndex.run changes).element_count) :=
  VectorIndex.invariant_foldl changes VectorIndex.fresh
    ⟨List.nodup_nil, ⟨0, rfl⟩, by decide, Or.inl rfl⟩
theorem VectorIndex.insert_new (x : VectorIndex) (seq_id : Nat) (vector : List ℚ)
    (hnew : seq_id ∉ x.live.map Prod.fst) :
    (x.insert seq_id vector).live = (seq_id, vector) :: x.live ∧
      (x.insert seq_id vector).tombstone_count = x.tombstone_count - 1 ∧
      (x.live.length + x.tombstone_count ≤ x.capacity → x.live.length + 1 ≤ x.capacity →
        (x.insert seq_id vector).capacity = x.capacity) := by
  have hlive : x.is_live seq_id = false := by simpa [VectorIndex.is_live] using hnew
  unfold VectorIndex.insert
  rw [hlive]
  simp only [Bool.false_eq_true, if_false]
  split
  · exact ⟨rfl, rfl, fun _ _ => rfl⟩
  · rename_i htomb
    split
    · rename_i hgrow
      refine ⟨rfl, ?_, fun _ h => by omega⟩
      dsimp only
      omega
    · refine ⟨rfl, ?_, fun _ _ => rfl⟩
      dsimp only
      omega

/-- Insertion of records with distinct ids, none of them live. -/
theorem VectorIndex.insert_all_new (records : List (Nat × List ℚ)) :
    ∀ (x : VectorIndex), (records.map Prod.fst).Nodup →
      (∀ r ∈ records, r.1 ∉ x.live.map Prod.fst) → (x.live.map Prod.fst).Nodup →
      (x.insert_all records).live.length = x.live.length + records.length ∧
      (x.insert_all records).tombstone_count = x.tombstone_count - records.length ∧
      (x.live.length + x.tombstone_count ≤ x.capacity →
        x.live.length + records.length ≤ x.capacity →
        (x.insert_all records).capacity = x.capacity) ∧
      ((x.insert_all records).live.map Prod.fst).Nodup ∧
      (∀ i, i ∈ (x.insert_all records).live.map Prod.fst ↔
        i ∈ x.live.map Prod.fst ∨ i ∈ records.map Prod.fst) := by
  induction records with
  | nil =>
    intro x _ _ hx
    exact ⟨rfl, rfl, fun _ _ => rfl, hx, fun i => by simp [VectorIndex.insert_all]⟩
  | cons r rest ih =>
    intro x hnodup hnew hx
    rw [List.map_cons, List.nodup_cons] at hnodup
    obtain ⟨hr, hrest⟩ := hnodup
    have hrnew : r.1 ∉ x.live.map Prod.fst := hnew r (List.mem_cons_self r rest)
    obtain ⟨hl, ht, hc⟩ := VectorIndex.insert_new x r.1 r.2 hrnew
    have hids : (x.insert r.1 r.2).live.map Prod.fst = r.1 :: x.live.map Prod.fst := by
      rw [hl]
      rfl
    have hnew' : ∀ s ∈ rest, s.1 ∉ (x.insert r.1 r.2).live.map Prod.fst := by
      intro s hs
      rw [hids, List.mem_cons]
      rintro (h | h)
      · exact hr (h ▸ List.mem_map_of_mem Prod.fst hs)
      · exact hnew s (List.mem_cons_of_mem r hs) h
    have hx' : ((x.insert r.1 r.2).live.map Prod.fst).Nodup := by
      rw [hids, List.nodup_cons]
      exact ⟨hrnew, hx⟩
    obtain ⟨h1, h2, h3, h4, h5⟩ := ih (x.insert r.1 r.2) hrest hnew' hx'
    have hfold : x.insert_all (r :: rest) = (x.insert r.1 r.2).insert_all rest := rfl
    rw [hfold]
    have hlen : (x.insert r.1 r.2).live.length = x.live.length + 1 := by
      rw [hl]
      rfl
    refine ⟨?_, ?_, ?_, h4, ?_⟩
    · rw [h1, hlen, List.length_cons]
      omega
    · rw [h2, ht, List.length_cons]
      omega
    · intro hfit hroom
      rw [List.length_cons] at hroom
      have hcap := hc hfit (by omega)
      rw [h3 (by rw [hlen, ht, hcap]; omega) (by rw [hlen, hcap]; omega), hcap]
    · intro i
      rw [h5 i, hids, List.map_cons, List.mem_cons, List.mem_cons]
      tauto

theorem VectorIndex.remove_live (x : VectorIndex) (seq_id : Nat)
    (hmem : seq_id ∈ x.live.map Prod.fst) :
    x.remove seq_id =
      { x with live := x.live.filter (fun r => decide (r.1 ≠ seq_id)),
               tombstone_count := x.tombstone_count + 1 } := by
  have hlive : x.is_live seq_id = true := by simpa [VectorIndex.is_live] using hmem
  unfold VectorIndex.remove
  rw [hlive]
  rfl

/-- Removal of distinct live ids. -/
theorem VectorIndex.remove_all_live (seq_ids : List Nat) :
    ∀ (x : VectorIndex), seq_ids.Nodup → (∀ i ∈ seq_ids, i ∈ x.live.map Prod.fst) →
      (x.live.map Prod.fst).Nodup →
      (x.remove_all seq_ids).capacity = x.capacity ∧
      (x.remove_all seq_ids).tombstone_count = x.tombstone_count + seq_ids.length ∧
      (x.remove_all seq_ids).live.length + seq_ids.length = x.live.length ∧
      ((x.remove_all seq_ids).live.map Prod.fst).Nodup := by
  induction seq_ids with
  | nil =>
    intro x _ _ hx
    exact ⟨rfl, rfl, rfl, hx⟩
  | cons i rest ih =>
    intro x hnodup hmem hx
    rw [List.nodup_cons] at hnodup
    obtain ⟨hi, hrest⟩ := hnodup
    have himem : i ∈ x.live.map Prod.fst := hmem i (List.mem_cons_self i rest)
    have hrem := VectorIndex.remove_live x i himem
    have hids : (x.remove i).live.map Prod.fst =
        (x.live.map Prod.fst).filter (fun j => decide (j ≠ i)) := by
      rw [hrem]
      exact filter_ne_ids x.live i
    have hmem' : ∀ j ∈ rest, j ∈ (x.remove i).live.map Prod.fst := by
      intro j hj
      rw [hids, List.mem_filter]
      refine ⟨hmem j (List.mem_cons_of_mem i hj), ?_⟩
      have : j ≠ i := fun e => hi (e ▸ hj)
      simp [this]
    have hx' : ((x.remove i).live.map Prod.fst).Nodup := by
      rw [hids]
      exact hx.filter _
    obtain ⟨h1, h2, h3, h4⟩ := ih (x.remove i) hrest hmem' hx'
    have hfold : x.remove_all (i :: rest) = (x.remove i).remove_all rest := rfl
    rw [hfold]
    have hlen : (x.remove i).live.length + 1 = x.live.length := by
      rw [hrem]
      exact filter_ne_length x.live i hx himem
    have htomb : (x.remove i).tombstone_count = x.tombstone_count + 1 := by
      rw [hrem]
    refine ⟨?_, ?_, ?_, h4⟩
    · rw [h1, VectorIndex.capacity_remove]
    · rw [h2, htomb, List.length_cons]
      omega
    · rw [List.length_cons]
      omega
/-- C26: in the vector index, a change never lowers the capacity; after every
sequence of inserts and removes applied to a new index (capacity 1024) the
capacity is 1024 doubled some number of times, `live_count ≤ capacity` and
`live_count + tombstone_count ≤ capacity`; an insert of a new id into a full
index without tombstones doubles the capacity and stores the vector; and after
inserting 1500 vectors with the ids 0..1499 into a new index all 1500 are live
and the capacity is 2048. -/
theorem vector_index_capacity_invariant :
    (∀ (x : VectorIndex) (c : index_change), x.capacity ≤ (x.apply c).capacity) ∧
    (∀ changes : List index_change,
      (∃ k, (VectorIndex.run changes).capacity = 1024 * 2 ^ k) ∧
      (VectorIndex.run changes).live_count ≤ (VectorIndex.run changes).capacity ∧
      (VectorIndex.run changes).live_count + (VectorIndex.run changes).tombstone_count ≤
        (VectorIndex.run changes).capacity) ∧
    (∀ (changes : List index_change) (seq_id : Nat) (vector : List ℚ),
      (VectorIndex.run changes).is_live seq_id = false →
      (VectorIndex.run changes).tombstone_count = 0 →
      (VectorIndex.run changes).live_count = (VectorIndex.run changes).capacity →
      ((VectorIndex.run changes).insert seq_id vector).capacity =
          2 * (VectorIndex.run changes).capacity ∧
        ((VectorIndex.run changes).insert seq_id vector).is_live seq_id = true ∧
        ((VectorIndex.run changes).insert seq_id vector).live_count =
          (VectorIndex.run changes).live_count + 1) ∧
    (∀ v : Nat → List ℚ,
      (VectorIndex.run ((List.range 1500).map
        (fun i => index_change.insert i (v i)))).live_count = 1500 ∧
      (∀ i, i < 1500 → (VectorIndex.run ((List.range 1500).map
        (fun i => index_change.insert i (v i)))).is_live i = true) ∧
      (VectorIndex.run ((List.range 1500).map
        (fun i => index_change.insert i (v i)))).capacity = 2048) := by
  refine ⟨?_, ?_, ?_, ?_⟩
  · intro x c
    cases c with
    | insert seq_id vector => exact VectorIndex.capacity_le_insert x seq_id vector
    | remove seq_id => exact Nat.le_of_eq (VectorIndex.capacity_remove x seq_id).symm
  · intro changes
    obtain ⟨_, hk, hfit, _⟩ := VectorIndex.invariant_run changes
    exact ⟨hk, by omega, hfit⟩
  · intro changes seq_id vector hlive htomb hfull
    obtain ⟨_, ⟨k, hk⟩, _, _⟩ := VectorIndex.invariant_run changes
    have h1 : 1 ≤ 2 ^ k := Nat.one_le_two_pow
    simp only [VectorIndex.live_count] at hfull ⊢
    have hgrow : (VectorIndex.run changes).capacity <
        (VectorIndex.run changes).live.length + 1 := by omega
    have hmax : max (2 * (VectorIndex.run changes).capacity)
        ((VectorIndex.run changes).live.length + 1) =
        2 * (VectorIndex.run changes).capacity := by
      apply Nat.max_eq_left
      omega
    unfold VectorIndex.insert
    rw [hlive, htomb]
    simp only [Bool.false_eq_true, if_false, Nat.lt_irrefl, hgrow, if_true, hmax,
      VectorIndex.is_live, List.map_cons, List.mem_cons, true_or, decide_True,
      List.length_cons, and_self]
  · intro v
    have hrun : VectorIndex.run ((List.range 1500).map
        (fun i => index_change.insert i (v i))) =
        VectorIndex.fresh.insert_all ((List.range 1500).map (fun i => (i, v i))) := by
      unfold VectorIndex.run VectorIndex.insert_all
      rw [List.foldl_map, List.foldl_map]
      rfl
    have hidlist : ((List.range 1500).map (fun i => (i, v i))).map Prod.fst =
        List.range 1500 := by
      rw [List.map_map]
      exact List.map_id _
    obtain ⟨_, ⟨k, hk⟩, hfit, hmin⟩ := VectorIndex.invariant_run ((List.range 1500).map
      (fun i => index_change.insert i (v i)))
    rw [hrun] at hk hfit hmin ⊢
    obtain ⟨hlen, htomb, _, _, hmem⟩ := VectorIndex.insert_all_new
      ((List.range 1500).map (fun i => (i, v i))) VectorIndex.fresh
      (by rw [hidlist]; exact List.nodup_range 1500)
      (fun r _ => by simp [VectorIndex.fresh]) (by simp [VectorIndex.fresh])
    have hlen' : (VectorIndex.fresh.insert_all
        ((List.range 1500).map (fun i => (i, v i)))).live.length = 1500 := by
      rw [hlen]
      simp [VectorIndex.fresh]
    refine ⟨hlen', ?_, ?_⟩
    · intro i hi
      simp only [VectorIndex.is_live, decide_eq_true_eq]
      rw [hmem i, hidlist]
      exact Or.inr (List.mem_range.mpr hi)
    · simp only [VectorIndex.live_count, VectorIndex.element_count] at hfit hmin
      rw [hlen'] at hfit hmin
      have htomb' : (VectorIndex.fresh.insert_all
          ((List.range 1500).map (fun i => (i, v i)))).tombstone_count = 0 := by
        rw [htomb]
        simp [VectorIndex.fresh]
      rw [htomb'] at hfit hmin
      rw [hk] at hfit hmin ⊢
      match k, hfit, hmin with
      | 0, hfit, _ => omega
      | 1, _, _ => rfl
      | k + 2, _, hmin =>
        have h1 : 1 ≤ 2 ^ k := Nat.one_le_two_pow
        have h4 : 2 ^ (k + 2) = 4 * 2 ^ k := by rw [Nat.pow_add]; ring
        rw [h4] at hmin
        omega

/-- C27: for an index holding `n` live vectors with distinct ids and no
tombstones: removing all of them leaves the capacity and the stored element
count unchanged and sets the deleted count to `n`; inserting `n` new vectors
afterwards returns the deleted count to 0, the element count still `n` and the
capacity unchanged; and after removing those again, inserting `m` vectors with
`n ≤ m ≤ capacity` leaves the capacity unchanged, the element count `m` and the
deleted count 0. -/
theorem tombstone_reuse (x : VectorIndex) (n m : Nat)
    (first second : List (Nat × List ℚ))
    (hids : (x.live.map Prod.fst).Nodup) (hn : x.live_count = n)
    (htomb : x.tombstone_count = 0)
    (hfirst : first.length = n) (hfirst_ids : (first.map Prod.fst).Nodup)
    (hsecond : second.length = m) (hsecond_ids : (second.map Prod.fst).Nodup)
    (hnm : n ≤ m) (hm : m ≤ x.capacity) :
    ((x.remove_all (x.live.map Prod.fst)).capacity = x.capacity ∧
      (x.remove_all (x.live.map Prod.fst)).element_count = n ∧
      (x.remove_all (x.live.map Prod.fst)).tombstone_count = n) ∧
    (((x.remove_all (x.live.map Prod.fst)).insert_all first).capacity = x.capacity ∧
      ((x.remove_all (x.live.map Prod.fst)).insert_all first).element_count = n ∧
      ((x.remove_all (x.live.map Prod.fst)).insert_all first).tombstone_count = 0) ∧
    ((((x.remove_all (x.live.map Prod.fst)).insert_all first).remove_all
        (first.map Prod.fst)).capacity = x.capacity ∧
      (((x.remove_all (x.live.map Prod.fst)).insert_all first).remove_all
        (first.map Prod.fst)).element_count = n ∧
      (((x.remove_all (x.live.map Prod.fst)).insert_all first).remove_all
        (first.map Prod.fst)).tombstone_count = n) ∧
    (((((x.remove_all (x.live.map Prod.fst)).insert_all first).remove_all
        (first.map Prod.fst)).insert_all second).capacity = x.capacity ∧
      ((((x.remove_all (x.live.map Prod.fst)).insert_all first).remove_all
        (first.map Prod.fst)).insert_all second).element_count = m ∧
      ((((x.remove_all (x.live.map Prod.fst)).insert_all first).remove_all
        (first.map Prod.fst)).insert_all second).tombstone_count = 0) := by
  simp only [VectorIndex.live_count] at hn
  simp only [VectorIndex.element_count]
  -- removing all live vectors
  obtain ⟨a1, a2, a3, a4⟩ := VectorIndex.remove_all_live (x.live.map Prod.fst) x hids
    (fun i hi => hi) hids
  rw [List.length_map] at a2 a3
  have a5 : (x.remove_all (x.live.map Prod.fst)).live = [] :=
    List.length_eq_zero.mp (by omega)
  -- inserting n new vectors
  obtain ⟨b1, b2, b3, b4, b5⟩ := VectorIndex.insert_all_new first
    (x.remove_all (x.live.map Prod.fst)) hfirst_ids (fun r _ => by rw [a5]; simp) a4
  have b3' := b3 (by omega) (by omega)
  -- removing them again
  obtain ⟨c1, c2, c3, c4⟩ := VectorIndex.remove_all_live (first.map Prod.fst)
    ((x.remove_all (x.live.map Prod.fst)).insert_all first) hfirst_ids
    (fun i hi => (b5 i).mpr (Or.inr hi)) b4
  rw [List.length_map] at c2 c3
  have c5 : (((x.remove_all (x.live.map Prod.fst)).insert_all first).remove_all
      (first.map Prod.fst)).live = [] :=
    List.length_eq_zero.mp (by omega)
  -- inserting m vectors
  obtain ⟨e1, e2, e3, _, _⟩ := VectorIndex.insert_all_new second
    (((x.remove_all (x.live.map Prod.fst)).insert_all first).remove_all (first.map Prod.fst))
    hsecond_ids (fun r _ => by rw [c5]; simp) c4
  have e3' := e3 (by omega) (by omega)
  refine ⟨⟨a1, by omega, by omega⟩, ⟨by omega, by omega, by omega⟩,
    ⟨by omega, by omega, by omega⟩, ⟨by omega, by omega, by omega⟩⟩

/-- Witness for C27: an index with the two live ids 0 and 1; they are removed,
ids 2 and 3 are inserted and removed, then ids 10, 11 and 12 are inserted. -/
theorem tombstone_reuse_witness :
    (((((VectorIndex.fresh.insert_all [(0, []), (1, [])]).remove_all [1, 0]).insert_all
        [(2, []), (3, [])]).remove_all [2, 3]).insert_all
        [(10, []), (11, []), (12, [])]).capacity = 1024 ∧
    (((((VectorIndex.fresh.insert_all [(0, []), (1, [])]).remove_all [1, 0]).insert_all
        [(2, []), (3, [])]).remove_all [2, 3]).insert_all
        [(10, []), (11, []), (12, [])]).element_count = 3 ∧
    (((((VectorIndex.fresh.insert_all [(0, []), (1, [])]).remove_all [1, 0]).insert_all
        [(2, []), (3, [])]).remove_all [2, 3]).insert_all
        [(10, []), (11, []), (12, [])]).tombstone_count = 0 :=
  (tombstone_reuse (VectorIndex.fresh.insert_all [(0, []), (1, [])]) 2 3
    [(2, []), (3, [])] [(10, []), (11, []), (12, [])]
    (by decide) (by decide) (by decide) (by decide) (by decide) (by decide) (by decide)
    (by decide) (by decide)).2.2.2

/-! ## Vector queries -/

/-- C28: when a vector query supplies a distance threshold `t`, every returned
hit has distance at most `t`, and the returned hits are exactly the hits of the
same query without a threshold whose distance is at most `t`, in the same
order; with the vectors [0.1,0.2,0.3] and [0.6,0.7,0.8], the query
[0.3,0.4,0.5] returns [0.6,0.7,0.8] then [0.1,0.2,0.3] without a threshold and
only [0.6,0.7,0.8] with `t = 0.01`. -/
theorem distance_threshold_filters :
    (∀ (records : List (Nat × List ℚ)) (q : List ℚ) (k : Nat) (t : ℚ),
      (∀ h ∈ vector_search records q k (some t), cosine_distance_le q h.2 t = true) ∧
      vector_search records q k (some t) =
        (vector_search records q k none).filter (fun r => cosine_distance_le q r.2 t) ∧
      (vector_search records q k (some t)).Sublist (vector_search records q k none)) ∧
    vector_search [(0, [1 / 10, 2 / 10, 3 / 10]), (1, [6 / 10, 7 / 10, 8 / 10])]
        [3 / 10, 4 / 10, 5 / 10] 20 none =
      [(1, [6 / 10, 7 / 10, 8 / 10]), (0, [1 / 10, 2 / 10, 3 / 10])] ∧
    vector_search [(0, [1 / 10, 2 / 10, 3 / 10]), (1, [6 / 10, 7 / 10, 8 / 10])]
        [3 / 10, 4 / 10, 5 / 10] 20 (some (1 / 100)) =
      [(1, [6 / 10, 7 / 10, 8 / 10])] := by
  refine ⟨?_, ?_, ?_⟩
  · intro records q k t
    refine ⟨?_, rfl, ?_⟩
    · intro h hh
      simp only [vector_search, List.mem_filter] at hh
      exact hh.2
    · simp only [vector_search]
      exact List.filter_sublist _
  · simp only [vector_search, List.insertionSort, List.orderedInsert, signed_cos_squared, dot,
      List.zipWith, List.sum_cons, List.sum_nil]
    norm_num
  · simp only [vector_search, List.insertionSort, List.orderedInsert, signed_cos_squared, dot,
      List.zipWith, List.sum_cons, List.sum_nil, cosine_distance_le]
    norm_num
/-- C29, as amended: with the vectors [0.851758,0.909671,0.823431,0.372063],
[0.97826,0.933157,0.39557,0.306488], [0.230606,0.634397,0.514009,0.399594]
indexed as docs 0, 1, 2 and the query [0.96826,0.94,0.39557,0.306488], ranking
by the cosine distance returns the docs in the order 1, 0, 2, with ascending
distances between 3.40e-5 and 3.42e-5, between 0.0432 and 0.0434, and between
0.1513 and 0.1515. -/
theorem basic_vector_query_cosine :
    (vector_search
        [(0, [851758 / 1000000, 909671 / 1000000, 823431 / 1000000, 372063 / 1000000]),
          (1, [97826 / 100000, 933157 / 1000000, 39557 / 100000, 306488 / 1000000]),
          (2, [230606 / 1000000, 634397 / 1000000, 514009 / 1000000, 399594 / 1000000])]
        [96826 / 100000, 94 / 100, 39557 / 100000, 306488 / 1000000] 10 none).map Prod.fst =
      [1, 0, 2] ∧
    (cosine_distance_le [96826 / 100000, 94 / 100, 39557 / 100000, 306488 / 1000000]
        [97826 / 100000, 933157 / 1000000, 39557 / 100000, 306488 / 1000000]
        (342 / 10000000) = true ∧
      cosine_distance_le [96826 / 100000, 94 / 100, 39557 / 100000, 306488 / 1000000]
        [97826 / 100000, 933157 / 1000000, 39557 / 100000, 306488 / 1000000]
        (340 / 10000000) = false) ∧
    (cosine_distance_le [96826 / 100000, 94 / 100, 39557 / 100000, 306488 / 1000000]
        [851758 / 1000000, 909671 / 1000000, 823431 / 1000000, 372063 / 1000000]
        (434 / 10000) = true ∧
      cosine_distance_le [96826 / 100000, 94 / 100, 39557 / 100000, 306488 / 1000000]
        [851758 / 1000000, 909671 / 1000000, 823431 / 1000000, 372063 / 1000000]
        (432 / 10000) = false) ∧
    (cosine_distance_le [96826 / 100000, 94 / 100, 39557 / 100000, 306488 / 1000000]
        [230606 / 1000000, 634397 / 1000000, 514009 / 1000000, 399594 / 1000000]
        (1515 / 10000) = true ∧
      cosine_distance_le [96826 / 100000, 94 / 100, 39557 / 100000, 306488 / 1000000]
        [230606 / 1000000, 634397 / 1000000, 514009 / 1000000, 399594 / 1000000]
        (1513 / 10000) = false) := by
  refine ⟨?_, ⟨?_, ?_⟩, ⟨?_, ?_⟩, ⟨?_, ?_⟩⟩
  · simp only [vector_search, List.insertionSort, List.orderedInsert, signed_cos_squared, dot,
      List.zipWith, List.sum_cons, List.sum_nil]
    norm_num
  all_goals
    simp only [cosine_distance_le, signed_cos_squared, dot, List.zipWith, List.sum_cons,
      List.sum_nil]
    norm_num

/-- Counterexample to C29 as stated: under the Euclidean distance the docs are
not at the distances 3.41e-5, 0.0433 and 0.1514 from the query.  The squared
distances are 0.000146826649 (doc 1), 0.201857680191 (doc 0) and
0.660223141282 (doc 2): each is above the claimed value, and so is its square
root, the true L2 distance. -/
theorem basic_vector_query_euclidean_counterexample :
    l2_squared [96826 / 100000, 94 / 100, 39557 / 100000, 306488 / 1000000]
        [97826 / 100000, 933157 / 1000000, 39557 / 100000, 306488 / 1000000] =
      146826649 / 1000000000000 ∧
    l2_squared [96826 / 100000, 94 / 100, 39557 / 100000, 306488 / 1000000]
        [851758 / 1000000, 909671 / 1000000, 823431 / 1000000, 372063 / 1000000] =
      201857680191 / 1000000000000 ∧
    l2_squared [96826 / 100000, 94 / 100, 39557 / 100000, 306488 / 1000000]
        [230606 / 1000000, 634397 / 1000000, 514009 / 1000000, 399594 / 1000000] =
      660223141282 / 1000000000000 ∧
    ¬ ((146826649 : ℚ) / 1000000000000 ≤ 342 / 10000000) ∧
    ¬ ((146826649 : ℚ) / 1000000000000 ≤ (342 / 10000000) ^ 2) ∧
    ¬ ((201857680191 : ℚ) / 1000000000000 ≤ 434 / 10000) ∧
    ¬ ((201857680191 : ℚ) / 1000000000000 ≤ (434 / 10000) ^ 2) ∧
    ¬ ((660223141282 : ℚ) / 1000000000000 ≤ 1515 / 10000) ∧
    ¬ ((660223141282 : ℚ) / 1000000000000 ≤ (1515 / 10000) ^ 2) := by
  refine ⟨?_, ?_, ?_, ?_, ?_, ?_, ?_, ?_, ?_⟩
  · simp only [l2_squared, List.zipWith, List.sum_cons, List.sum_nil]
    norm_num
  · simp only [l2_squared, List.zipWith, List.sum_cons, List.sum_nil]
    norm_num
  · simp only [l2_squared, List.zipWith, List.sum_cons, List.sum_nil]
    norm_num
  all_goals norm_num

/-! ## The default sorting field -/

/-- C34: when the default sorting field is not empty and is no key of the
document, a create-like operation (neither UPDATE nor EMPLACE) fails with
status 400 and the message "Field `X` has been declared as a default sorting
field, but is not found in the document.", whatever the schema says about that
field, and the document is unchanged; for UPDATE and EMPLACE the check is
skipped and the result is that of the field loop. -/
theorem default_sorting_field_check (su : StringUtils) (document : Doc) (seq_id : Nat)
    (default_sorting_field : String) (search_schema : List field) (op : index_operation_t)
    (fallback_field_type : String) (dirty_values : DIRTY_VALUES)
    (hset : default_sorting_field ≠ "")
    (habsent : Doc.find document default_sorting_field = none) :
    (op ≠ index_operation_t.UPDATE → op ≠ index_operation_t.EMPLACE →
      validate_index_in_memory su document seq_id default_sorting_field search_schema op
          fallback_field_type dirty_values =
        (Outcome.error 400 ("Field `" ++ default_sorting_field ++
          "` has been declared as a default sorting field, but is not found in the document."),
          document)) ∧
    ((op = index_operation_t.UPDATE ∨ op = index_operation_t.EMPLACE) →
      validate_index_in_memory su document seq_id default_sorting_field search_schema op
          fallback_field_type dirty_values =
        validate_fields su op fallback_field_type dirty_values search_schema document) := by
  have hcount : Doc.count document default_sorting_field = 0 := by
    simp [Doc.count, Doc.contains, habsent]
  constructor
  · intro hu he
    unfold validate_index_in_memory
    simp [hset, hcount, hu, he]
  · intro hop
    unfold validate_index_in_memory
    rcases hop with h | h <;> simp [h]

/-- Witness for C34: the default sorting field `points` is an optional field of
the schema and is missing from the document of a CREATE. -/
theorem default_sorting_field_check_witness :
    validate_index_in_memory StringUtils.model [("title", Json.string "a")] 0 "points"
        [⟨"title", field_types.STRING, false, false, 0⟩,
          ⟨"points", field_types.INT32, true, false, 0⟩]
        index_operation_t.CREATE "" DIRTY_VALUES.COERCE_OR_DROP =
      (Outcome.error 400
        "Field `points` has been declared as a default sorting field, but is not found in the document.",
        [("title", Json.string "a")]) :=
  (default_sorting_field_check StringUtils.model [("title", Json.string "a")] 0 "points"
    [⟨"title", field_types.STRING, false, false, 0⟩,
      ⟨"points", field_types.INT32, true, false, 0⟩]
    index_operation_t.CREATE "" DIRTY_VALUES.COERCE_OR_DROP (by decide) rfl).1
    (by decide) (by decide)

/-! ## Integers in an int32 field -/

/-- C37: for an int32 field whose document value is a JSON integer of any
magnitude, signed or unsigned, `coerce_element` returns success under every
policy and leaves the document unchanged: no coercer is called and no
comparison with INT32_MAX is made. -/
theorem int32_integer_unchecked (su : StringUtils) (a_field : field) (document : Doc)
    (fallback_field_type : String) (dirty_values : DIRTY_VALUES) (v : Json)
    (htype : a_field.type = field_types.INT32)
    (hfind : Doc.find document a_field.name = some v)
    (hint : v.is_number_integer = true) :
    coerce_element su a_field document fallback_field_type dirty_values =
      (Outcome.ok 200, document) := by
  apply coerce_element_of_shape su a_field document fallback_field_type dirty_values v hfind
  · intro h
    rw [htype] at h
    cases h
  · rw [htype]
    simpa [has_declared_shape, element_type, scalar_shape] using hint

/-- Witness for C37: the integer 2^40 in an int32 field under REJECT. -/
theorem int32_integer_unchecked_witness :
    coerce_element StringUtils.model ⟨"qty", field_types.INT32, false, false, 0⟩
        [("qty", Json.number_integer 1099511627776)] "" DIRTY_VALUES.REJECT =
      (Outcome.ok 200, [("qty", Json.number_integer 1099511627776)]) ∧
    (1099511627776 : Int) > INT32_MAX :=
  ⟨int32_integer_unchecked StringUtils.model ⟨"qty", field_types.INT32, false, false, 0⟩
    [("qty", Json.number_integer 1099511627776)] "" DIRTY_VALUES.REJECT
    (Json.number_integer 1099511627776) rfl rfl rfl, by decide⟩

/-! ## Empty arrays -/

/-- An array field holding the empty array passes `coerce_element` unchanged,
unless it is a nested geopoint[] field. -/
theorem coerce_element_empty_array (su : StringUtils) (f : field) (d : Doc) (fb : String)
    (dv : DIRTY_VALUES) (harr : f.is_array = true)
    (hfind : Doc.find d f.name = some (Json.array []))
    (hnot : f.type = field_types.GEOPOINT_ARRAY → f.nested = false) :
    coerce_element su f d fb dv = (Outcome.ok 200, d) := by
  have hidx : Doc.index d f.name = Json.array [] := Doc.index_of_find _ _ _ hfind
  have hloop : coerce_element_loop su f fb dv 0 0 d = some (Outcome.ok 200, d) := by
    unfold coerce_element_loop
    simp [hidx, Json.size]
  unfold coerce_element
  simp only [hidx, Json.size, List.length_nil, hloop]
  unfold field.is_array at harr
  cases hty : f.type <;> rw [hty] at harr <;> simp only [Bool.false_eq_true] at harr <;>
    first
      | (simp [field.is_array, hty, Json.is_array]; done)
      | simp [field.is_array, hty, Json.is_array, hnot hty]

/-- C36: the empty array in an array field.  For every array-typed field that
is not a nested geopoint[] field, `coerce_element` on the empty array returns
success under every policy and leaves the document unchanged.  For a nested
geopoint[] field the test `it->is_number()` of line 67 is evaluated before
`doc_ele.size() == 2` and reads through `begin()`, which equals `end()`:
undefined behaviour, under every policy. -/
theorem nested_geopoint_empty_array_undefined :
    (∀ (su : StringUtils) (a_field : field) (document : Doc) (fallback_field_type : String)
        (dirty_values : DIRTY_VALUES),
      a_field.is_array = true →
      Doc.find document a_field.name = some (Json.array []) →
      (a_field.type = field_types.GEOPOINT_ARRAY → a_field.nested = false) →
      coerce_element su a_field document fallback_field_type dirty_values =
        (Outcome.ok 200, document)) ∧
    (∀ (su : StringUtils) (dirty_values : DIRTY_VALUES) (optional : Bool),
      coerce_element su ⟨"loc", field_types.GEOPOINT_ARRAY, optional, true, 0⟩
          [("loc", Json.array [])] "" dirty_values =
        (Outcome.undefined, [("loc", Json.array [])])) := by
  constructor
  · intro su f d fb dv harr hfind hnot
    exact coerce_element_empty_array su f d fb dv harr hfind hnot
  · intro su dv optional
    simp [coerce_element, Doc.index, Doc.find, field.is_array, Json.is_array, Json.size]

/-! ## What validation leaves of the document -/

theorem Doc.find_foldl_erase (keys : List String) :
    ∀ (d : Doc) (key : String),
      Doc.find (keys.foldl Doc.erase d) key = if key ∈ keys then none else Doc.find d key := by
  induction keys with
  | nil => intro d key; simp
  | cons k rest ih =>
    intro d key
    rw [List.foldl_cons, ih (Doc.erase d k) key]
    by_cases hrest : key ∈ rest
    · simp [hrest]
    · by_cases hk : key = k
      · subst hk
        simp [Doc.find_erase_self]
      · simp [hrest, hk, Doc.find_erase_ne d k key hk]

/-- C32: under REJECT, for every document, schema and operation, every key of
the document whose value is not JSON null is still present with the same value
after `validate_index_in_memory`, whatever its result; a key whose value has
changed is the name of an optional schema field, held null, and has been
removed in a create-like operation. -/
theorem validate_reject_keeps_values (su : StringUtils) (document : Doc) (seq_id : Nat)
    (default_sorting_field : String) (search_schema : List field) (op : index_operation_t)
    (fallback_field_type : String) :
    (∀ key v, Doc.find document key = some v → v.is_null = false →
      Doc.find (validate_index_in_memory su document seq_id default_sorting_field
        search_schema op fallback_field_type DIRTY_VALUES.REJECT).2 key = some v) ∧
    (∀ key,
      Doc.find (validate_index_in_memory su document seq_id default_sorting_field
        search_schema op fallback_field_type DIRTY_VALUES.REJECT).2 key =
          Doc.find document key ∨
      (Doc.find (validate_index_in_memory su document seq_id default_sorting_field
          search_schema op fallback_field_type DIRTY_VALUES.REJECT).2 key = none ∧
        Doc.find document key = some Json.null ∧
        op ≠ index_operation_t.UPDATE ∧ op ≠ index_operation_t.EMPLACE ∧
        ∃ f ∈ search_schema, f.name = key ∧ f.optional = true)) := by
  have hkeys : ∃ keys : List String,
      (validate_index_in_memory su document seq_id default_sorting_field search_schema op
        fallback_field_type DIRTY_VALUES.REJECT).2 = keys.foldl Doc.erase document ∧
      ∀ key ∈ keys,
        (∃ f ∈ search_schema, f.name = key ∧ f.optional = true ∧ f.name ≠ "id" ∧
          f.is_object = false) ∧
        Doc.find document key = some Json.null ∧
        op ≠ index_operation_t.UPDATE ∧ op ≠ index_operation_t.EMPLACE := by
    unfold validate_index_in_memory
    dsimp only
    split
    · exact ⟨[], rfl, fun key hk => absurd hk (List.not_mem_nil key)⟩
    · exact validate_fields_reject su op fallback_field_type search_schema document
  obtain ⟨keys, hres, hall⟩ := hkeys
  have hsecond : ∀ key,
      Doc.find (validate_index_in_memory su document seq_id default_sorting_field
        search_schema op fallback_field_type DIRTY_VALUES.REJECT).2 key =
          Doc.find document key ∨
      (Doc.find (validate_index_in_memory su document seq_id default_sorting_field
          search_schema op fallback_field_type DIRTY_VALUES.REJECT).2 key = none ∧
        Doc.find document key = some Json.null ∧
        op ≠ index_operation_t.UPDATE ∧ op ≠ index_operation_t.EMPLACE ∧
        ∃ f ∈ search_schema, f.name = key ∧ f.optional = true) := by
    intro key
    rw [hres, Doc.find_foldl_erase]
    by_cases hk : key ∈ keys
    · right
      obtain ⟨⟨f, hf, hname, hopt, _, _⟩, hnull, hu, he⟩ := hall key hk
      exact ⟨by simp [hk], hnull, hu, he, f, hf, hname, hopt⟩
    · left
      simp [hk]
  refine ⟨?_, hsecond⟩
  intro key v hv hnn
  rcases hsecond key with h | ⟨_, hnull, _⟩
  · rw [h, hv]
  · rw [hv] at hnull
    cases hnull
    cases hnn

/-- The field loop leaves alone a key that only skipped fields (`id`, object
fields) carry. -/
theorem validate_fields_frame_skipped (su : StringUtils) (op : index_operation_t)
    (fb : String) (dv : DIRTY_VALUES) (key : String) :
    ∀ (fields : List field) (d : Doc),
      (∀ f ∈ fields, f.name = key → f.name = "id" ∨ f.is_object = true) →
      Doc.find (validate_fields su op fb dv fields d).2 key = Doc.find d key := by
  intro fields
  induction fields with
  | nil => intro d _; rfl
  | cons f rest ih =>
    intro d hskip
    have hrest : ∀ g ∈ rest, g.name = key → g.name = "id" ∨ g.is_object = true :=
      fun g hg => hskip g (List.mem_cons_of_mem f hg)
    by_cases hs : f.name = "id" ∨ f.is_object = true
    · rw [validate_fields_skip su op fb dv f rest d hs]
      exact ih d hrest
    · have hk : key ≠ f.name := fun e => hs (hskip f (List.mem_cons_self f rest) e.symm)
      rcases validate_fields_step su op fb dv f d with ⟨r, _, hr1, hr⟩ | ⟨d', hd', hcont⟩
      · rw [hr]
        rcases hr1 with h1 | ⟨h1, _⟩
        · rw [h1]
        · rw [h1]
          exact coerce_element_frame su f d fb dv key hk
      · rw [hcont, ih d' hrest]
        rcases hd' with ⟨h, _⟩ | ⟨h, _⟩ | ⟨h, _⟩
        · rw [h]
        · rw [h]
          exact Doc.find_erase_ne d f.name key hk
        · rw [h]
          exact coerce_element_frame su f d fb dv key hk

/-- C33: `validate_index_in_memory` never adds a key to the document, and a
key that is carried only by skipped schema fields (`id`, object fields) or by
no schema field has the same value after the call as before: so every key that
is not the name of a schema field, the key `id`, and, the field names of the
schema being distinct, the key of every object field. -/
theorem validate_frame (su : StringUtils) (document : Doc) (seq_id : Nat)
    (default_sorting_field : String) (search_schema : List field) (op : index_operation_t)
    (fallback_field_type : String) (dirty_values : DIRTY_VALUES) :
    (∀ key, Doc.find document key = none →
      Doc.find (validate_index_in_memory su document seq_id default_sorting_field
        search_schema op fallback_field_type dirty_values).2 key = none) ∧
    (∀ key, (∀ f ∈ search_schema, f.name ≠ key) →
      Doc.find (validate_index_in_memory su document seq_id default_sorting_field
        search_schema op fallback_field_type dirty_values).2 key = Doc.find document key) ∧
    Doc.find (validate_index_in_memory su document seq_id default_sorting_field
        search_schema op fallback_field_type dirty_values).2 "id" = Doc.find document "id" ∧
    ((search_schema.map field.name).Nodup →
      ∀ f ∈ search_schema, f.is_object = true →
        Doc.find (validate_index_in_memory su document seq_id default_sorting_field
          search_schema op fallback_field_type dirty_values).2 f.name =
            Doc.find document f.name) := by
  have hgen : ∀ key,
      (∀ f ∈ search_schema, f.name = key → f.name = "id" ∨ f.is_object = true) →
      Doc.find (validate_index_in_memory su document seq_id default_sorting_field
        search_schema op fallback_field_type dirty_values).2 key = Doc.find document key := by
    intro key hskip
    unfold validate_index_in_memory
    dsimp only
    split
    · rfl
    · exact validate_fields_frame_skipped su op fallback_field_type dirty_values key
        search_schema document hskip
  refine ⟨?_, ?_, ?_, ?_⟩
  · intro key hnone
    unfold validate_index_in_memory
    dsimp only
    split
    · exact hnone
    · exact validate_fields_keys su op fallback_field_type dirty_values key search_schema
        document hnone
  · intro key hne
    exact hgen key (fun f hf e => absurd e (hne f hf))
  · exact hgen "id" (fun f _ e => Or.inl e)
  · intro hnodup f hf hobj
    apply hgen
    intro g hg e
    have hgf : g = f := by
      by_contra hne
      have hinj := List.inj_on_of_nodup_map hnodup hg hf e
      exact hne hinj
    rw [hgf]
    exact Or.inr hobj

/-! ## Termination of the element pass -/

/-- C35: for every field, every JSON array `a` held by it and every policy, the
element loop of `coerce_element` ends within `a.length` iterations, and
`coerce_element` itself never runs out of iterations; an iteration at a
position of the array that lets the loop go on either leaves the length of the
array as it is and advances the iterator, or erases the current element and
stays at its position, so the array never grows. -/
theorem element_pass_terminates (su : StringUtils) (a_field : field) (document : Doc)
    (fallback_field_type : String) (dirty_values : DIRTY_VALUES) (a : List Json)
    (hfind : Doc.find document a_field.name = some (Json.array a)) :
    (∃ r, coerce_element_loop su a_field fallback_field_type dirty_values a.length 0
      document = some r) ∧
    (∃ r, coerce_element_loop su a_field fallback_field_type dirty_values
      (Doc.index document a_field.name).size 0 document = some r) ∧
    (∀ it, it < a.length →
      (coerce_element_item su a_field document fallback_field_type dirty_values it).1.is_ok
        = true →
      ∃ a', Doc.find (coerce_element_item su a_field document fallback_field_type
          dirty_values it).2.1 a_field.name = some (Json.array a') ∧
        (((coerce_element_item su a_field document fallback_field_type
            dirty_values it).2.2 = false ∧ a'.length = a.length) ∨
          ((coerce_element_item su a_field document fallback_field_type
            dirty_values it).2.2 = true ∧ a'.length + 1 = a.length))) := by
  refine ⟨?_, ?_, ?_⟩
  · exact coerce_element_loop_terminates su a_field fallback_field_type dirty_values a.length 0
      document a hfind (by omega)
  · exact coerce_element_loop_enough su a_field fallback_field_type dirty_values document a
      hfind
  · intro it hlt hok
    obtain ⟨r, d', er, hitem⟩ : ∃ r d' er, coerce_element_item su a_field document
        fallback_field_type dirty_values it = (r, d', er) := ⟨_, _, _, rfl⟩
    rw [hitem] at hok ⊢
    rcases coerce_element_item_array su a_field document fallback_field_type dirty_values it a
      r d' er hfind hitem hok with ⟨he, x, hx⟩ | ⟨he, hx⟩
    · exact ⟨a.set it x, hx, Or.inl ⟨he, List.length_set _ _ _⟩⟩
    · refine ⟨a.eraseIdx it, hx, Or.inr ⟨he, ?_⟩⟩
      rw [List.length_eraseIdx_of_lt hlt]
      omega

/-- Witness for C35: an optional string[] field under COERCE_OR_DROP with two
adjacent elements to erase; the loop ends within 4 iterations. -/
theorem element_pass_terminates_witness :
    ∃ r, coerce_element_loop StringUtils.model
      ⟨"tags", field_types.STRING_ARRAY, true, false, 0⟩ "" DIRTY_VALUES.COERCE_OR_DROP
      [Json.string "a", Json.null, Json.null, Json.number_unsigned 3].length 0
      [("tags", Json.array [Json.string "a", Json.null, Json.null, Json.number_unsigned 3])] =
        some r :=
  (element_pass_terminates StringUtils.model
    ⟨"tags", field_types.STRING_ARRAY, true, false, 0⟩
    [("tags", Json.array [Json.string "a", Json.null, Json.null, Json.number_unsigned 3])] ""
    DIRTY_VALUES.COERCE_OR_DROP
    [Json.string "a", Json.null, Json.null, Json.number_unsigned 3] rfl).1

/-! ## Failure after a change of the document -/

/-- C31: validation is not atomic on failure.  A geopoint field holding
["1.5", "abc"] fails under COERCE_OR_REJECT with "Field `X` must be a
geopoint." after its first element has been replaced by the number parsed from
"1.5"; a string field coerced, or an optional field erased, earlier in the
schema iteration stays coerced or erased when a later field fails; and in
general, when the fields `pre` pass, the result for `pre ++ rest` is the result
of `rest` on the document `pre` has left, whose keys that `rest` does not name
stay as `pre` left them. -/
theorem validation_not_atomic (su : StringUtils) (x : Double)
    (hfloat : su.is_float "1.5" = true) (hstof : su.stof "1.5" = some x)
    (hnot : su.is_float "abc" = false) :
    validate_index_in_memory su
        [("loc", Json.array [Json.string "1.5", Json.string "abc"])] 0 ""
        [⟨"loc", field_types.GEOPOINT, false, false, 0⟩]
        index_operation_t.CREATE "" DIRTY_VALUES.COERCE_OR_REJECT =
      (Outcome.error 400 "Field `loc` must be a geopoint.",
        [("loc", Json.array [Json.number_float x, Json.string "abc"])]) ∧
    validate_index_in_memory su
        [("title", Json.number_integer 5), ("flag", Json.null)] 0 ""
        [⟨"title", field_types.STRING, false, false, 0⟩,
          ⟨"flag", field_types.BOOL, false, false, 0⟩]
        index_operation_t.CREATE "" DIRTY_VALUES.COERCE_OR_REJECT =
      (Outcome.error 400 "Field `flag` must be a bool.",
        [("title", Json.string "5"), ("flag", Json.null)]) ∧
    validate_index_in_memory su
        [("note", Json.number_integer 5), ("flag", Json.null)] 0 ""
        [⟨"note", field_types.STRING, true, false, 0⟩,
          ⟨"flag", field_types.BOOL, false, false, 0⟩]
        index_operation_t.CREATE "" DIRTY_VALUES.DROP =
      (Outcome.error 400 "Field `flag` must be a bool.", [("flag", Json.null)]) ∧
    (∀ (op : index_operation_t) (fallback_field_type : String) (dirty_values : DIRTY_VALUES)
        (pre rest : List field) (document : Doc),
      (validate_fields su op fallback_field_type dirty_values pre document).1.is_ok = true →
      validate_fields su op fallback_field_type dirty_values (pre ++ rest) document =
        validate_fields su op fallback_field_type dirty_values rest
          (validate_fields su op fallback_field_type dirty_values pre document).2 ∧
      ∀ key, (∀ f ∈ rest, f.name ≠ key) →
        Doc.find (validate_fields su op fallback_field_type dirty_values (pre ++ rest)
          document).2 key =
          Doc.find (validate_fields su op fallback_field_type dirty_values pre
            document).2 key) := by
  refine ⟨?_, rfl, rfl, ?_⟩
  · have hce : coerce_element su ⟨"loc", field_types.GEOPOINT, false, false, 0⟩
        [("loc", Json.array [Json.string "1.5", Json.string "abc"])] ""
        DIRTY_VALUES.COERCE_OR_REJECT =
        (Outcome.error 400 "Field `loc` must be a geopoint.",
          [("loc", Json.array [Json.number_float x, Json.string "abc"])]) := by
      simp [coerce_element, coerce_geopoint, coerce_geopoint_elem, subscript_fill, item_bind,
        item_value, item_assign, return_or_200, Doc.index, Doc.find, Doc.touch, Doc.contains,
        Doc.assign, Json.is_array, Json.size, Json.elems, Json.is_number, Json.is_string,
        Json.is_number_integer, Json.is_number_float, get_string, hfloat, hstof, hnot,
        Outcome.is_ok]
    unfold validate_index_in_memory
    simp only [ne_eq, not_true_eq_false, decide_False, Bool.false_and, Bool.and_false,
      Bool.false_eq_true, if_false]
    rw [validate_fields_coerce su index_operation_t.CREATE "" DIRTY_VALUES.COERCE_OR_REJECT
      ⟨"loc", field_types.GEOPOINT, false, false, 0⟩ []
      [("loc", Json.array [Json.string "1.5", Json.string "abc"])]
      (Json.array [Json.string "1.5", Json.string "abc"]) (by decide) rfl rfl (Or.inl rfl),
      hce]
    rfl
  · intro op fb dv pre rest d hok
    have happ := validate_fields_append su op fb dv rest pre d
    rw [if_pos hok] at happ
    refine ⟨happ, fun key hne => ?_⟩
    rw [happ]
    exact validate_fields_frame su op fb dv key rest _ hne

/-- Witness for C31: the helpers of the concrete instance accept "1.5" and
reject "abc"; the first element has become the number 1.5. -/
theorem validation_not_atomic_witness :
    validate_index_in_memory StringUtils.model
        [("loc", Json.array [Json.string "1.5", Json.string "abc"])] 0 ""
        [⟨"loc", field_types.GEOPOINT, false, false, 0⟩]
        index_operation_t.CREATE "" DIRTY_VALUES.COERCE_OR_REJECT =
      (Outcome.error 400 "Field `loc` must be a geopoint.",
        [("loc", Json.array [Json.number_float ⟨12582912, -23⟩, Json.string "abc"])]) :=
  (validation_not_atomic StringUtils.model ⟨12582912, -23⟩ (by decide) (by decide)
    (by decide)).1

/-! ## Mean pooling -/

theorem mean_pooling_sum_eq (i : Nat) :
    ∀ (rows : List (List ℚ)) (sum : ℚ), (∀ row ∈ rows, i < row.length) →
      mean_pooling_sum i rows sum = some (sum + (rows.map (fun row => row.getD i 0)).sum) := by
  intro rows
  induction rows with
  | nil => intro sum _; simp [mean_pooling_sum]
  | cons row rest ih =>
    intro sum hlen
    have hi : i < row.length := hlen row (List.mem_cons_self row rest)
    have hget : row.get? i = some (row.getD i 0) := by
      rw [List.get?_eq_getElem?, List.getElem?_eq_getElem hi, List.getD_eq_getElem row 0 hi]
    unfold mean_pooling_sum
    rw [hget]
    simp only []
    rw [ih (sum + row.getD i 0) (fun r hr => hlen r (List.mem_cons_of_mem row hr)),
      List.map_cons, List.sum_cons, add_assoc]

theorem mean_pooling_loop_eq (inputs : List (List ℚ)) :
    ∀ (n i : Nat), (∀ row ∈ inputs, i + n ≤ row.length) →
      ∃ out, mean_pooling_loop inputs n i = some out ∧ out.length = n ∧
        ∀ k, k < n → out.getD k 0 =
          (inputs.map (fun row => row.getD (i + k) 0)).sum / (inputs.length : ℚ) := by
  intro n
  induction n with
  | zero =>
    intro i _
    exact ⟨[], rfl, rfl, fun k hk => absurd hk (Nat.not_lt_zero k)⟩
  | succ n ih =>
    intro i hlen
    obtain ⟨out, hout, hl, hk⟩ := ih (i + 1) (fun row hr => by have := hlen row hr; omega)
    have hsum := mean_pooling_sum_eq i inputs 0 (fun row hr => by have := hlen row hr; omega)
    refine ⟨(0 + (inputs.map (fun row => row.getD i 0)).sum) / (inputs.length : ℚ) :: out,
      ?_, by simp [hl], ?_⟩
    · unfold mean_pooling_loop
      rw [hsum, hout]
    · intro k hkn
      cases k with
      | zero => simp
      | succ j =>
        have := hk j (by omega)
        simp only [List.getD_cons_succ]
        rw [this]
        have hidx : i + 1 + j = i + (j + 1) := by omega
        rw [hidx]

/-- C38: over exact arithmetic, for every non-empty list of rows of equal
length `d`, `mean_pooling` returns a list of length `d` whose `i`-th entry is
the sum of the `i`-th entries of all rows divided by the number of rows; on the
empty list it reads `inputs[0]`, which is undefined. -/
theorem mean_pooling_column_means (inputs : List (List ℚ)) (d : Nat)
    (hne : inputs ≠ []) (hlen : ∀ row ∈ inputs, row.length = d) :
    (∃ out, mean_pooling inputs = some out ∧ out.length = d ∧
      ∀ i, i < d → out.getD i 0 =
        (inputs.map (fun row => row.getD i 0)).sum / (inputs.length : ℚ)) ∧
    mean_pooling [] = none := by
  refine ⟨?_, rfl⟩
  cases inputs with
  | nil => exact absurd rfl hne
  | cons first rest =>
    have hfirst : first.length = d := hlen first (List.mem_cons_self first rest)
    obtain ⟨out, hout, hl, hk⟩ := mean_pooling_loop_eq (first :: rest) d 0
      (fun row hr => by rw [hlen row hr]; omega)
    refine ⟨out, ?_, hl, ?_⟩
    · unfold mean_pooling
      simp only []
      rw [hfirst]
      exact hout
    · intro i hi
      have := hk i hi
      rw [Nat.zero_add] at this
      exact this

/-- Witness for C38: two rows of length 2. -/
theorem mean_pooling_column_means_witness :
    (∃ out, mean_pooling [[1, 2], [3, 5]] = some out ∧ out.length = 2 ∧
      ∀ i, i < 2 → out.getD i 0 =
        (([[1, 2], [3, 5]] : List (List ℚ)).map (fun row => row.getD i 0)).sum /
          ((([[1, 2], [3, 5]] : List (List ℚ)).length : Nat) : ℚ)) ∧
    mean_pooling [] = none :=
  mean_pooling_column_means [[1, 2], [3, 5]] 2 (by simp)
    (by
      intro row hrow
      simp only [List.mem_cons, List.mem_singleton, List.not_mem_nil, or_false] at hrow
      rcases hrow with h | h <;> rw [h] <;> rfl)

/-! ## Padding of a batch -/

theorem resize_length (v : List Int) (n : Nat) (fill : Int) : (resize v n fill).length = n := by
  unfold resize
  rw [List.length_append, List.length_take, List.length_replicate]
  omega

theorem resize_of_le (v : List Int) (n : Nat) (fill : Int) (h : v.length ≤ n) :
    resize v n fill = v ++ List.replicate (n - v.length) fill := by
  unfold resize
  rw [List.take_of_length_le h]

theorem max_input_len_foldl (rows : List (List Int)) :
    ∀ m0 : Nat,
      m0 ≤ rows.foldl (fun max_len ids => if ids.length > max_len then ids.length
        else max_len) m0 ∧
      (∀ row ∈ rows, row.length ≤ rows.foldl (fun max_len ids =>
        if ids.length > max_len then ids.length else max_len) m0) ∧
      (rows.foldl (fun max_len ids => if ids.length > max_len then ids.length
          else max_len) m0 = m0 ∨
        ∃ row ∈ rows, row.length = rows.foldl (fun max_len ids =>
          if ids.length > max_len then ids.length else max_len) m0) := by
  induction rows with
  | nil =>
    intro m0
    exact ⟨Nat.le_refl _, fun row hr => absurd hr (List.not_mem_nil row), Or.inl rfl⟩
  | cons r rest ih =>
    intro m0
    rw [List.foldl_cons]
    obtain ⟨h1, h2, h3⟩ := ih (if r.length > m0 then r.length else m0)
    have hstep : m0 ≤ (if r.length > m0 then r.length else m0) ∧
        r.length ≤ (if r.length > m0 then r.length else m0) := by
      split <;> omega
    refine ⟨Nat.le_trans hstep.1 h1, ?_, ?_⟩
    · intro row hrow
      rcases List.mem_cons.mp hrow with h | h
      · rw [h]
        exact Nat.le_trans hstep.2 h1
      · exact h2 row h
    · rcases h3 with h | ⟨row, hrow, h⟩
      · rw [h]
        by_cases hgt : r.length > m0
        · rw [if_pos hgt]
          right
          exact ⟨r, List.mem_cons_self r rest, rfl⟩
        · rw [if_neg hgt]
          exact Or.inl rfl
      · exact Or.inr ⟨row, List.mem_cons_of_mem r hrow, h⟩

/-- C39: for every list of inputs and every tokenizer, after `batch_encode` the
three members have one row per input, in the order of the inputs; every row of
`input_ids`, `attention_mask` and `token_type_ids` has the length L, the
greatest `input_ids` length of the batch (0 for the empty batch); and each row
of `input_ids` is the tokens of its input, in order, followed by zeros only. -/
theorem batch_encode_pads (Encode : String → encoded_input_t) (inputs : List String) :
    ((batch_encode Encode inputs).input_ids.length = inputs.length ∧
      (batch_encode Encode inputs).attention_mask.length = inputs.length ∧
      (batch_encode Encode inputs).token_type_ids.length = inputs.length) ∧
    ((∀ input ∈ inputs, (Encode input).input_ids.length ≤
        max_input_len (inputs.map (fun input => (Encode input).input_ids))) ∧
      (inputs ≠ [] → ∃ input ∈ inputs, (Encode input).input_ids.length =
        max_input_len (inputs.map (fun input => (Encode input).input_ids))) ∧
      (inputs = [] → max_input_len (inputs.map (fun input => (Encode input).input_ids)) = 0)) ∧
    ((∀ row ∈ (batch_encode Encode inputs).input_ids, row.length =
        max_input_len (inputs.map (fun input => (Encode input).input_ids))) ∧
      (∀ row ∈ (batch_encode Encode inputs).attention_mask, row.length =
        max_input_len (inputs.map (fun input => (Encode input).input_ids))) ∧
      (∀ row ∈ (batch_encode Encode inputs).token_type_ids, row.length =
        max_input_len (inputs.map (fun input => (Encode input).input_ids)))) ∧
    (batch_encode Encode inputs).input_ids =
      inputs.map (fun input => (Encode input).input_ids ++
        List.replicate (max_input_len (inputs.map (fun input => (Encode input).input_ids)) -
          (Encode input).input_ids.length) 0) ∧
    (batch_encode Encode inputs).attention_mask =
      inputs.map (fun input => resize (Encode input).attention_mask
        (max_input_len (inputs.map (fun input => (Encode input).input_ids))) 0) ∧
    (batch_encode Encode inputs).token_type_ids =
      inputs.map (fun input => resize (Encode input).token_type_ids
        (max_input_len (inputs.map (fun input => (Encode input).input_ids))) 0) := by
  obtain ⟨_, hle, hmax⟩ := max_input_len_foldl
    (inputs.map (fun input => (Encode input).input_ids)) 0
  have hle' : ∀ input ∈ inputs, (Encode input).input_ids.length ≤
      max_input_len (inputs.map (fun input => (Encode input).input_ids)) :=
    fun input hin => hle _ (List.mem_map_of_mem (fun input => (Encode input).input_ids) hin)
  refine ⟨⟨?_, ?_, ?_⟩, ⟨hle', ?_, ?_⟩, ⟨?_, ?_, ?_⟩, ?_, ?_, ?_⟩
  · simp [batch_encode]
  · simp [batch_encode]
  · simp [batch_encode]
  · intro hne
    rcases hmax with h | ⟨row, hrow, h⟩
    · cases inputs with
      | nil => exact absurd rfl hne
      | cons input rest =>
        refine ⟨input, List.mem_cons_self input rest, ?_⟩
        have h1 := hle' input (List.mem_cons_self input rest)
        unfold max_input_len at h1 ⊢
        rw [h] at h1 ⊢
        omega
    · obtain ⟨input, hin, hrow'⟩ := List.mem_map.mp hrow
      refine ⟨input, hin, ?_⟩
      rw [hrow']
      exact h
  · intro h
    rw [h]
    rfl
  · intro row hrow
    simp only [batch_encode, List.mem_map] at hrow
    obtain ⟨ids, _, h⟩ := hrow
    rw [← h]
    exact resize_length _ _ _
  · intro row hrow
    simp only [batch_encode, List.mem_map] at hrow
    obtain ⟨ids, _, h⟩ := hrow
    rw [← h]
    exact resize_length _ _ _
  · intro row hrow
    simp only [batch_encode, List.mem_map] at hrow
    obtain ⟨ids, _, h⟩ := hrow
    rw [← h]
    exact resize_length _ _ _
  · simp only [batch_encode, List.map_map]
    apply List.map_congr_left
    intro input hin
    exact resize_of_le _ _ _ (hle' input hin)
  · simp only [batch_encode, List.map_map]
    rfl
  · simp only [batch_encode, List.map_map]
    rfl

end Typesense
